import Mathlib

/-!
# TicketFlow: change-diff engine, permission check and assignment handlers

A shallow embedding of the server controllers of the TicketFlow repository
(`controllers/ticketController.js`, `controllers/workspaceController.js`,
`controllers/commentController.js`, `middlewares/authenticate.js`) together with
theorems about them.

JavaScript values are embedded as the inductive type `JsVal`; objects are
association lists from property names to values; code that can throw returns
`Except JsError`; the relational store reached through Prisma is an explicit
record of tables (lists of rows) that the handlers pass along.
-/

namespace TicketFlow

/-! ## JavaScript values -/

/-- The JavaScript values that reach the controllers.  `num` carries the
integer-valued numbers (a number with a fraction, NaN and the infinities are
outside the embedding), `date t` is a `Date` object whose time
value is `t` milliseconds (`none` is the Invalid Date), and `object repr` is any
other object or array, known by the string `repr` that `String(..)` and
`ToPrimitive` give for it. -/
inductive JsVal where
  | undefined
  | null
  | bool (b : Bool)
  | num (n : Int)
  | str (s : String)
  | date (t : Option Int)
  | object (repr : String)
  deriving DecidableEq, Repr, Inhabited

/-- An object: its own enumerable properties in key order. -/
abbrev JsObj := List (String × JsVal)

/-- The test `Object.prototype.hasOwnProperty.call(o, k)`. -/
def hasOwn (o : JsObj) (k : String) : Bool := (o.lookup k).isSome

/-- Property read `o[k]`: the value of the own property, `undefined` without one. -/
def getProp (o : JsObj) (k : String) : JsVal := (o.lookup k).getD JsVal.undefined

/-- Own keys `Object.keys(o)`. -/
def objKeys (o : JsObj) : List String := o.map Prod.fst

/-- The nullish coalescing `v ?? null`. -/
def orNull : JsVal → JsVal
  | JsVal.undefined => JsVal.null
  | v => v

/-- JavaScript truthiness (`ToBoolean`). -/
def truthy : JsVal → Bool
  | JsVal.undefined => false
  | JsVal.null => false
  | JsVal.bool b => b
  | JsVal.num n => n != 0
  | JsVal.str s => s != ""
  | JsVal.date _ => true
  | JsVal.object _ => true

/-- A thrown error: its name, its message and the `status` property that the
controllers attach to the errors they raise themselves. -/
structure JsError where
  name : String
  message : String
  status : Option Nat
  deriving DecidableEq, Repr

/-- The library functions of the JavaScript runtime that the controllers call:
`Date.parse` on a string (`none` is NaN), `Date.prototype.toISOString` on a valid
time value, `Date.prototype.toString`, the upper-case mapping that
`String.prototype.toUpperCase` applies to every code point (the full case mapping
of Unicode, which may give several code points, as for the sharp s), and the
decimal form that `String(..)` gives to a number outside the safe integers (digits
rounded to the shortest form, exponent form from 1e21 on). -/
structure DateLib where
  parse : String → Option Int
  toISOString : Int → String
  dateToString : Option Int → String
  upper : Char → List Char
  numberToString : Int → String

/-- Largest magnitude of a valid time value, in milliseconds. -/
def maxTime : Int := 8640000000000000

/-- Valid time values: those that `TimeClip` keeps. -/
def validTime (t : Int) : Prop := -maxTime ≤ t ∧ t ≤ maxTime

instance (t : Int) : Decidable (validTime t) := by
  unfold validTime; exact inferInstance

/-- The abstract operation `TimeClip` on an integer number of milliseconds. -/
def timeClip (n : Int) : Option Int :=
  if -maxTime ≤ n ∧ n ≤ maxTime then some n else none

/-- Time value of `new Date(v)`. -/
def newDate (D : DateLib) : JsVal → Option Int
  | JsVal.undefined => none
  | JsVal.null => some 0
  | JsVal.bool b => some (if b then 1 else 0)
  | JsVal.num n => timeClip n
  | JsVal.str s => D.parse s
  | JsVal.date t => t
  | JsVal.object repr => D.parse repr

/-- The conversion `String(v)`.  A safe integer is printed with all its digits. -/
def jsString (D : DateLib) : JsVal → String
  | JsVal.undefined => "undefined"
  | JsVal.null => "null"
  | JsVal.bool b => if b then "true" else "false"
  | JsVal.num n => if n.natAbs < 9007199254740992 then toString n else D.numberToString n
  | JsVal.str s => s
  | JsVal.date t => D.dateToString t
  | JsVal.object repr => repr

/-- The method `String.prototype.toUpperCase`: every code point is replaced by its
upper-case mapping. -/
def toUpperCase (D : DateLib) (s : String) : String := String.mk (s.data.flatMap D.upper)

/-- The method `toISOString` of a `Date` object: it throws a `RangeError` on the
Invalid Date. -/
def dateToISOString (D : DateLib) : Option Int → Except JsError String
  | some t => Except.ok (D.toISOString t)
  | none => Except.error ⟨"RangeError", "Invalid time value", none⟩

/-! ## The change-diff engine (`ticketController.js`) -/

/-- The fields that `normalizeForCompare` treats as enumerations. -/
def enumFields : List String := ["status", "priority", "ticket_type"]

/-- Source function `normalizeForCompare(field, val)`. -/
def normalizeForCompare (D : DateLib) (field : String) (val : JsVal) : JsVal :=
  match val with
  | JsVal.undefined => JsVal.undefined
  | JsVal.null => JsVal.null
  | v =>
    if field = "due_date" then
      let d : Option Int :=
        match v with
        | JsVal.date t => t
        | w => newDate D w
      match d with
      | none => JsVal.null
      | some t => JsVal.str (D.toISOString t)
    else if field = "status" ∨ field = "priority" ∨ field = "ticket_type" then
      JsVal.str (toUpperCase D (jsString D v))
    else
      JsVal.str (jsString D v)

/-- One entry of the change list: `{ field, old, val }`. -/
structure Change where
  field : String
  old : JsVal
  val : JsVal
  deriving DecidableEq, Repr

/-- The constant `fields` of `diffTicket`: the tracked fields in declared order. -/
def trackedFields : List String :=
  ["title", "desc", "status", "priority", "assigned_to", "due_date", "parent_id",
    "ticket_type"]

/-- The expression bound to `oldNorm` in `diffTicket`: for `due_date` a truthy
old value goes through `new Date(..).toISOString()` (which throws on an invalid
date) and a falsy one is `null`; every other field goes through
`normalizeForCompare(f, oldT[f] ?? null)`. -/
def oldNormOf (D : DateLib) (oldT : JsObj) (f : String) : Except JsError JsVal :=
  if f = "due_date" then
    if truthy (getProp oldT "due_date") then
      (dateToISOString D (newDate D (getProp oldT "due_date"))).map JsVal.str
    else
      Except.ok JsVal.null
  else
    Except.ok (normalizeForCompare D f (orNull (getProp oldT f)))

/-- The loop of `diffTicket` over the remaining fields `fs`; the entries come out
in the order in which the loop pushes them. -/
def diffLoop (D : DateLib) (oldT data : JsObj) : List String → Except JsError (List Change)
  | [] => Except.ok []
  | f :: fs =>
    if hasOwn data f then
      match oldNormOf D oldT f with
      | Except.error e => Except.error e
      | Except.ok oldNorm =>
        let newNorm := normalizeForCompare D f (getProp data f)
        match diffLoop D oldT data fs with
        | Except.error e => Except.error e
        | Except.ok rest =>
          if newNorm ≠ oldNorm then
            Except.ok ({ field := f, old := oldNorm, val := newNorm } :: rest)
          else
            Except.ok rest
    else
      diffLoop D oldT data fs

/-- Source function `diffTicket(oldT, data)`. -/
def diffTicket (D : DateLib) (oldT data : JsObj) : Except JsError (List Change) :=
  diffLoop D oldT data trackedFields

/-- A small library for evaluation: it knows the epoch and one more instant, and the
upper-case forms of the basic latin letters, of the e with acute accent and of the
sharp s. -/
def sampleDates : DateLib where
  parse := fun s =>
    if s = "1970-01-01T00:00:00.000Z" then some 0
    else if s = "2024-01-01T00:00:00.000Z" then some 1704067200000
    else none
  toISOString := fun t =>
    if t = 0 then "1970-01-01T00:00:00.000Z"
    else if t = 1704067200000 then "2024-01-01T00:00:00.000Z"
    else "other"
  dateToString := fun _ => "date"
  upper := fun c =>
    if c = 'é' then ['É'] else if c = 'ß' then ['S', 'S'] else [c.toUpper]
  numberToString := fun n => toString n


/-! ## Ticket rows -/

/-- A row of the Tickets table, with the columns that `createTicket` writes
(`due_date` is a `Date` or null) and the generated `id`. -/
structure TicketsRow where
  id : String
  workspace_id : String
  ticket_type : String
  title : String
  desc : String
  status : String
  priority : String
  created_by : String
  updated_by : Option String
  due_date : Option Int
  assigned_to : Option String
  parent_id : Option String
  deriving DecidableEq, Repr

/-- A nullable string column as a JavaScript value. -/
def optStr : Option String → JsVal
  | none => JsVal.null
  | some s => JsVal.str s

/-- A nullable date column as a JavaScript value: null or a valid `Date`. -/
def optDate : Option Int → JsVal
  | none => JsVal.null
  | some t => JsVal.date (some t)

/-- The object that Prisma returns for a Tickets row. -/
def TicketsRow.toObj (t : TicketsRow) : JsObj :=
  [("id", JsVal.str t.id), ("workspace_id", JsVal.str t.workspace_id),
   ("ticket_type", JsVal.str t.ticket_type), ("title", JsVal.str t.title),
   ("desc", JsVal.str t.desc), ("status", JsVal.str t.status),
   ("priority", JsVal.str t.priority), ("created_by", JsVal.str t.created_by),
   ("updated_by", optStr t.updated_by), ("due_date", optDate t.due_date),
   ("assigned_to", optStr t.assigned_to), ("parent_id", optStr t.parent_id)]

/-- Writing one property: `o[k] = v`. -/
def setProp (o : JsObj) (k : String) (v : JsVal) : JsObj :=
  if hasOwn o k then o.map (fun kv => if kv.1 = k then (k, v) else kv) else o ++ [(k, v)]

/-- The object `Object.assign(\x7b\x7d, s, p)`: `s` with every key of `p` overwritten by
the value `p` has for it. -/
def overwrite (s p : JsObj) : JsObj := p.foldl (fun acc kv => setProp acc kv.1 kv.2) s

/-- Relation "`s'` is `s` with every key of `p` overwritten by the value of `p`":
`s'` reads as `p` on the keys of `p`, as `s` on the other keys of `s`, and has no
further key. -/
def IsOverwrite (s p s' : JsObj) : Prop :=
  (∀ k ∈ objKeys p, getProp s' k = getProp p k) ∧
  (∀ k ∈ objKeys s, hasOwn p k = false → getProp s' k = getProp s k) ∧
  (∀ k ∈ objKeys s', k ∈ objKeys s ∨ k ∈ objKeys p)

instance (s p s' : JsObj) : Decidable (IsOverwrite s p s') := by
  unfold IsOverwrite; exact inferInstance

/-- The entry that the loop of `diffTicket` pushes for field `f` when the old value
normalizes to `o f`, if it pushes one. -/
def changeOf (D : DateLib) (data : JsObj) (o : String → JsVal) (f : String) : Option Change :=
  if hasOwn data f = true ∧ normalizeForCompare D f (getProp data f) ≠ o f then
    some { field := f, old := o f, val := normalizeForCompare D f (getProp data f) }
  else none

/-- Normalized old value as the comparison of section 4.6 describes it. -/
def oldNormSpec (D : DateLib) (oldT : JsObj) (f : String) : JsVal :=
  normalizeForCompare D f (orNull (getProp oldT f))

/-- The upper-case mapping leaves upper-case forms as they are: mapping the code
points of a mapped code point gives them back.  The mapping of Unicode has this
property. -/
def upperIdempotent (D : DateLib) : Prop := ∀ c, (D.upper c).flatMap D.upper = D.upper c

/-- Characters that are the same letter up to case: equal, or one of them is the
upper-case form of the other. -/
def sameLetter (D : DateLib) (c d : Char) : Prop :=
  c = d ∨ D.upper c = [d] ∨ D.upper d = [c]

/-- Strings that differ only in letter case: of the same length, with the same
letter up to case at every position. -/
def differOnlyInCase (D : DateLib) (a b : String) : Prop :=
  List.Forall₂ (sameLetter D) a.data b.data

/-- Values in upper-case form: a string that `toUpperCase` leaves as it is; the
cleared values null and undefined carry no letters. -/
def isUpperForm (D : DateLib) : JsVal → Prop
  | JsVal.str s => toUpperCase D s = s
  | JsVal.null => True
  | JsVal.undefined => True
  | _ => False

/-- Patch values for `due_date` on which both sides of the comparison agree: null,
a truthy value that denotes a valid date, or a falsy value that denotes none. -/
def dueDateStable (D : DateLib) (v : JsVal) : Prop :=
  v = JsVal.null ∨ (v ≠ JsVal.undefined ∧ (truthy v = true ↔ (newDate D v).isSome = true))

/-- A ticket row for evaluation. -/
def sampleTicket : TicketsRow :=
  { id := "t1", workspace_id := "w1", ticket_type := "BUG", title := "Old", desc := "d",
    status := "open", priority := "HIGH", created_by := "u1", updated_by := none,
    due_date := some 0, assigned_to := some "u1", parent_id := none }

/-- The value of `oldNorm` in `diffTicket` when the expression does not throw: as
`oldNormOf`, with null where `toISOString` would throw. -/
def oldNormValue (D : DateLib) (oldT : JsObj) (f : String) : JsVal :=
  if f = "due_date" then
    if truthy (getProp oldT "due_date") then
      match newDate D (getProp oldT "due_date") with
      | some t => JsVal.str (D.toISOString t)
      | none => JsVal.null
    else JsVal.null
  else normalizeForCompare D f (orNull (getProp oldT f))

/-! ## Requests, responses and the store -/

/-- The authenticated user record that `authenticate` puts in `req.user`. -/
structure ReqUser where
  id : String
  user_type : String
  deriving DecidableEq, Repr

/-- The context `req.ctx`: the flag that `authenticate` sets, the permission keys
that the role-loading middleware stores as a `Set` (`none` while no set is
loaded) and the workspace id that the workspace middleware resolves. -/
structure ReqCtx where
  isSuperAdmin : JsVal
  perms : Option (List String)
  workspaceId : Option String
  deriving DecidableEq, Repr

/-- Route parameters `req.params`. -/
structure Params where
  wid : Option String
  id : Option String
  ticketId : String
  roleId : Option String := none
  deriving DecidableEq, Repr

/-- A request; `body` holds the properties of the JSON body. -/
structure Req where
  user : ReqUser
  ctx : Option ReqCtx
  params : Params
  body : JsObj
  deriving DecidableEq, Repr

/-- Lines 56-58 of `authenticate`: `req.ctx = req.ctx || \x7b\x7d` and
`req.ctx.isSuperAdmin = user.user_type === "SUPER_ADMIN"`. -/
def authenticateCtx (user : ReqUser) (ctx : Option ReqCtx) : ReqCtx :=
  let c : ReqCtx := ctx.getD { isSuperAdmin := JsVal.undefined, perms := none, workspaceId := none }
  { c with isSuperAdmin := JsVal.bool (user.user_type == "SUPER_ADMIN") }

/-- The key that `hasPerm` looks up: the template string of entity, colon, operation. -/
def permKey (entity op : String) : String := entity ++ ":" ++ op

/-- Source function `hasPerm(req, entity, op)`:
`req?.ctx?.isSuperAdmin || req?.ctx?.perms?.has(key)`. -/
def hasPerm (req : Req) (entity op : String) : JsVal :=
  let a : JsVal :=
    match req.ctx with
    | none => JsVal.undefined
    | some c => c.isSuperAdmin
  if truthy a then a
  else
    match req.ctx with
    | none => JsVal.undefined
    | some c =>
      match c.perms with
      | none => JsVal.undefined
      | some ps => JsVal.bool (ps.contains (permKey entity op))

/-- Rows of the Users table (the columns the controllers read). -/
structure UsersRow where
  id : String
  user_type : String
  deriving DecidableEq, Repr

/-- Rows of the Workspace table. -/
structure WorkspaceRow where
  id : String
  name : String
  created_by : String
  admin_id : String
  deriving DecidableEq, Repr

/-- Rows of the Role table. -/
structure RoleRow where
  id : String
  workspace_id : String
  name : String
  desc : Option String
  deriving DecidableEq, Repr

/-- Rows of the Permission table. -/
structure PermissionRow where
  id : String
  entity : String
  operation : String
  deriving DecidableEq, Repr

/-- Rows of the RolePermission join table. -/
structure RolePermissionRow where
  role_id : String
  permission_id : String
  deriving DecidableEq, Repr

/-- Rows of the UserRole table: one Assignment each. -/
structure UserRoleRow where
  user_id : String
  role_id : String
  workspace_id : String
  deriving DecidableEq, Repr

/-- Rows of the History table. -/
structure HistoryRow where
  workspace_id : String
  ticket_id : String
  field_changed : String
  old_value : Option String
  new_value : Option String
  action : String
  changed_by : String
  deriving DecidableEq, Repr

/-- Rows of the Comments table. -/
structure CommentsRow where
  id : String
  ticket_id : String
  user_id : String
  message : String
  parent_id : Option String
  deriving DecidableEq, Repr

/-- The relational store: every table is the list of its rows, in insertion order. -/
structure Store where
  users : List UsersRow
  workspace : List WorkspaceRow
  role : List RoleRow
  permission : List PermissionRow
  rolePermission : List RolePermissionRow
  userRole : List UserRoleRow
  tickets : List TicketsRow
  comments : List CommentsRow
  history : List HistoryRow
  deriving DecidableEq, Repr

/-- What a response carries besides its message. -/
inductive Payload where
  | none
  | workspace (w : WorkspaceRow)
  | ticket (t : TicketsRow)
  | ticketWith (t : TicketsRow) (comments : List CommentsRow) (history : List HistoryRow)
  | ids (xs : List String)
  | assignments (count : Nat) (rows : List UserRoleRow)
  | assignment (row : Option UserRoleRow)
  | removed (count : Nat)
  | role (r : RoleRow)
  | comment (c : CommentsRow)
  | nested (top : List Nat) (objects : List (CommentsRow × List Nat))
  deriving DecidableEq, Repr

/-- A response: the status code, the text sent under `message` or `error`, and the
payload. -/
structure Res where
  status : Nat
  message : String
  payload : Payload
  deriving DecidableEq, Repr

/-- The helper `httpError(res, code, msg)` and the plain `res.status(code).json(..)`
with a text only. -/
def httpError (code : Nat) (msg : String) : Res :=
  { status := code, message := msg, payload := Payload.none }

/-- The chain `a || b || c` on optional strings: the first truthy (non-empty) one. -/
def firstTruthy : List (Option String) → Option String
  | [] => none
  | some s :: rest => if s != "" then some s else firstTruthy rest
  | none :: rest => firstTruthy rest

/-- The expression `req.params.wid || req.params.id || req?.ctx?.workspaceId`. -/
def workspaceIdOf (req : Req) : Option String :=
  firstTruthy [req.params.wid, req.params.id, req.ctx.bind (fun c => c.workspaceId)]

/-- Outcome of the pattern matcher of the database: the text matches; it does not
match from this place; it cannot match from a later place either; the pattern is
rejected. -/
inductive LikeResult where
  | yes
  | no
  | abort
  | invalid
  deriving DecidableEq, Repr

/-- The wildcards that follow a `%` in a pattern are skipped: a further `%` is
dropped, a `_` takes one character of the text (`none` when the text has none left).
The result is the text and the pattern that remain. -/
def likeSkip : List Char → List Char → Option (List Char × List Char)
  | t, [] => some (t, [])
  | t, q :: p =>
    if q = '%' then likeSkip t p
    else if q = '_' then
      match t with
      | [] => none
      | _ :: t' => likeSkip t' p
    else some (t, q :: p)

/-- The search that a `%` starts: the rest of the pattern, which begins with the
literal `firstpat`, is tried by `k` at every place of the text that begins with that
character, until one try does not end with `no`. -/
def likeSearch (firstpat : Char) (k : List Char → LikeResult) : List Char → LikeResult
  | [] => LikeResult.abort
  | c :: t =>
    if c = firstpat then
      match k (c :: t) with
      | LikeResult.no => likeSearch firstpat k t
      | r => r
    else likeSearch firstpat k t

/-- The matcher of the database for `text LIKE pattern` (PostgreSQL), with `fuel`
above the length of the pattern: `%` stands for any run of characters, `_` for any
one character, a backslash takes the next pattern character literally, and a
backslash at the end of the pattern is rejected when the matcher comes to it. -/
def matchText : Nat → List Char → List Char → LikeResult
  | 0, _, _ => LikeResult.abort
  | fuel + 1, t, p =>
    match t, p with
    | [], _ => if p.all (fun q => q == '%') then LikeResult.yes else LikeResult.abort
    | _ :: _, [] => LikeResult.no
    | c :: t', q :: p' =>
      if q = '\\' then
        match p' with
        | [] => LikeResult.invalid
        | q' :: p'' => if q' = c then matchText fuel t' p'' else LikeResult.no
      else if q = '%' then
        match likeSkip (c :: t') p' with
        | none => LikeResult.abort
        | some (_, []) => LikeResult.yes
        | some (t1, q1 :: p1) =>
          if q1 = '\\' then
            match p1 with
            | [] => LikeResult.invalid
            | q2 :: _ => likeSearch q2 (fun u => matchText fuel u (q1 :: p1)) t1
          else likeSearch q1 (fun u => matchText fuel u (q1 :: p1)) t1
      else if q = '_' then matchText fuel t' p'
      else if q = c then matchText fuel t' p'
      else LikeResult.no

/-- The comparison `text ILIKE pattern` of the database: both strings are
lower-cased with the `lower` of the database locale and then matched. -/
def ilike (lower : String → String) (pattern text : String) : LikeResult :=
  matchText ((lower pattern).data.length + 1) (lower text).data (lower pattern).data

/-- The query `workspace.findFirst` with the filter
`name: \x7b equals: name, mode: "insensitive" \x7d`, which the database client sends
as `name ILIKE $1` with the requested name as the pattern: the first row whose name
matches; the query fails when the database rejects the pattern on a row. -/
def findWorkspaceByName (lower : String → String) (name : String) :
    List WorkspaceRow → Except JsError (Option WorkspaceRow)
  | [] => Except.ok none
  | w :: ws =>
    match ilike lower name w.name with
    | LikeResult.yes => Except.ok (some w)
    | LikeResult.invalid =>
      Except.error { name := "PrismaClientUnknownRequestError",
                     message := "LIKE pattern must not end with escape character",
                     status := none }
    | _ => findWorkspaceByName lower name ws

/-- Characters that a pattern takes literally. -/
def plainChar (q : Char) : Prop := q ≠ '%' ∧ q ≠ '_' ∧ q ≠ '\\'

instance (q : Char) : Decidable (plainChar q) := by
  unfold plainChar; exact inferInstance

/-- Lower-casing on basic latin letters, for evaluation. -/
def toLowerCase (s : String) : String := String.mk (s.data.map Char.toLower)

/-! ## Workspace controller -/

/-- The constant `DEFAULT_ROLES`: role names with their permission pairs. -/
def DEFAULT_ROLES : List (String × List (String × String)) :=
  [("Admin",
    [("ROLE", "CREATE"), ("ROLE", "READ"), ("ROLE", "UPDATE"), ("ROLE", "DELETE"),
     ("USER", "CREATE"), ("USER", "READ"), ("USER", "UPDATE"), ("USER", "DELETE"),
     ("USER_ROLE", "CREATE"), ("USER_ROLE", "READ"), ("USER_ROLE", "UPDATE"),
     ("USER_ROLE", "DELETE"),
     ("ROLE_PERMISSION", "CREATE"), ("ROLE_PERMISSION", "READ"),
     ("ROLE_PERMISSION", "UPDATE"), ("ROLE_PERMISSION", "DELETE"),
     ("TICKET", "CREATE"), ("TICKET", "READ"), ("TICKET", "UPDATE"), ("TICKET", "DELETE"),
     ("COMMENT", "CREATE"), ("COMMENT", "READ"), ("COMMENT", "UPDATE"),
     ("COMMENT", "DELETE"),
     ("HISTORY", "READ")])]

/-- Source function `ensurePermission`: the upsert on the unique pair
(entity, operation); `newId` is the id the store gives to a created row. -/
def ensurePermission (s : Store) (entity operation : String) (newId : String) :
    Store × PermissionRow :=
  match s.permission.find? (fun p => p.entity = entity ∧ p.operation = operation) with
  | some p => (s, p)
  | none =>
    let p : PermissionRow := { id := newId, entity := entity, operation := operation }
    ({ s with permission := s.permission ++ [p] }, p)

/-- The calls `ensurePermission` of `grantPermissionsToRole`, one per listed pair;
the `i`-th call may use the id `gen (n + i)`. -/
def ensurePermissions (gen : Nat → String) :
    Store → Nat → List (String × String) → Store × List PermissionRow
  | s, _, [] => (s, [])
  | s, n, (e, o) :: rest =>
    let (s1, p) := ensurePermission s e o (gen n)
    let (s2, ps) := ensurePermissions gen s1 (n + 1) rest
    (s2, p :: ps)

/-- The call `rolePermission.createMany` with `skipDuplicates`: a pair already in
the table is not inserted again. -/
def createRolePermissions (table : List RolePermissionRow) :
    List RolePermissionRow → List RolePermissionRow
  | [] => table
  | r :: rest =>
    if r ∈ table then createRolePermissions table rest
    else createRolePermissions (table ++ [r]) rest

/-- Source function `grantPermissionsToRole(roleId, perms, tx)`. -/
def grantPermissionsToRole (gen : Nat → String) (s : Store) (n : Nat) (roleId : String)
    (perms : List (String × String)) : Store :=
  let (s1, permRows) := ensurePermissions gen s n perms
  let rows : List RolePermissionRow :=
    permRows.map (fun p => { role_id := roleId, permission_id := p.id })
  { s1 with rolePermission := createRolePermissions s1.rolePermission rows }

/-- The role rows that the transaction of `createWorkspace` creates from the
templates; the `i`-th role gets the id `gen (n + i)`. -/
def createDefaultRoles (gen : Nat → String) (wsId : String) :
    Nat → List (String × List (String × String)) → List RoleRow
  | _, [] => []
  | n, (name, _) :: rest =>
    { id := gen n, workspace_id := wsId, name := name, desc := none } ::
      createDefaultRoles gen wsId (n + 1) rest

/-- The grants of `createWorkspace`: `grantPermissionsToRole` for every created role
with the permissions of its template; permission ids are taken from `gen` from
index `n` on, a block of ids per role. -/
def grantDefaultRoles (gen : Nat → String) :
    Store → Nat → List RoleRow → List (String × List (String × String)) → Store
  | s, n, r :: rs, (_, perms) :: ts =>
    grantDefaultRoles gen (grantPermissionsToRole gen s n r.id perms) (n + perms.length) rs ts
  | s, _, _, _ => s

/-- Source function `requireSuperAdmin(req)`: it throws the 403 error unless
`req.user.user_type` is `"SUPER_ADMIN"`. -/
def requireSuperAdmin (req : Req) : Except JsError Unit :=
  if req.user.user_type ≠ "SUPER_ADMIN" then
    Except.error { name := "Error", message := "Only SUPER_ADMIN can perform this action",
                   status := some 403 }
  else Except.ok ()

/-- Source function `createWorkspace(req, res)`.  `lower` is the lower-casing of the
database locale, which the case-insensitive filter uses.  The ids that the store
generates come from `gen`: `gen 0` for the workspace, the next ones for the roles,
the rest for permissions. -/
def createWorkspace (lower : String → String) (gen : Nat → String) (s : Store) (req : Req) :
    Store × Res :=
  match requireSuperAdmin req with
  | Except.error e =>
    (s, httpError (e.status.getD 500)
          (if e.message ≠ "" then e.message else "Internal Server Error"))
  | Except.ok _ =>
    if !truthy (getProp req.body "name") || !truthy (getProp req.body "admin_id") then
      (s, httpError 400 "All fields are required")
    else
      match getProp req.body "name" with
      | JsVal.str name =>
        match findWorkspaceByName lower name s.workspace with
        | Except.error e =>
          (s, httpError (e.status.getD 500)
                (if e.message ≠ "" then e.message else "Internal Server Error"))
        | Except.ok (some _) =>
          (s, httpError 409 "Workspace with this name already exists")
        | Except.ok none =>
          match getProp req.body "admin_id" with
          | JsVal.str adminId =>
            if (s.users.find? (fun u => u.id = adminId)).isNone then
              (s, httpError 404 "Admin user not found")
            else
              let workspace : WorkspaceRow :=
                { id := gen 0, name := name, created_by := req.user.id, admin_id := adminId }
              let s1 := { s with workspace := s.workspace ++ [workspace] }
              let roles := createDefaultRoles gen workspace.id 1 DEFAULT_ROLES
              let s2 := { s1 with role := s1.role ++ roles }
              let s3 := grantDefaultRoles gen s2 (1 + DEFAULT_ROLES.length) roles DEFAULT_ROLES
              let s4 :=
                match roles.find? (fun r => r.name = "Admin") with
                | some adminRole =>
                  { s3 with userRole := s3.userRole ++
                      [{ user_id := adminId, role_id := adminRole.id,
                         workspace_id := workspace.id }] }
                | none => s3
              (s4, { status := 201, message := "", payload := Payload.workspace workspace })
          -- a value that is no string is rejected by the database client
          | _ => (s, httpError 500 "Internal Server Error")
      | _ => (s, httpError 500 "Internal Server Error")

/-- An array argument of the body of a bulk assignment: absent (the destructuring
default `[]` applies), present but no array, or an array of ids. -/
inductive ArrayArg where
  | absent
  | notArray
  | array (xs : List String)
  deriving DecidableEq, Repr

/-- The value after the destructuring default, `none` when it is no array. -/
def ArrayArg.toList? : ArrayArg → Option (List String)
  | ArrayArg.absent => some []
  | ArrayArg.notArray => none
  | ArrayArg.array xs => some xs

/-- The method `Map.prototype.set` on a map kept in insertion order: an existing key
keeps its position and takes the new value, a new key goes to the end. -/
def mapSet (m : List (String × String)) (k v : String) : List (String × String) :=
  if (m.lookup k).isSome then m.map (fun kv => if kv.1 = k then (k, v) else kv)
  else m ++ [(k, v)]

/-- The map `finalByUser` of `assignRolestoUsers`:
`users.forEach((uid, i) => finalByUser.set(uid, roles[i]))`. -/
def finalByUser (users roles : List String) : List (String × String) :=
  (users.zip roles).foldl (fun m p => mapSet m p.1 p.2) []

/-- The distinct elements in first-occurrence order: `[...new Set(xs)]`. -/
def distinct : List String → List String
  | [] => []
  | x :: xs => x :: (distinct xs).filter (fun y => y ≠ x)

/-- Source function `assignRolestoUsers(req, res)`; `users` and `roles` are the two
array arguments of the body. -/
def assignRolestoUsers (s : Store) (req : Req) (usersArg rolesArg : ArrayArg) : Store × Res :=
  let workspaceId := workspaceIdOf req
  match usersArg.toList?, rolesArg.toList? with
  | some users, some roles =>
    if users.length ≠ roles.length ∨ users.length = 0 then
      (s, httpError 400 "Provide non-empty 'users' and 'roles' arrays of equal length")
    else
      match workspaceId with
      | none => (s, httpError 400 "workspace id is required in path")
      | some wid =>
        if !truthy (hasPerm req "USER_ROLE" "CREATE") then
          (s, httpError 403 "Access Denied : USER_ROLE:CREATE required")
        else if (s.workspace.find? (fun w => w.id = wid)).isNone then
          (s, httpError 404 "Workspace not found")
        else
          let roleIds := distinct roles
          let wsRoles := s.role.filter (fun r => r.id ∈ roleIds ∧ r.workspace_id = wid)
          let validRoleIdSet := wsRoles.map (fun r => r.id)
          let invalidRoleIds := roleIds.filter (fun rid => rid ∉ validRoleIdSet)
          if invalidRoleIds.length ≠ 0 then
            (s, { status := 404, message := "Some roles do not belong to this workspace",
                  payload := Payload.ids invalidRoleIds })
          else
            let userIds := distinct users
            let foundUsers := s.users.filter (fun u => u.id ∈ userIds)
            let foundUserIdSet := foundUsers.map (fun u => u.id)
            let missingUsers := userIds.filter (fun uid => uid ∉ foundUserIdSet)
            if missingUsers.length ≠ 0 then
              (s, { status := 404, message := "Some users were not found",
                    payload := Payload.ids missingUsers })
            else
              let final := finalByUser users roles
              let userIdsForThisRequest := final.map Prod.fst
              let rowsToCreate : List UserRoleRow :=
                userIdsForThisRequest.map (fun user_id =>
                  { user_id := user_id, workspace_id := wid,
                    role_id := (final.lookup user_id).getD "" })
              let kept := s.userRole.filter
                (fun r => ¬ (r.workspace_id = wid ∧ r.user_id ∈ userIdsForThisRequest))
              let table := if rowsToCreate.length ≠ 0 then kept ++ rowsToCreate else kept
              let s' := { s with userRole := table }
              let enriched := s'.userRole.filter
                (fun r => r.workspace_id = wid ∧ r.user_id ∈ userIdsForThisRequest)
              (s', { status := 200, message := "Roles assigned",
                     payload := Payload.assignments rowsToCreate.length enriched })
  | _, _ => (s, httpError 400 "Provide non-empty 'users' and 'roles' arrays of equal length")

/-- Source function `updateAssignedRoleForUser(req, res)`. -/
def updateAssignedRoleForUser (s : Store) (req : Req) : Store × Res :=
  let user_id := getProp req.body "user_id"
  let role_id := getProp req.body "role_id"
  match workspaceIdOf req with
  | none => (s, httpError 400 "workspace id is required in path")
  | some wid =>
    if !truthy user_id || !truthy role_id then
      (s, httpError 400 "user_id and role_id are required")
    else if !truthy (hasPerm req "USER_ROLE" "UPDATE") then
      (s, httpError 403 "Access Denied : USER_ROLE:UPDATE required")
    else if (s.workspace.find? (fun w => w.id = wid)).isNone then
      (s, httpError 404 "Workspace not found")
    else
      match user_id with
      | JsVal.str uid =>
        if (s.users.find? (fun u => u.id = uid)).isNone then
          (s, httpError 404 "User not found")
        else
          match role_id with
          | JsVal.str rid =>
            match s.role.find? (fun r => r.id = rid ∧ r.workspace_id = wid) with
            | none => (s, httpError 404 "Role does not belong to this workspace")
            | some _ =>
              -- the query selects the id only, so `role.name` reads as undefined
              let roleName : JsVal := JsVal.undefined
              if roleName = JsVal.str "Admin" ∧ req.user.user_type ≠ "SUPER_ADMIN" then
                (s, httpError 403 "Only Super Admin can update Admin role")
              else
                let kept := s.userRole.filter
                  (fun r => ¬ (r.user_id = uid ∧ r.workspace_id = wid))
                let row : UserRoleRow := { user_id := uid, workspace_id := wid, role_id := rid }
                let s' := { s with userRole := kept ++ [row] }
                let assignment := s'.userRole.find?
                  (fun r => r.user_id = uid ∧ r.workspace_id = wid)
                (s', { status := 200, message := "Role updated for user",
                       payload := Payload.assignment assignment })
          -- a value that is no string is rejected by the database client
          | _ => (s, httpError 500 "Failed to update user's role")
      | _ => (s, httpError 500 "Failed to update user's role")

/-- The filter `where` of `removeAssignedRolesForUser`: with a truthy `role_id` the
rows of the user in the workspace with that role, otherwise all rows of the user in
the workspace. -/
def removalWhere (role_id : JsVal) (uid wid : String) (r : UserRoleRow) : Bool :=
  if truthy role_id then
    decide (r.user_id = uid ∧ r.workspace_id = wid ∧ JsVal.str r.role_id = role_id)
  else decide (r.user_id = uid ∧ r.workspace_id = wid)

/-- Source function `removeAssignedRolesForUser(req, res)`. -/
def removeAssignedRolesForUser (s : Store) (req : Req) : Store × Res :=
  let user_id := getProp req.body "user_id"
  let role_id := getProp req.body "role_id"
  match workspaceIdOf req with
  | none => (s, httpError 400 "workspace id is required in path")
  | some wid =>
    if !truthy user_id then (s, httpError 400 "user_id is required")
    else if !truthy (hasPerm req "USER_ROLE" "DELETE") then
      (s, httpError 403 "Access Denied : USER_ROLE:DELETE required")
    else
      match user_id with
      | JsVal.str uid =>
        if (s.users.find? (fun u => u.id = uid)).isNone then
          (s, httpError 404 "User not found")
        else
          -- `findFirst` with `id: role_id`: an undefined id is no filter, a string
          -- filters, anything else is rejected by the client
          let roleQuery : Option (Option RoleRow) :=
            match role_id with
            | JsVal.undefined => some (s.role.find? (fun r => r.workspace_id = wid))
            | JsVal.str rid => some (s.role.find? (fun r => r.id = rid ∧ r.workspace_id = wid))
            | _ => none
          match roleQuery with
          | none => (s, httpError 500 "Failed to remove user's role(s)")
          | some none => (s, httpError 404 "Role does not belong to this workspace")
          | some (some _) =>
            -- the query selects the id only, so `role.name` reads as undefined
            let roleName : JsVal := JsVal.undefined
            if roleName = JsVal.str "Admin" ∧ req.user.user_type ≠ "SUPER_ADMIN" then
              (s, httpError 403 "Only Super Admin can remove Admin role")
            else
              let matches_ := removalWhere role_id uid wid
              let removed := (s.userRole.filter matches_).length
              let s' := { s with userRole := s.userRole.filter (fun r => !matches_ r) }
              (s', { status := 200,
                     message := if truthy role_id then "Role removed from user"
                                else "All roles removed from user",
                     payload := Payload.removed removed })
      | _ => (s, httpError 500 "Failed to remove user's role(s)")

/-! ## Ticket controller: handlers -/

/-- Source function `assertUserInWorkspace(userId, workspaceId)`: it throws the 403
error when no UserRole row ties the user to the workspace. -/
def assertUserInWorkspace (s : Store) (userId workspaceId : String) : Except JsError Unit :=
  match s.userRole.find? (fun r => r.user_id = userId ∧ r.workspace_id = workspaceId) with
  | some _ => Except.ok ()
  | none =>
    Except.error { name := "Error", message := "User is not a member of this workspace",
                   status := some 403 }

/-- Source function `getTicketAndAssertAccess(ticketId, userId)`. -/
def getTicketAndAssertAccess (s : Store) (ticketId userId : String) :
    Except JsError TicketsRow :=
  match s.tickets.find? (fun t => t.id = ticketId) with
  | none => Except.error { name := "Error", message := "Ticket not found", status := some 404 }
  | some t =>
    match assertUserInWorkspace s userId t.workspace_id with
    | Except.error e => Except.error e
    | Except.ok _ => Except.ok t

/-- The value written to `old_value` and `new_value`:
`c.old !== null ? String(c.old) : null`. -/
def historyValue (D : DateLib) (v : JsVal) : Option String :=
  if v ≠ JsVal.null then some (jsString D v) else none

/-- The rows that `writeHistory` hands to `history.createMany`. -/
def historyRows (D : DateLib) (workspaceId ticketId userId : String) (changes : List Change)
    (action : String) : List HistoryRow :=
  changes.map (fun c =>
    { workspace_id := workspaceId, ticket_id := ticketId, field_changed := c.field,
      old_value := historyValue D c.old, new_value := historyValue D c.val,
      action := action, changed_by := userId })

/-- Source function `writeHistory(tx, workspaceId, ticketId, userId, changes, action)`. -/
def writeHistory (D : DateLib) (s : Store) (workspaceId ticketId userId : String)
    (changes : List Change) (action : String) : Store :=
  if changes.length = 0 then s
  else
    { s with history := s.history ++ historyRows D workspaceId ticketId userId changes action }

/-- The Set `allowed` of `updateTicket`. -/
def allowed : List String :=
  ["title", "desc", "status", "priority", "assigned_to", "due_date", "parent_id",
    "ticket_type"]

/-- The loop of `updateTicket` that builds `updateData` from the keys of the body:
keys outside `allowed` are skipped, `due_date` becomes a `Date` (or null when the
sent value is falsy), every other value is copied. -/
def buildUpdateData (D : DateLib) (body : JsObj) : List String → JsObj → JsObj
  | [], acc => acc
  | k :: ks, acc =>
    if k ∉ allowed then buildUpdateData D body ks acc
    else if k = "due_date" then
      let v := if truthy (getProp body "due_date") then
                 JsVal.date (newDate D (getProp body "due_date"))
               else JsVal.null
      buildUpdateData D body ks (setProp acc "due_date" v)
    else buildUpdateData D body ks (setProp acc k (getProp body k))

/-- The object `updateData` of `updateTicket`. -/
def updateDataOf (D : DateLib) (body : JsObj) : JsObj :=
  buildUpdateData D body (objKeys body) []

/-- Writing one column of a Tickets row with the value the client was given:
`undefined` leaves the column alone, a value of the wrong type for the column is
rejected (`none`). -/
def setColumn (row : TicketsRow) (k : String) (v : JsVal) : Option TicketsRow :=
  match v with
  | JsVal.undefined => some row
  | JsVal.str x =>
    if k = "title" then some { row with title := x }
    else if k = "desc" then some { row with desc := x }
    else if k = "status" then some { row with status := x }
    else if k = "priority" then some { row with priority := x }
    else if k = "ticket_type" then some { row with ticket_type := x }
    else if k = "assigned_to" then some { row with assigned_to := some x }
    else if k = "parent_id" then some { row with parent_id := some x }
    else if k = "updated_by" then some { row with updated_by := some x }
    else if k = "id" then some { row with id := x }
    else if k = "workspace_id" then some { row with workspace_id := x }
    else if k = "created_by" then some { row with created_by := x }
    else none
  | JsVal.null =>
    if k = "assigned_to" then some { row with assigned_to := none }
    else if k = "parent_id" then some { row with parent_id := none }
    else if k = "due_date" then some { row with due_date := none }
    else if k = "updated_by" then some { row with updated_by := none }
    else none
  | JsVal.date (some t) =>
    if k = "due_date" then some { row with due_date := some t } else none
  | _ => none

/-- All columns of `data` written to a row, in key order. -/
def setColumns : TicketsRow → JsObj → Option TicketsRow
  | row, [] => some row
  | row, (k, v) :: rest =>
    match setColumn row k v with
    | none => none
    | some row' => setColumns row' rest

/-- The call `tx.tickets.update` with `where: \x7b id \x7d`: the columns of `data` are
written to the row; the call throws (`none`) when a value does not fit its column
or when the written row breaks a constraint of the table, which `accepts` decides
(enumeration labels and foreign keys are declared in the database schema). -/
def ticketsUpdate (accepts : Store → TicketsRow → Bool) (s : Store) (ticketId : String)
    (data : JsObj) : Option (Store × TicketsRow) :=
  match s.tickets.find? (fun t => t.id = ticketId) with
  | none => none
  | some row =>
    match setColumns row data with
    | none => none
    | some row' =>
      if accepts s row' then
        some ({ s with tickets := s.tickets.map (fun t => if t.id = ticketId then row' else t) },
              row')
      else none

/-- The response of the `catch` block of `updateTicket`. -/
def updateTicketFailure (e : JsError) : Res :=
  { status := e.status.getD 500,
    message := if e.message ≠ "" then e.message else "Failed to update ticket",
    payload := Payload.none }

/-- The error that the database client throws on a rejected query. -/
def clientError : JsError :=
  { name := "PrismaClientKnownRequestError", message := "Invalid invocation", status := none }

/-- The validations of `updateTicket` between the access check and the building of
`updateData`: `none` when they pass, the response otherwise. -/
def validateUpdate (s : Store) (current : TicketsRow) (body : JsObj) : Option Res :=
  let parentCheck : Option Res :=
    if truthy (getProp body "parent_id") then
      match getProp body "parent_id" with
      | JsVal.str pid =>
        match s.tickets.find? (fun t => t.id = pid) with
        | none => some (httpError 400 "Invalid parent ticket for this workspace")
        | some parent =>
          if parent.workspace_id ≠ current.workspace_id then
            some (httpError 400 "Invalid parent ticket for this workspace")
          else none
      | _ => some (updateTicketFailure clientError)
    else none
  match parentCheck with
  | some r => some r
  | none =>
    if truthy (getProp body "assigned_to") then
      match getProp body "assigned_to" with
      | JsVal.str uid =>
        match s.userRole.find?
            (fun r => r.user_id = uid ∧ r.workspace_id = current.workspace_id) with
        | none => some (httpError 400 "Assignee is not a member of this workspace")
        | some _ => none
      | _ => some (updateTicketFailure clientError)
    else none

/-- Source function `updateTicket(req, res)`. -/
def updateTicket (D : DateLib) (accepts : Store → TicketsRow → Bool) (s : Store) (req : Req) :
    Store × Res :=
  let ticketId := req.params.ticketId
  let userId := req.user.id
  match getTicketAndAssertAccess s ticketId userId with
  | Except.error e => (s, updateTicketFailure e)
  | Except.ok current =>
    match validateUpdate s current req.body with
    | some r => (s, r)
    | none =>
      let updateData := updateDataOf D req.body
      match diffTicket D current.toObj updateData with
      | Except.error e => (s, updateTicketFailure e)
      | Except.ok changes =>
        if changes.length = 0 then
          (s, { status := 200, message := "No changes", payload := Payload.ticket current })
        else
          match ticketsUpdate accepts s ticketId
              (updateData ++ [("updated_by", JsVal.str userId)]) with
          | none => (s, updateTicketFailure clientError)
          | some (s1, t) =>
            let s2 := writeHistory D s1 t.workspace_id t.id userId changes "UPDATE"
            (s2, { status := 200, message := "Ticket updated", payload := Payload.ticket t })

/-! ## Sequences of assignment calls -/

/-- A call of one of the handlers that write Assignment rows, with its arguments. -/
inductive Call where
  | createWorkspace (lower : String → String) (gen : Nat → String) (req : Req)
  | assignRolestoUsers (req : Req) (users roles : ArrayArg)
  | updateAssignedRoleForUser (req : Req)
  | removeAssignedRolesForUser (req : Req)

/-- The store after a call. -/
def Call.run (s : Store) : Call → Store
  | Call.createWorkspace lower gen req => (TicketFlow.createWorkspace lower gen s req).1
  | Call.assignRolestoUsers req users roles => (TicketFlow.assignRolestoUsers s req users roles).1
  | Call.updateAssignedRoleForUser req => (TicketFlow.updateAssignedRoleForUser s req).1
  | Call.removeAssignedRolesForUser req => (TicketFlow.removeAssignedRolesForUser s req).1

/-- An id is unused as a workspace id: no workspace row has it and no row of a
table that refers to workspaces carries it. -/
def workspaceIdUnused (s : Store) (wid : String) : Prop :=
  (∀ w ∈ s.workspace, w.id ≠ wid) ∧ (∀ r ∈ s.role, r.workspace_id ≠ wid) ∧
  (∀ r ∈ s.userRole, r.workspace_id ≠ wid) ∧ (∀ t ∈ s.tickets, t.workspace_id ≠ wid)

instance (s : Store) (wid : String) : Decidable (workspaceIdUnused s wid) := by
  unfold workspaceIdUnused; exact inferInstance

/-- The store generates ids that are new: the workspace id that a `createWorkspace`
call receives is unused in the store the call starts from. -/
def Call.freshIds (s : Store) : Call → Prop
  | Call.createWorkspace _ gen _ => workspaceIdUnused s (gen 0)
  | _ => True

/-- The store after a sequence of calls, the first call of the list first. -/
def runCalls : Store → List Call → Store
  | s, [] => s
  | s, c :: cs => runCalls (c.run s) cs

/-- Every call of the sequence receives fresh ids in the store it starts from. -/
def callsFresh : Store → List Call → Prop
  | _, [] => True
  | s, c :: cs => c.freshIds s ∧ callsFresh (c.run s) cs

/-- The Assignment rows of a user in a workspace. -/
def assignmentsOf (s : Store) (userId workspaceId : String) : List UserRoleRow :=
  s.userRole.filter (fun r => r.user_id = userId ∧ r.workspace_id = workspaceId)

/-- Invariant: every (user, workspace) pair has at most one Assignment row. -/
def AtMostOneAssignment (s : Store) : Prop :=
  ∀ u w, (assignmentsOf s u w).length ≤ 1

/-- A request of a workspace member who is no super-admin and holds two ticket
permissions. -/
def sampleMemberReq : Req :=
  { user := { id := "u1", user_type := "OTHER" },
    ctx := some (authenticateCtx { id := "u1", user_type := "OTHER" }
      (some { isSuperAdmin := JsVal.undefined, perms := some ["TICKET:READ", "TICKET:*"],
              workspaceId := some "w1" })),
    params := { wid := some "w1", id := none, ticketId := "t1" },
    body := [] }

/-- A store for evaluation: one workspace with two roles, its admin `u1`, a second
user `u2` without Assignment and the super-admin `u0`. -/
def sampleStore : Store :=
  { users := [{ id := "u0", user_type := "SUPER_ADMIN" }, { id := "u1", user_type := "OTHER" },
              { id := "u2", user_type := "OTHER" }],
    workspace := [{ id := "w1", name := "Acme", created_by := "u0", admin_id := "u1" }],
    role := [{ id := "r1", workspace_id := "w1", name := "Admin", desc := none },
             { id := "r2", workspace_id := "w1", name := "Dev", desc := none }],
    permission := [],
    rolePermission := [],
    userRole := [{ user_id := "u1", role_id := "r1", workspace_id := "w1" }],
    tickets := [sampleTicket],
    comments := [],
    history := [] }

/-- Generated ids for evaluation. -/
def sampleGen : Nat → String := fun n =>
  if n = 0 then "w2" else if n = 1 then "r3" else String.mk (List.replicate n 'p')

/-- A request of the workspace admin `u1` on workspace `w1` with the given body. -/
def sampleAdminReq (body : JsObj) : Req :=
  { user := { id := "u1", user_type := "OTHER" },
    ctx := some (authenticateCtx { id := "u1", user_type := "OTHER" }
      (some { isSuperAdmin := JsVal.undefined,
              perms := some ["USER_ROLE:CREATE", "USER_ROLE:UPDATE", "USER_ROLE:DELETE"],
              workspaceId := some "w1" })),
    params := { wid := some "w1", id := none, ticketId := "t1" },
    body := body }

/-- A request of the super-admin `u0` with the given body. -/
def sampleSuperReq (body : JsObj) : Req :=
  { user := { id := "u0", user_type := "SUPER_ADMIN" },
    ctx := some (authenticateCtx { id := "u0", user_type := "SUPER_ADMIN" } none),
    params := { wid := none, id := none, ticketId := "t1" },
    body := body }

/-- A sequence of calls for evaluation: a workspace is created with admin `u2`, then
`u2` is listed twice in a bulk assignment on `w1`, replaced, and `u1` is removed. -/
def sampleCalls : List Call :=
  [Call.createWorkspace toLowerCase sampleGen
      (sampleSuperReq [("name", JsVal.str "Beta"), ("admin_id", JsVal.str "u2")]),
   Call.assignRolestoUsers (sampleAdminReq []) (ArrayArg.array ["u2", "u2"])
      (ArrayArg.array ["r1", "r2"]),
   Call.updateAssignedRoleForUser
      (sampleAdminReq [("user_id", JsVal.str "u2"), ("role_id", JsVal.str "r1")]),
   Call.removeAssignedRolesForUser
      (sampleAdminReq [("user_id", JsVal.str "u1"), ("role_id", JsVal.str "r1")])]


/-! ## Ticket controller: reading and deleting -/

/-- Source function `getTicketById(req, res)`; the response carries the ticket with
its comments and History rows (the three included user records are left out). -/
def getTicketById (s : Store) (req : Req) : Store × Res :=
  match s.tickets.find? (fun t => t.id = req.params.ticketId) with
  | none => (s, httpError 404 "Ticket not found")
  | some ticket =>
    match assertUserInWorkspace s req.user.id ticket.workspace_id with
    | Except.error e =>
      (s, httpError (e.status.getD 500)
            (if e.message ≠ "" then e.message else "Failed to fetch ticket"))
    | Except.ok _ =>
      (s, { status := 200, message := "",
            payload := Payload.ticketWith ticket
              (s.comments.filter (fun c => c.ticket_id = ticket.id))
              (s.history.filter (fun h => h.ticket_id = ticket.id)) })

/-- The response of the `catch` block of `deleteTicket`. -/
def deleteTicketFailure (e : JsError) : Res :=
  { status := e.status.getD 500,
    message := if e.message ≠ "" then e.message else "Failed to delete ticket",
    payload := Payload.none }

/-- The error that `delete` throws when no row matches its `where`. -/
def recordNotFound : JsError :=
  { name := "PrismaClientKnownRequestError", message := "Record to delete does not exist",
    status := none }

/-- The synthetic change that `deleteTicket` records. -/
def deletedChange : Change :=
  { field := "deleted", old := JsVal.str "false", val := JsVal.str "true" }

/-- Source function `deleteTicket(req, res)`.  The transaction writes the History
row, deletes the comments of the ticket, the tickets whose parent it is, and then
the ticket with `delete`, which throws when the row is no longer there; `commits`
decides whether the rows that remain satisfy the constraints declared in the
database schema.  A throw rolls the transaction back. -/
def deleteTicket (D : DateLib) (commits : Store → Bool) (s : Store) (req : Req) : Store × Res :=
  let ticketId := req.params.ticketId
  let userId := req.user.id
  match getTicketAndAssertAccess s ticketId userId with
  | Except.error e => (s, deleteTicketFailure e)
  | Except.ok current =>
    let s1 := writeHistory D s current.workspace_id current.id userId [deletedChange] "DELETE"
    let s2 := { s1 with comments := s1.comments.filter (fun c => c.ticket_id ≠ ticketId) }
    let s3 := { s2 with tickets := s2.tickets.filter (fun t => t.parent_id ≠ some ticketId) }
    match s3.tickets.find? (fun t => t.id = ticketId) with
    | none => (s, deleteTicketFailure recordNotFound)
    | some _ =>
      let s4 := { s3 with tickets := s3.tickets.filter (fun t => t.id ≠ ticketId) }
      if commits s4 then
        (s4, { status := 200, message := "Ticket deleted", payload := Payload.none })
      else (s, deleteTicketFailure clientError)

/-! ## Workspace controller: deleting a role -/

/-- Source function `deleteRole(req, res)`. -/
def deleteRole (s : Store) (req : Req) : Store × Res :=
  let wid := firstTruthy [req.params.wid, req.ctx.bind (fun c => c.workspaceId)]
  let roleId := firstTruthy [req.params.roleId]
  match wid, roleId with
  | some wid, some roleId =>
    if !truthy (hasPerm req "ROLE" "DELETE") then
      (s, httpError 403 "Access Denied: ROLE:DELETE required")
    else if (s.userRole.find? (fun r => r.role_id = roleId ∧ r.workspace_id = wid)).isSome then
      (s, httpError 409 "Cannot delete a role that is assigned to users")
    else if (s.role.find? (fun r => r.id = roleId ∧ r.workspace_id = wid)).isNone then
      (s, httpError 404 "Role not found")
    else
      let s1 := { s with rolePermission := s.rolePermission.filter (fun rp => rp.role_id ≠ roleId) }
      let s2 := { s1 with role := s1.role.filter (fun r => r.id ≠ roleId) }
      (s2, { status := 204, message := "Role deleted successfully", payload := Payload.none })
  | _, _ => (s, httpError 400 "Missing ids")

/-- The error that `assertUserInWorkspace` throws. -/
def notMemberError : JsError :=
  { name := "Error", message := "User is not a member of this workspace", status := some 403 }

/-- The user holds an Assignment in the workspace. -/
def isMember (s : Store) (userId workspaceId : String) : Prop :=
  ∃ r ∈ s.userRole, r.user_id = userId ∧ r.workspace_id = workspaceId

instance (s : Store) (userId workspaceId : String) : Decidable (isMember s userId workspaceId) := by
  unfold isMember; exact inferInstance

/-- The store after the workspace admin has made ticket `t1` its own parent with
`updateTicket`. -/
def selfParentStore : Store :=
  (updateTicket sampleDates (fun _ _ => true) sampleStore
    (sampleAdminReq [("parent_id", JsVal.str "t1")])).1

/-- A store in which workspace `w1` has no role and no Assignment left. -/
def noRoleStore : Store :=
  { sampleStore with role := [], userRole := [] }

/-- A request of a holder of every `ROLE` permission on workspace `w1`, naming the
role `roleId` in the path. -/
def sampleRoleReq (roleId : String) : Req :=
  { user := { id := "u1", user_type := "OTHER" },
    ctx := some (authenticateCtx { id := "u1", user_type := "OTHER" }
      (some { isSuperAdmin := JsVal.undefined,
              perms := some ["ROLE:CREATE", "ROLE:READ", "ROLE:UPDATE", "ROLE:DELETE"],
              workspaceId := some "w1" })),
    params := { wid := some "w1", id := none, ticketId := "", roleId := some roleId },
    body := [] }

/-! ## Provisioning: generated ids and grant sets -/

/-- The ids that occur in the rows of the store, as keys or as references. -/
def idsInUse (s : Store) : List String :=
  s.users.map (fun u => u.id) ++ s.workspace.map (fun w => w.id) ++
  s.role.map (fun r => r.id) ++ s.role.map (fun r => r.workspace_id) ++
  s.permission.map (fun p => p.id) ++
  s.rolePermission.map (fun rp => rp.role_id) ++
  s.rolePermission.map (fun rp => rp.permission_id) ++
  s.userRole.map (fun r => r.role_id) ++ s.userRole.map (fun r => r.workspace_id) ++
  s.tickets.map (fun t => t.workspace_id)

/-- The store hands out ids that are new: the generated ids are pairwise distinct and
none of them occurs in the store. -/
def generatedIdsFresh (gen : Nat → String) (s : Store) : Prop :=
  Function.Injective gen ∧ ∀ k, gen k ∉ idsInUse s

/-- The grant set of a role: the (entity, operation) pairs of the Permission rows that
the RolePermission rows of the role point to. -/
def grantsOf (s : Store) (roleId : String) : List (String × String) :=
  (s.rolePermission.filter (fun rp => rp.role_id = roleId)).filterMap (fun rp =>
    (s.permission.find? (fun p => p.id = rp.permission_id)).map
      (fun p => (p.entity, p.operation)))

/-- The permission pairs of the template of the "Admin" role in `DEFAULT_ROLES`. -/
def adminPermissions : List (String × String) := (DEFAULT_ROLES.lookup "Admin").getD []

/-- The store after the super-admin has created a workspace with the name `a\b`. -/
def backslashStore : Store :=
  (createWorkspace toLowerCase sampleGen sampleStore
    (sampleSuperReq [("name", JsVal.str "a\\b"), ("admin_id", JsVal.str "u2")])).1

/-- Generated ids for evaluation that are distinct from every id of `sampleStore`:
the `k`-th one is `k + 1` times the letter g. -/
def freshGen : Nat → String := fun k => String.mk (List.replicate (k + 1) 'g')

/-- Two stores that agree on every table except Permission. -/
def sameButPermission (s s' : Store) : Prop :=
  s'.users = s.users ∧ s'.workspace = s.workspace ∧ s'.role = s.role ∧
  s'.rolePermission = s.rolePermission ∧ s'.userRole = s.userRole ∧
  s'.tickets = s.tickets ∧ s'.comments = s.comments ∧ s'.history = s.history


/-! ## Entity tags and the "Admin" template -/

/-- The operations of a permission pair. -/
def crudOperations : List String := ["CREATE", "READ", "UPDATE", "DELETE"]

/-- The pairs that the routes hand to `authorize(entity, operation)`, in the order of
`workspaceRoutes.js`, `ticketRoutes.js` and `commentRoutes.js`. -/
def routeChecks : List (String × String) :=
  [("WORKSPACE", "CREATE"), ("WORKSPACE", "READ"),
   ("USER_ROLE", "CREATE"), ("USER_ROLE", "UPDATE"), ("USER_ROLE", "DELETE"),
   ("ROLE", "READ"), ("ROLE", "CREATE"), ("ROLE", "UPDATE"), ("ROLE", "DELETE"),
   ("ROLE", "UPDATE"), ("ROLE", "UPDATE"),
   ("TICKET", "CREATE"), ("TICKET", "READ"), ("TICKET", "READ"), ("TICKET", "READ"),
   ("TICKET", "UPDATE"), ("TICKET", "DELETE"),
   ("COMMENT", "CREATE"), ("COMMENT", "UPDATE"), ("COMMENT", "DELETE"), ("COMMENT", "READ")]

/-- The entity tags known to the system: those named in the "Admin" template and
those used in an authorization check of the routes, each once. -/
def entityKinds : List String :=
  distinct ((adminPermissions ++ routeChecks).map Prod.fst)

/-- The entity tags for which the "Admin" template lists every operation. -/
def fullCrudEntities : List String :=
  ["ROLE", "USER", "USER_ROLE", "ROLE_PERMISSION", "TICKET", "COMMENT"]

/-! ## Comment controller -/

/-- The response of the `catch` blocks of the comment controller. -/
def commentFailure : Res := httpError 500 "Something went wrong"

/-- The expression `req.params.wid || req.ctx.workspaceId` of `createComment`: the
path parameter when it is truthy, otherwise the property of `req.ctx`, which throws
a TypeError when `req.ctx` is undefined. -/
def commentWorkspaceId (req : Req) : Except JsError (Option String) :=
  match firstTruthy [req.params.wid] with
  | some wid => Except.ok (some wid)
  | none =>
    match req.ctx with
    | none =>
      Except.error { name := "TypeError",
                     message := "Cannot read properties of undefined (reading 'workspaceId')",
                     status := none }
    | some c => Except.ok c.workspaceId

/-- Source function `createComment(req, res)`; `newId` is the id the store gives to
the created row and `accepts` decides the constraints of the Comments table
(declared in the database schema). -/
def createComment (newId : String) (accepts : Store → CommentsRow → Bool) (s : Store)
    (req : Req) : Store × Res :=
  match commentWorkspaceId req with
  | Except.error _ => (s, commentFailure)
  | Except.ok workspaceId =>
    let ticketId := req.params.ticketId
    let message := getProp req.body "message"
    let parentId := getProp req.body "parentId"
    let userId := req.user.id
    if !truthy message then (s, httpError 400 "Message is required")
    else
      match s.tickets.find? (fun t => t.id = ticketId) with
      | none =>
        -- `!ticket` holds and the block starts with `console.log(ticket.workspace_id, ..)`:
        -- the read on null throws a TypeError, which the `catch` block answers
        (s, commentFailure)
      | some ticket =>
        if some ticket.workspace_id ≠ workspaceId then
          (s, httpError 404 "Ticket not found in this workspace")
        else
          match message, (if truthy parentId then parentId else JsVal.null) with
          | JsVal.str m, JsVal.str p =>
            let row : CommentsRow :=
              { id := newId, ticket_id := ticketId, user_id := userId, message := m,
                parent_id := some p }
            if accepts s row then
              ({ s with comments := s.comments ++ [row] },
               { status := 201, message := "Comment created successfully",
                 payload := Payload.comment row })
            else (s, commentFailure)
          | JsVal.str m, JsVal.null =>
            let row : CommentsRow :=
              { id := newId, ticket_id := ticketId, user_id := userId, message := m,
                parent_id := none }
            if accepts s row then
              ({ s with comments := s.comments ++ [row] },
               { status := 201, message := "Comment created successfully",
                 payload := Payload.comment row })
            else (s, commentFailure)
          -- a value that is no string is rejected by the database client
          | _, _ => (s, commentFailure)

/-- A request of the workspace admin `u1` on workspace `w1` that names the ticket
`ticketId` in the path. -/
def sampleCommentReq (ticketId : String) (body : JsObj) : Req :=
  { sampleAdminReq body with params := { wid := some "w1", id := none, ticketId := ticketId } }

/-- A store with a second workspace `w2` that owns the ticket `t2`. -/
def twoWorkspaceStore : Store :=
  { sampleStore with
    workspace := sampleStore.workspace ++
      [{ id := "w2", name := "Beta", created_by := "u0", admin_id := "u2" }],
    tickets := sampleStore.tickets ++ [{ sampleTicket with id := "t2", workspace_id := "w2" }] }

/-! ## Workspace controller: roles and their permissions -/

/-- The `permissions` property of a request body: absent, present but no array, or
an array.  An entry of the array is an object with its own properties (`some`), or
null (`none`); a primitive entry reads like an object without own properties. -/
inductive PermsArg where
  | absent
  | notArray
  | array (entries : List (Option JsObj))
  deriving DecidableEq, Repr

/-- The entry `\x7b entity, operation \x7d` of a permissions array for a pair of strings. -/
def pairEntry (p : String × String) : Option JsObj :=
  some [("entity", JsVal.str p.1), ("operation", JsVal.str p.2)]

/-- The TypeError of reading `p.entity` on a null entry. -/
def nullReadError : JsError :=
  { name := "TypeError", message := "Cannot read properties of null (reading 'entity')",
    status := none }

/-- The arguments `(p.entity, p.operation)` that an entry gives to `ensurePermission`;
the upsert takes strings only and the database client rejects anything else. -/
def entryPair : Option JsObj → Except JsError (String × String)
  | none => Except.error nullReadError
  | some o =>
    match getProp o "entity", getProp o "operation" with
    | JsVal.str e, JsVal.str op => Except.ok (e, op)
    | _, _ => Except.error clientError

/-- The pairs of all entries, when every entry gives one. -/
def collectPairs : List (Option JsObj) → Except JsError (List (String × String))
  | [] => Except.ok []
  | x :: xs =>
    match entryPair x with
    | Except.error e => Except.error e
    | Except.ok p =>
      match collectPairs xs with
      | Except.error e => Except.error e
      | Except.ok ps => Except.ok (p :: ps)

/-- The calls `permissions.map((p) => ensurePermission(p.entity, p.operation, tx))`
as far as their arguments go: a null entry throws at once, while the `map` runs;
otherwise the first rejected upsert decides. -/
def entryPairs (entries : List (Option JsObj)) : Except JsError (List (String × String)) :=
  if entries.any (fun x => x.isNone) then Except.error nullReadError
  else collectPairs entries

/-- The response of the `catch` blocks of the role handlers for an error without the
code `P2002`. -/
def roleFailure (e : JsError) : Res :=
  { status := e.status.getD 500,
    message := if e.message ≠ "" then e.message else "Internal Server Error",
    payload := Payload.none }

/-- What the store answers to a write of a Role row: it takes the row, or it throws
the unique-constraint error `P2002` on the role name, or it throws another error.
The constraints are declared in the database schema. -/
inductive RoleWrite where
  | accepted
  | duplicateName
  | rejected
  deriving DecidableEq, Repr

/-- The error that `createRoleBody.parse` throws; the message is the issue list of
the validator. -/
def zodError : JsError := { name := "ZodError", message := "Invalid input", status := none }

/-- The schema of an entry of `createRoleBody.permissions`: an object whose `entity`
is a non-empty string and whose `operation` is a string. -/
def parsePermissionEntry : Option JsObj → Option (String × String)
  | none => none
  | some o =>
    match getProp o "entity", getProp o "operation" with
    | JsVal.str e, JsVal.str op => if e.length ≥ 1 then some (e, op) else none
    | _, _ => none

/-- All entries parsed, when every entry fits the schema. -/
def parsePermissionEntries : List (Option JsObj) → Option (List (String × String))
  | [] => some []
  | x :: xs =>
    match parsePermissionEntry x, parsePermissionEntries xs with
    | some p, some ps => some (p :: ps)
    | _, _ => none

/-- The call `createRoleBody.parse(req.body)`: `name` is a string of at least two
characters, `desc` is a string or absent, `permissions` is a non-empty array of
entries that fit the schema. -/
def parseCreateRoleBody (body : JsObj) (perms : PermsArg) :
    Except JsError (String × Option String × List (String × String)) :=
  match getProp body "name" with
  | JsVal.str name =>
    if name.length < 2 then Except.error zodError
    else
      let desc : Option (Option String) :=
        match getProp body "desc" with
        | JsVal.undefined => some none
        | JsVal.str d => some (some d)
        | _ => none
      match desc, perms with
      | some d, PermsArg.array entries =>
        if entries.length = 0 then Except.error zodError
        else
          match parsePermissionEntries entries with
          | some pairs => Except.ok (name, d, pairs)
          | none => Except.error zodError
      | _, _ => Except.error zodError
  | _ => Except.error zodError

/-- Source function `createRole(req, res)`; `perms` is the `permissions` property of
the body, `gen 0` is the id of the created role and the next ids are for created
permissions. -/
def createRole (gen : Nat → String) (roleWrite : Store → RoleRow → RoleWrite) (s : Store)
    (req : Req) (perms : PermsArg) : Store × Res :=
  match firstTruthy [req.params.wid, req.ctx.bind (fun c => c.workspaceId)] with
  | none => (s, httpError 400 "Missing workspace id")
  | some wid =>
    if !truthy (hasPerm req "ROLE" "CREATE") then
      (s, httpError 403 "Forbidden: ROLE:CREATE required")
    else
      match parseCreateRoleBody req.body perms with
      | Except.error e => (s, roleFailure e)
      | Except.ok (name, desc, pairs) =>
        let r : RoleRow := { id := gen 0, workspace_id := wid, name := name, desc := desc }
        match roleWrite s r with
        | RoleWrite.duplicateName =>
          (s, httpError 409 "Role name already exists in this workspace")
        | RoleWrite.rejected => (s, roleFailure clientError)
        | RoleWrite.accepted =>
          let s1 := { s with role := s.role ++ [r] }
          let s2 := grantPermissionsToRole gen s1 1 r.id pairs
          (s2, { status := 201, message := "", payload := Payload.role r })

/-- The rows `permRows.map((p) => (\x7b role_id, permission_id: p.id \x7d))`. -/
def grantRows (roleId : String) (permRows : List PermissionRow) : List RolePermissionRow :=
  permRows.map (fun p => { role_id := roleId, permission_id := p.id })

/-- The row that `role.update` of `updateRole` writes, with
`name: body.name || role.name` and `desc: body.desc || role.desc`; the database
client rejects (`none`) a name that is no string and a description that is neither
a string nor null. -/
def roleUpdateData (role : RoleRow) (body : JsObj) : Option RoleRow :=
  let nameVal := if truthy (getProp body "name") then getProp body "name"
                 else JsVal.str role.name
  let descVal := if truthy (getProp body "desc") then getProp body "desc"
                 else optStr role.desc
  match nameVal, descVal with
  | JsVal.str n, JsVal.str d => some { role with name := n, desc := some d }
  | JsVal.str n, JsVal.null => some { role with name := n, desc := none }
  | _, _ => none

/-- Source function `updateRole(req, res)`; `perms` is the `permissions` property of
the body and `gen` gives the ids of created permissions. -/
def updateRole (gen : Nat → String) (roleWrite : Store → RoleRow → RoleWrite) (s : Store)
    (req : Req) (perms : PermsArg) : Store × Res :=
  let wid := firstTruthy [req.params.wid, req.ctx.bind (fun c => c.workspaceId)]
  let roleId := firstTruthy [req.params.roleId]
  match wid, roleId with
  | some wid, some roleId =>
    if !truthy (hasPerm req "ROLE" "UPDATE") then
      (s, httpError 403 "Access denied: ROLE:UPDATE required")
    else
      match s.role.find? (fun r => r.id = roleId ∧ r.workspace_id = wid) with
      | none => (s, roleFailure { name := "Error", message := "Role not found", status := some 404 })
      | some role =>
        match roleUpdateData role req.body with
        | none => (s, roleFailure clientError)
        | some r2 =>
          match roleWrite s r2 with
          | RoleWrite.duplicateName =>
            (s, httpError 409 "Role name already exists in this workspace")
          | RoleWrite.rejected => (s, roleFailure clientError)
          | RoleWrite.accepted =>
            let s1 := { s with role := s.role.map (fun r => if r.id = role.id then r2 else r) }
            match perms with
            | PermsArg.array entries =>
              match entryPairs entries with
              | Except.error e => (s, roleFailure e)
              | Except.ok pairs =>
                let (s2, permRows) := ensurePermissions gen s1 0 pairs
                let kept := s2.rolePermission.filter (fun rp => rp.role_id ≠ role.id)
                let table :=
                  if permRows.length ≠ 0 then createRolePermissions kept (grantRows role.id permRows)
                  else kept
                ({ s2 with rolePermission := table },
                 { status := 200, message := "", payload := Payload.role r2 })
            | _ => (s1, { status := 200, message := "", payload := Payload.role r2 })
  | _, _ => (s, httpError 400 "Missing workspace id")

/-- The test `!Array.isArray(permissions) || permissions.length === 0`. -/
def permsMissing : PermsArg → Bool
  | PermsArg.array entries => entries.length = 0
  | _ => true

/-- The entries of the array, none when there is no array. -/
def PermsArg.entries : PermsArg → List (Option JsObj)
  | PermsArg.array entries => entries
  | _ => []

/-- Source function `updateRolePermissions(req, res)`. -/
def updateRolePermissions (gen : Nat → String) (s : Store) (req : Req) (perms : PermsArg) :
    Store × Res :=
  let wid := firstTruthy [req.params.wid, req.ctx.bind (fun c => c.workspaceId)]
  let roleId := firstTruthy [req.params.roleId]
  match wid, roleId with
  | some wid, some roleId =>
    if permsMissing perms then (s, httpError 400 "Permissions array required")
    else if !truthy (hasPerm req "ROLE" "UPDATE") then
      (s, httpError 403 "Access denied: ROLE:UPDATE required")
    else if (s.role.find? (fun r => r.id = roleId ∧ r.workspace_id = wid)).isNone then
      (s, httpError 404 "Role not found in workspace")
    else
      let s1 := { s with rolePermission := s.rolePermission.filter (fun rp => rp.role_id ≠ roleId) }
      match entryPairs perms.entries with
      | Except.error e => (s, roleFailure e)
      | Except.ok pairs =>
        let (s2, permRows) := ensurePermissions gen s1 0 pairs
        let table :=
          if permRows.length ≠ 0 then
            createRolePermissions s2.rolePermission (grantRows roleId permRows)
          else s2.rolePermission
        ({ s2 with rolePermission := table },
         { status := 200, message := "Role permissions updated", payload := Payload.none })
  | _, _ => (s, httpError 400 "Missing workspace or role id")

/-- One side of a condition `\x7b entity: p.entity, operation: p.operation \x7d` of the
query of `removePermissionsFromRole`: an undefined value puts no condition on the
column, a string asks for equality, and the database client rejects anything else. -/
def columnFilter : JsVal → Except JsError (String → Bool)
  | JsVal.undefined => Except.ok (fun _ => true)
  | JsVal.str x => Except.ok (fun y => y = x)
  | _ => Except.error clientError

/-- The condition that an entry puts on a Permission row. -/
def entryFilter : Option JsObj → Except JsError (PermissionRow → Bool)
  | none => Except.error nullReadError
  | some o =>
    match columnFilter (getProp o "entity"), columnFilter (getProp o "operation") with
    | Except.ok fe, Except.ok fo => Except.ok (fun p => fe p.entity && fo p.operation)
    | _, _ => Except.error clientError

/-- The conditions of all entries, when every entry gives one. -/
def collectFilters : List (Option JsObj) → Except JsError (List (PermissionRow → Bool))
  | [] => Except.ok []
  | x :: xs =>
    match entryFilter x with
    | Except.error e => Except.error e
    | Except.ok f =>
      match collectFilters xs with
      | Except.error e => Except.error e
      | Except.ok fs => Except.ok (f :: fs)

/-- The list `OR` of the query: a null entry throws while the `map` runs. -/
def entryFilters (entries : List (Option JsObj)) :
    Except JsError (List (PermissionRow → Bool)) :=
  if entries.any (fun x => x.isNone) then Except.error nullReadError
  else collectFilters entries

/-- Source function `removePermissionsFromRole(req, res)`. -/
def removePermissionsFromRole (s : Store) (req : Req) (perms : PermsArg) : Store × Res :=
  let wid := firstTruthy [req.params.wid, req.ctx.bind (fun c => c.workspaceId)]
  let roleId := firstTruthy [req.params.roleId]
  match wid, roleId with
  | some wid, some roleId =>
    if permsMissing perms then (s, httpError 400 "Permissions array required")
    else if !truthy (hasPerm req "ROLE" "UPDATE") then
      (s, httpError 403 "Access denied: ROLE:UPDATE required")
    else if (s.role.find? (fun r => r.id = roleId ∧ r.workspace_id = wid)).isNone then
      (s, httpError 404 "Role not found in workspace")
    else
      match entryFilters perms.entries with
      | Except.error e => (s, roleFailure e)
      | Except.ok conds =>
        let permRows := s.permission.filter (fun p => conds.any (fun f => f p))
        if permRows.length = 0 then (s, httpError 404 "No matching permissions found")
        else
          let ids := permRows.map (fun p => p.id)
          ({ s with rolePermission :=
               s.rolePermission.filter (fun rp => ¬ (rp.role_id = roleId ∧ rp.permission_id ∈ ids)) },
           { status := 200, message := "Permissions removed from role",
             payload := Payload.none })
  | _, _ => (s, httpError 400 "Missing workspace or role id")

/-- The sample store with one Permission row, (TICKET, READ), granted to role `r2`. -/
def grantedStore : Store :=
  { sampleStore with
    permission := [{ id := "p1", entity := "TICKET", operation := "READ" }],
    rolePermission := [{ role_id := "r2", permission_id := "p1" }] }

/-- The test of `assignRolestoUsers` on its two arrays:
`!Array.isArray(users) || !Array.isArray(roles) || users.length !== roles.length ||
users.length === 0`. -/
def bulkArgsMalformed (usersArg rolesArg : ArrayArg) : Bool :=
  match usersArg.toList?, rolesArg.toList? with
  | some users, some roles => users.length != roles.length || users.length == 0
  | _, _ => true

/-- A request of the member `u1`, who holds two ticket permissions only, on the role
`r2` of workspace `w1`. -/
def sampleUnauthorisedReq (body : JsObj) : Req :=
  { sampleMemberReq with
    params := { wid := some "w1", id := none, ticketId := "", roleId := some "r2" },
    body := body }

/-! ## Ticket controller: creating a ticket -/

/-- The response of the `catch` block of `createTicket`. -/
def createTicketFailure : Res := httpError 500 "Failed to create ticket"

/-- The value of `status` after the destructuring default `status = "OPEN"`. -/
def statusOrOpen (body : JsObj) : JsVal :=
  match getProp body "status" with
  | JsVal.undefined => JsVal.str "OPEN"
  | v => v

/-- The validations of `createTicket` on the parent and the assignee: `none` when
they pass, the response otherwise. -/
def validateCreate (s : Store) (workspaceId : String) (body : JsObj) : Option Res :=
  let parentCheck : Option Res :=
    if truthy (getProp body "parent_id") then
      match getProp body "parent_id" with
      | JsVal.str pid =>
        match s.tickets.find? (fun t => t.id = pid) with
        | none => some (httpError 400 "Invalid parent ticket for this workspace")
        | some parent =>
          if parent.workspace_id ≠ workspaceId then
            some (httpError 400 "Invalid parent ticket for this workspace")
          else none
      | _ => some createTicketFailure
    else none
  match parentCheck with
  | some r => some r
  | none =>
    if truthy (getProp body "assigned_to") then
      match getProp body "assigned_to" with
      | JsVal.str uid =>
        match s.userRole.find? (fun r => r.user_id = uid ∧ r.workspace_id = workspaceId) with
        | none => some (httpError 400 "Assignee is not a member of this workspace")
        | some _ => none
      | _ => some createTicketFailure
    else none

/-- The row of `tx.tickets.create` in `createTicket`, with
`due_date: due_date ? new Date(due_date) : null`, `assigned_to: assigned_to || userId`
and `parent_id: parent_id || null`; the database client rejects (`none`) a value that
does not fit its column. -/
def createTicketRow (D : DateLib) (newId workspaceId userId : String) (body : JsObj) :
    Option TicketsRow :=
  let due : Option (Option Int) :=
    if truthy (getProp body "due_date") then
      match newDate D (getProp body "due_date") with
      | some t => some (some t)
      | none => none
    else some none
  let assignee : JsVal :=
    if truthy (getProp body "assigned_to") then getProp body "assigned_to"
    else JsVal.str userId
  let parent : Option (Option String) :=
    if truthy (getProp body "parent_id") then
      match getProp body "parent_id" with
      | JsVal.str p => some (some p)
      | _ => none
    else some none
  match getProp body "ticket_type", getProp body "title", getProp body "desc",
      statusOrOpen body, getProp body "priority", assignee, due, parent with
  | JsVal.str ty, JsVal.str ti, JsVal.str de, JsVal.str st, JsVal.str pr, JsVal.str a,
      some d, some p =>
    some { id := newId, workspace_id := workspaceId, ticket_type := ty, title := ti,
           desc := de, status := st, priority := pr, created_by := userId,
           updated_by := none, due_date := d, assigned_to := some a, parent_id := p }
  | _, _, _, _, _, _, _, _ => none

/-- The creation snapshot that `createTicket` hands to `writeHistory`. -/
def creationChanges (userId : String) (body : JsObj) : List Change :=
  [{ field := "title", old := JsVal.null, val := getProp body "title" },
   { field := "desc", old := JsVal.null, val := getProp body "desc" },
   { field := "status", old := JsVal.null, val := statusOrOpen body },
   { field := "priority", old := JsVal.null, val := getProp body "priority" },
   { field := "assigned_to", old := JsVal.null,
     val := if truthy (getProp body "assigned_to") then getProp body "assigned_to"
            else JsVal.str userId },
   { field := "ticket_type", old := JsVal.null, val := getProp body "ticket_type" },
   { field := "due_date", old := JsVal.null,
     val := if truthy (getProp body "due_date") then getProp body "due_date"
            else JsVal.null },
   { field := "parent_id", old := JsVal.null,
     val := if truthy (getProp body "parent_id") then getProp body "parent_id"
            else JsVal.null }]

/-- Source function `createTicket(req, res)`; `newId` is the id the store gives to
the created row and `accepts` decides the constraints of the Tickets table. -/
def createTicket (D : DateLib) (newId : String) (accepts : Store → TicketsRow → Bool)
    (s : Store) (req : Req) : Store × Res :=
  let userId := req.user.id
  match firstTruthy [req.params.wid, req.ctx.bind (fun c => c.workspaceId)] with
  | none => (s, httpError 400 "Workspace ID is required")
  | some workspaceId =>
    match assertUserInWorkspace s userId workspaceId with
    | Except.error _ => (s, createTicketFailure)
    | Except.ok _ =>
      if !truthy (getProp req.body "title") || !truthy (getProp req.body "desc") ||
          !truthy (getProp req.body "priority") || !truthy (getProp req.body "ticket_type") then
        (s, httpError 400 "title, desc, priority, ticket_type are required")
      else
        match validateCreate s workspaceId req.body with
        | some r => (s, r)
        | none =>
          match createTicketRow D newId workspaceId userId req.body with
          | none => (s, createTicketFailure)
          | some created =>
            if accepts s created then
              let s1 := { s with tickets := s.tickets ++ [created] }
              let s2 := writeHistory D s1 workspaceId created.id userId
                (creationChanges userId req.body) "CREATE"
              (s2, { status := 201, message := "Ticket created",
                     payload := Payload.ticket created })
            else (s, createTicketFailure)

/-- The parent reference of a ticket is null or names a ticket of the store in the
workspace of the ticket. -/
def parentOk (s : Store) (t : TicketsRow) : Prop :=
  t.parent_id = none ∨
    ∃ p ∈ s.tickets, t.parent_id = some p.id ∧ p.workspace_id = t.workspace_id

/-- The assignee of a ticket, if there is one, holds an Assignment in the workspace
of the ticket. -/
def assigneeOk (s : Store) (t : TicketsRow) : Prop :=
  ∀ u, t.assigned_to = some u → isMember s u t.workspace_id

/-- The store takes no empty string as a reference to a ticket or a user. -/
def rejectsEmptyRefs (accepts : Store → TicketsRow → Bool) : Prop :=
  ∀ s row, accepts s row = true → row.parent_id ≠ some "" ∧ row.assigned_to ≠ some ""

/-- A body for `createTicket` with the four required fields and the given extra
properties. -/
def sampleTicketBody (extra : JsObj) : JsObj :=
  [("title", JsVal.str "T"), ("desc", JsVal.str "d"), ("priority", JsVal.str "LOW"),
   ("ticket_type", JsVal.str "TASK")] ++ extra

/-- A store constraint for evaluation: a row is taken unless its parent or its
assignee is the empty string. -/
def sampleAccepts : Store → TicketsRow → Bool :=
  fun _ row => decide (row.parent_id ≠ some "" ∧ row.assigned_to ≠ some "")

/-- The store after the workspace admin gave `u2` the role `r2` in workspace `w1`
(`assignRolestoUsers`), assigned ticket `t1` to `u2` (`updateTicket`) and removed
the Assignment of `u2` again (`removeAssignedRolesForUser`). -/
def staleAssigneeStore : Store :=
  (removeAssignedRolesForUser
    (updateTicket sampleDates sampleAccepts
      (assignRolestoUsers sampleStore (sampleAdminReq []) (ArrayArg.array ["u2"])
        (ArrayArg.array ["r2"])).1
      (sampleAdminReq [("assigned_to", JsVal.str "u2")])).1
    (sampleAdminReq [("user_id", JsVal.str "u2")])).1

/-! ## Comment controller: the nested list of `getTicketComments` -/

/-- The key `comment.parent_id` of a comment whose `parent_id` is truthy; `none` for
null and for the empty string. -/
def parentKey (c : CommentsRow) : Option String :=
  match c.parent_id with
  | some p => if p ≠ "" then some p else none
  | none => none

/-- The names of the properties that a plain object inherits from
`Object.prototype`; each of them reads as a truthy value (a function, or the
prototype itself for `__proto__`). -/
def objectPrototypeKeys : List String :=
  ["constructor", "__defineGetter__", "__defineSetter__", "hasOwnProperty",
   "__lookupGetter__", "__lookupSetter__", "isPrototypeOf", "propertyIsEnumerable",
   "toString", "valueOf", "__proto__", "toLocaleString"]

/-- The plain object `commentMap`: its own properties (a key is bound to a comment
object, given by its position in the flat list) and the comment object that an
assignment to the key `__proto__` has made its prototype, if there was one. -/
structure CommentMap where
  own : String → Option Nat
  proto : Option Nat

/-- The first loop of `getTicketComments`, `commentMap[comment.id] = comment`, from
position `i` on: the assignment creates or replaces an own property, except for the
key `__proto__`, where it replaces the prototype of the object. -/
def commentMapLoop : Nat → List CommentsRow → CommentMap → CommentMap
  | _, [], m => m
  | i, c :: rest, m =>
    commentMapLoop (i + 1) rest
      (if c.id = "__proto__" then { m with proto := some i }
       else { m with own := fun k => if k = c.id then some i else m.own k })

/-- The object `commentMap` after the first loop. -/
def commentMap (cs : List CommentsRow) : CommentMap :=
  commentMapLoop 0 cs { own := fun _ => none, proto := none }

/-- The own properties of `commentMap` after the first loop. -/
def commentMapOf (cs : List CommentsRow) : String → Option Nat := (commentMap cs).own

/-- What a read `commentMap[k]` gives: a comment object of the list, another truthy
value (a function, an array, a string: reading `replies` of it gives `undefined`),
or a falsy value. -/
inductive Found where
  | comment (j : Nat)
  | other
  | nothing
  deriving DecidableEq, Repr

/-- Truthiness of the property `k` of a comment object as `findMany` returns it and
the first loop extends it, `none` when the object has no such property: the columns
that the controllers name, the included `user` and the array `replies`. -/
def commentField (c : CommentsRow) (k : String) : Option Bool :=
  if k = "id" then some (c.id != "")
  else if k = "ticket_id" then some (c.ticket_id != "")
  else if k = "user_id" then some (c.user_id != "")
  else if k = "message" then some (c.message != "")
  else if k = "parent_id" then some (parentKey c).isSome
  else if k = "created_at" ∨ k = "user" ∨ k = "replies" then some true
  else none

/-- The read `commentMap[k]`: an own property, else the property that the prototype
chain has for `k`.  Without a replaced prototype the chain is `Object.prototype`;
with the comment object `j` as prototype, `__proto__` reads as that object and every
other key is looked up in it and then in `Object.prototype`. -/
def lookupKey (cs : List CommentsRow) (m : CommentMap) (k : String) : Found :=
  match m.own k with
  | some j => Found.comment j
  | none =>
    match m.proto with
    | none => if k ∈ objectPrototypeKeys then Found.other else Found.nothing
    | some j =>
      if k = "__proto__" then Found.comment j
      else
        match cs[j]?.bind (fun c => commentField c k) with
        | some true => Found.other
        | some false => Found.nothing
        | none => if k ∈ objectPrototypeKeys then Found.other else Found.nothing

/-- The state of the second loop: the `replies` array of every comment object, by
position, and the array `nestedComments`; the arrays hold comment objects, given by
their positions in the flat list. -/
structure NestState where
  replies : Nat → List Nat
  nested : List Nat

/-- The second loop of `getTicketComments` from position `i` on, `look` being the
read `commentMap[..]`: a comment with a truthy `parent_id` is pushed to the replies
of the comment object found for that key; when the value found is truthy and no
comment object, `parent.replies` is `undefined` and the call of `push` throws a
`TypeError`; when it is falsy the comment is skipped; a comment without a truthy
`parent_id` is pushed to `nestedComments`. -/
def nestLoop (look : String → Found) :
    Nat → List CommentsRow → NestState → Except JsError NestState
  | _, [], st => Except.ok st
  | i, c :: rest, st =>
    match parentKey c with
    | some p =>
      match look p with
      | Found.comment j =>
        nestLoop look (i + 1) rest
          { st with replies := fun k => if k = j then st.replies k ++ [i] else st.replies k }
      | Found.other =>
        Except.error { name := "TypeError",
                       message := "Cannot read properties of undefined (reading 'push')",
                       status := none }
      | Found.nothing => nestLoop look (i + 1) rest st
    | none => nestLoop look (i + 1) rest { st with nested := st.nested ++ [i] }

/-- The state after both loops. -/
def nestState (cs : List CommentsRow) : Except JsError NestState :=
  nestLoop (lookupKey cs (commentMap cs)) 0 cs { replies := fun _ => [], nested := [] }

/-- The value `nestedComments` that `getTicketComments` sends: the positions of the
top-level objects, and every comment object with its `replies`. -/
def nestComments (cs : List CommentsRow) :
    Except JsError (List Nat × List (CommentsRow × List Nat)) :=
  match nestState cs with
  | Except.error e => Except.error e
  | Except.ok st => Except.ok (st.nested, cs.enum.map (fun p => (p.2, st.replies p.1)))

/-- Source function `getTicketComments(req, res)`.  `findMany` orders the comments
of the ticket by `created_at`; the rows of the table are in insertion order, which
is that order, so the filter of the table is `flatComments`.  An error thrown in the
loops is answered by the `catch` block. -/
def getTicketComments (s : Store) (req : Req) : Store × Res :=
  match req.ctx with
  | none => (s, commentFailure)
  | some c =>
    match s.tickets.find? (fun t => t.id = req.params.ticketId) with
    | none => (s, httpError 404 "Ticket not found in this workspace")
    | some ticket =>
      if some ticket.workspace_id ≠ c.workspaceId then
        (s, httpError 404 "Ticket not found in this workspace")
      else
        let flatComments := s.comments.filter (fun x => x.ticket_id = req.params.ticketId)
        match nestComments flatComments with
        | Except.error _ => (s, commentFailure)
        | Except.ok nested =>
          (s, { status := 200, message := "", payload := Payload.nested nested.1 nested.2 })

/-- The positions of the comments without a truthy `parent_id`, in list order. -/
def topLevel (cs : List CommentsRow) : List Nat :=
  (cs.enum.filter (fun p => (parentKey p.2).isNone)).map Prod.fst

/-- The positions of the comments whose truthy `parent_id` is bound to the comment
object at position `j`, in list order. -/
def repliesOf (cs : List CommentsRow) (j : Nat) : List Nat :=
  (cs.enum.filter
    (fun p => decide ((parentKey p.2).bind (commentMapOf cs) = some j))).map Prod.fst

/-- The nested list as the specification describes it: the top-level comments, and
every comment with its replies. -/
def nestedOf (cs : List CommentsRow) : List Nat × List (CommentsRow × List Nat) :=
  (topLevel cs, cs.enum.map (fun p => (p.2, repliesOf cs p.1)))

/-- The `replies` array of the object at position `j`. -/
def repliesAt (objects : List (CommentsRow × List Nat)) (j : Nat) : List Nat :=
  match objects[j]? with
  | some o => o.2
  | none => []

/-- The comment of the object at position `j`. -/
def commentAt (objects : List (CommentsRow × List Nat)) (j : Nat) : Option CommentsRow :=
  objects[j]?.map Prod.fst

/-- The objects that the serialisation of the object at position `j` writes, in
document order, down to `fuel` levels: the object itself, then its replies with
theirs. -/
def subtree (objects : List (CommentsRow × List Nat)) : Nat → Nat → List Nat
  | 0, _ => []
  | fuel + 1, j => j :: (repliesAt objects j).flatMap (subtree objects fuel)

/-- The objects that the serialisation of the nested list writes, in document order,
down to `fuel` levels. -/
def nestedOrder (top : List Nat) (objects : List (CommentsRow × List Nat)) (fuel : Nat) :
    List Nat :=
  top.flatMap (subtree objects fuel)

/-- The position of the object to whose replies the comment at position `i` is
pushed, if there is one. -/
def parentIndex (cs : List CommentsRow) (i : Nat) : Option Nat :=
  cs[i]?.bind (fun c => (parentKey c).bind (commentMapOf cs))

/-- Position `i` is reached from position `j` by `m` steps from an object to one of
its replies. -/
def descends (cs : List CommentsRow) : Nat → Nat → Nat → Prop
  | 0, j, i => i = j
  | m + 1, j, i => ∃ c, parentIndex cs c = some j ∧ descends cs m c i

/-- Position `i` lies `d` levels below a top-level comment. -/
def depthIs (cs : List CommentsRow) (d i : Nat) : Prop :=
  ∃ r c, cs[r]? = some c ∧ parentKey c = none ∧ descends cs d r i

/-- Three comments of ticket `t1` for evaluation: `c1`, its reply `c2`, and the
reply `c3` to `c2`, listed with the reply `c3` first. -/
def sampleComments : List CommentsRow :=
  [{ id := "c3", ticket_id := "t1", user_id := "u1", message := "third", parent_id := some "c2" },
   { id := "c1", ticket_id := "t1", user_id := "u1", message := "first", parent_id := none },
   { id := "c2", ticket_id := "t1", user_id := "u1", message := "second",
     parent_id := some "c1" }]

/-- The store after the workspace admin `u1` has created a comment on ticket `t1`
with the message "hi" and the `parentId` "constructor", the store having taken the
row. -/
def inheritedParentStore : Store :=
  (createComment "c9" (fun _ _ => true) sampleStore
    (sampleAdminReq [("message", JsVal.str "hi"), ("parentId", JsVal.str "constructor")])).1

/-- A rank for `sampleComments` under which every parent ranks below its replies. -/
def sampleRank (id : String) : Nat :=
  if id = "c1" then 0 else if id = "c2" then 1 else 2
/-! ## Lemmas on the diff loop -/

theorem diffLoop_eq_filterMap (D : DateLib) (oldT data : JsObj) (o : String → JsVal)
    (fs : List String)
    (h : ∀ f ∈ fs, hasOwn data f = true → oldNormOf D oldT f = Except.ok (o f)) :
    diffLoop D oldT data fs = Except.ok (fs.filterMap (changeOf D data o)) := by
  induction fs with
  | nil => rfl
  | cons f fs ih =>
    have ih' := ih (fun g hg => h g (List.mem_cons_of_mem _ hg))
    by_cases hown : hasOwn data f = true
    · have ho := h f (List.mem_cons_self _ _) hown
      by_cases hne : normalizeForCompare D f (getProp data f) = o f
      · simp [diffLoop, hown, ho, ih', changeOf, List.filterMap_cons, hne]
      · simp [diffLoop, hown, ho, ih', changeOf, List.filterMap_cons, hne]
    · simp [diffLoop, hown, ih', changeOf, List.filterMap_cons]

theorem changeOf_field (D : DateLib) (data : JsObj) (o : String → JsVal) (f : String)
    (c : Change) (h : changeOf D data o f = some c) :
    c.field = f ∧ c.old = o f ∧ c.val = normalizeForCompare D f (getProp data f) ∧
      hasOwn data f = true ∧ normalizeForCompare D f (getProp data f) ≠ o f := by
  unfold changeOf at h
  split at h
  · rename_i hc
    cases h
    exact ⟨rfl, rfl, rfl, hc.1, hc.2⟩
  · cases h

theorem oldNormOf_toObj (D : DateLib) (t : TicketsRow) (f : String) :
    oldNormOf D t.toObj f = Except.ok (oldNormSpec D t.toObj f) := by
  unfold oldNormOf oldNormSpec
  by_cases hf : f = "due_date"
  · subst hf
    cases hd : t.due_date <;>
      simp [TicketsRow.toObj, getProp, List.lookup, hd, optDate, truthy, orNull,
        normalizeForCompare, newDate, dateToISOString, Except.map]
  · simp [hf]

theorem diffTicket_toObj (D : DateLib) (t : TicketsRow) (data : JsObj) :
    diffTicket D t.toObj data =
      Except.ok (trackedFields.filterMap (changeOf D data (oldNormSpec D t.toObj))) :=
  diffLoop_eq_filterMap D t.toObj data _ trackedFields
    (fun f _ _ => oldNormOf_toObj D t f)

theorem trackedFields_nodup : trackedFields.Nodup := by decide

theorem toUpper_toUpper (c : Char) : c.toUpper.toUpper = c.toUpper := by
  by_cases h : 97 ≤ c.toNat ∧ c.toNat ≤ 122
  · have hc : c = Char.ofNat c.toNat := (Char.ofNat_toNat c).symm
    obtain ⟨h1, h2⟩ := h
    generalize c.toNat = n at hc h1 h2
    subst hc
    interval_cases n <;> decide
  · have : c.toUpper = c := by
      unfold Char.toUpper
      simp only [ge_iff_le]
      rw [if_neg h]
    rw [this, this]

theorem toUpper_eq_self_or_lt (c : Char) : c.toUpper = c ∨ c.toUpper.toNat < 128 := by
  by_cases h : 97 ≤ c.toNat ∧ c.toNat ≤ 122
  · right
    have hc : c = Char.ofNat c.toNat := (Char.ofNat_toNat c).symm
    obtain ⟨h1, h2⟩ := h
    generalize c.toNat = n at hc h1 h2
    subst hc
    interval_cases n <;> decide
  · left
    unfold Char.toUpper
    simp only [ge_iff_le]
    rw [if_neg h]

theorem upperIdempotent_sampleDates : upperIdempotent sampleDates := by
  intro c
  by_cases h1 : c = 'é'
  · subst h1; decide
  · by_cases h2 : c = 'ß'
    · subst h2; decide
    · have h3 : c.toUpper ≠ 'é' := by
        intro h
        rcases toUpper_eq_self_or_lt c with h' | h'
        · exact h1 (h'.symm.trans h)
        · rw [h] at h'
          exact absurd h' (by decide)
      have h4 : c.toUpper ≠ 'ß' := by
        intro h
        rcases toUpper_eq_self_or_lt c with h' | h'
        · exact h2 (h'.symm.trans h)
        · rw [h] at h'
          exact absurd h' (by decide)
      simp [sampleDates, h1, h2, h3, h4, toUpper_toUpper]

theorem upper_eq_of_upper_eq_singleton (D : DateLib) (hidem : upperIdempotent D) {c d : Char}
    (h : D.upper c = [d]) : D.upper c = D.upper d := by
  have h1 := hidem c
  rw [h] at h1
  simp only [List.flatMap_cons, List.flatMap_nil, List.append_nil] at h1
  rw [h, h1]

theorem upper_eq_of_sameLetter (D : DateLib) (hidem : upperIdempotent D) {c d : Char}
    (h : sameLetter D c d) : D.upper c = D.upper d := by
  rcases h with h | h | h
  · rw [h]
  · exact upper_eq_of_upper_eq_singleton D hidem h
  · exact (upper_eq_of_upper_eq_singleton D hidem h).symm

theorem flatMap_upper_eq_of_forall₂ (D : DateLib) (hidem : upperIdempotent D)
    {l₁ l₂ : List Char} (h : List.Forall₂ (sameLetter D) l₁ l₂) :
    l₁.flatMap D.upper = l₂.flatMap D.upper := by
  induction h with
  | nil => rfl
  | cons hcd _ ih => simp [List.flatMap_cons, upper_eq_of_sameLetter D hidem hcd, ih]

theorem toUpperCase_eq_of_differOnlyInCase (D : DateLib) (hidem : upperIdempotent D)
    {a b : String} (h : differOnlyInCase D a b) : toUpperCase D a = toUpperCase D b := by
  unfold toUpperCase
  rw [flatMap_upper_eq_of_forall₂ D hidem h]

theorem toUpperCase_idem (D : DateLib) (hidem : upperIdempotent D) (a : String) :
    toUpperCase D (toUpperCase D a) = toUpperCase D a := by
  unfold toUpperCase
  congr 1
  show (a.data.flatMap D.upper).flatMap D.upper = a.data.flatMap D.upper
  induction a.data with
  | nil => rfl
  | cons c l ih => simp [List.flatMap_cons, List.flatMap_append, hidem c, ih]

theorem mem_trackedFields_cases {f : String} (hf : f ∈ trackedFields) :
    f = "title" ∨ f = "desc" ∨ f = "status" ∨ f = "priority" ∨ f = "assigned_to" ∨
      f = "due_date" ∨ f = "parent_id" ∨ f = "ticket_type" := by
  simpa [trackedFields] using hf

theorem oldNormSpec_toObj_ne_null (D : DateLib) (t : TicketsRow) (f : String)
    (hf : f ∈ trackedFields) :
    getProp t.toObj f = JsVal.null ∨ oldNormSpec D t.toObj f ≠ JsVal.null := by
  rcases mem_trackedFields_cases hf with h | h | h | h | h | h | h | h <;> subst h
  · right; (simp [oldNormSpec, TicketsRow.toObj, getProp, List.lookup, orNull, normalizeForCompare, jsString])
  · right; (simp [oldNormSpec, TicketsRow.toObj, getProp, List.lookup, orNull, normalizeForCompare, jsString])
  · right; (simp [oldNormSpec, TicketsRow.toObj, getProp, List.lookup, orNull, normalizeForCompare, jsString])
  · right; (simp [oldNormSpec, TicketsRow.toObj, getProp, List.lookup, orNull, normalizeForCompare, jsString])
  · cases h : t.assigned_to
    · left; simp [TicketsRow.toObj, getProp, List.lookup, h, optStr]
    · right; (simp [oldNormSpec, TicketsRow.toObj, getProp, List.lookup, orNull, normalizeForCompare, jsString, h, optStr])
  · cases h : t.due_date
    · left; simp [TicketsRow.toObj, getProp, List.lookup, h, optDate]
    · right; (simp [oldNormSpec, TicketsRow.toObj, getProp, List.lookup, orNull, normalizeForCompare, h, optDate])
  · cases h : t.parent_id
    · left; simp [TicketsRow.toObj, getProp, List.lookup, h, optStr]
    · right; (simp [oldNormSpec, TicketsRow.toObj, getProp, List.lookup, orNull, normalizeForCompare, jsString, h, optStr])
  · right; (simp [oldNormSpec, TicketsRow.toObj, getProp, List.lookup, orNull, normalizeForCompare, jsString])

theorem mem_filterMap_changeOf (D : DateLib) (data : JsObj) (o : String → JsVal)
    (fs : List String) (f : String) (hf : f ∈ fs) :
    (∃ c ∈ fs.filterMap (changeOf D data o), c.field = f) ↔
      (hasOwn data f = true ∧ normalizeForCompare D f (getProp data f) ≠ o f) := by
  constructor
  · rintro ⟨c, hc, hcf⟩
    obtain ⟨g, _, hg⟩ := List.mem_filterMap.1 hc
    have := changeOf_field D data o g c hg
    rw [this.1] at hcf
    subst hcf
    exact ⟨this.2.2.2.1, this.2.2.2.2⟩
  · intro h
    refine ⟨{ field := f, old := o f, val := normalizeForCompare D f (getProp data f) }, ?_, rfl⟩
    exact List.mem_filterMap.2 ⟨f, hf, by simp [changeOf, h]⟩

/-- C4. Over every ticket row and every patch, `diffTicket` returns a change list
that has an entry for a tracked field exactly when the field is an own key of the
patch and the normalized old value differs from the normalized new value; every
entry carries these two normalized values; a field that is not an own key of the
patch has no entry; and a key present with an explicit null on a field whose
current value is not null has an entry whose new value is null. -/
theorem diffTicket_entry_iff (D : DateLib) (t : TicketsRow) (data : JsObj) :
    ∃ cs, diffTicket D t.toObj data = Except.ok cs ∧
      (∀ f ∈ trackedFields, (∃ c ∈ cs, c.field = f) ↔
        (hasOwn data f = true ∧
          normalizeForCompare D f (getProp data f) ≠
            normalizeForCompare D f (orNull (getProp t.toObj f)))) ∧
      (∀ c ∈ cs, c.old = normalizeForCompare D c.field (orNull (getProp t.toObj c.field)) ∧
        c.val = normalizeForCompare D c.field (getProp data c.field)) ∧
      (∀ f, hasOwn data f = false → ∀ c ∈ cs, c.field ≠ f) ∧
      (∀ f ∈ trackedFields, data.lookup f = some JsVal.null →
        getProp t.toObj f ≠ JsVal.null → ∃ c ∈ cs, c.field = f ∧ c.val = JsVal.null) := by
  refine ⟨_, diffTicket_toObj D t data, ?_, ?_, ?_, ?_⟩
  · intro f hf
    exact mem_filterMap_changeOf D data _ trackedFields f hf
  · intro c hc
    obtain ⟨g, _, hg⟩ := List.mem_filterMap.1 hc
    have := changeOf_field D data _ g c hg
    rw [this.1]
    exact ⟨this.2.1, this.2.2.1⟩
  · intro f hf c hc hcf
    obtain ⟨g, _, hg⟩ := List.mem_filterMap.1 hc
    have := changeOf_field D data _ g c hg
    rw [this.1] at hcf
    subst hcf
    rw [this.2.2.2.1] at hf
    cases hf
  · intro f hf hnull hcur
    have hget : getProp data f = JsVal.null := by simp [getProp, hnull]
    have hown : hasOwn data f = true := by simp [hasOwn, hnull]
    have hnew : normalizeForCompare D f (getProp data f) = JsVal.null := by
      rw [hget]; rfl
    rcases oldNormSpec_toObj_ne_null D t f hf with h | hs
    · exact absurd h hcur
    · refine ⟨{ field := f, old := oldNormSpec D t.toObj f, val := normalizeForCompare D f (getProp data f) }, ?_, rfl, hnew⟩
      apply List.mem_filterMap.2
      refine ⟨f, hf, ?_⟩
      have : normalizeForCompare D f (getProp data f) ≠ oldNormSpec D t.toObj f := by
        rw [hnew]; exact fun h => hs h.symm
      simp [changeOf, hown, this]

/-- C4, at a concrete row and patch: the patch clears `due_date` with an explicit
null and does not mention `title`. -/
theorem diffTicket_entry_iff_witness :
    ∃ cs, diffTicket sampleDates sampleTicket.toObj [("due_date", JsVal.null)] = Except.ok cs ∧
      (∃ c ∈ cs, c.field = "due_date" ∧ c.val = JsVal.null) ∧
      (∀ c ∈ cs, c.field ≠ "title") := by
  obtain ⟨cs, h, _, _, habs, hnull⟩ :=
    diffTicket_entry_iff sampleDates sampleTicket [("due_date", JsVal.null)]
  exact ⟨cs, h, hnull "due_date" (by decide) (by decide) (by decide),
    habs "title" (by decide)⟩

/-! ### Idempotence (C6) -/

theorem newDate_match_eq (D : DateLib) (v : JsVal) :
    (match v with
      | JsVal.date t => t
      | w => newDate D w) = newDate D v := by
  cases v <;> rfl

theorem normalizeForCompare_due_date (D : DateLib) (v : JsVal)
    (h1 : v ≠ JsVal.undefined) (h2 : v ≠ JsVal.null) :
    normalizeForCompare D "due_date" v =
      match newDate D v with
      | none => JsVal.null
      | some t => JsVal.str (D.toISOString t) := by
  cases v <;> first | exact absurd rfl h1 | exact absurd rfl h2 | simp [normalizeForCompare, newDate]

theorem oldNormOf_of_getProp_eq (D : DateLib) (s' p : JsObj) (f : String)
    (hv : getProp s' f = getProp p f) (hu : getProp p f ≠ JsVal.undefined)
    (hd : f = "due_date" → dueDateStable D (getProp p f)) :
    oldNormOf D s' f = Except.ok (normalizeForCompare D f (getProp p f)) := by
  unfold oldNormOf
  by_cases hf : f = "due_date"
  · subst hf
    rw [if_pos rfl, hv]
    rcases hd rfl with h | ⟨_, h⟩
    · rw [h]; rfl
    · by_cases hnull : getProp p "due_date" = JsVal.null
      · rw [hnull]; rfl
      · rw [normalizeForCompare_due_date D _ hu hnull]
        by_cases ht : truthy (getProp p "due_date") = true
        · rw [if_pos ht]
          have := h.1 ht
          obtain ⟨t, ht'⟩ := Option.isSome_iff_exists.1 this
          rw [ht']
          rfl
        · rw [if_neg ht]
          have : newDate D (getProp p "due_date") = none := by
            cases hn : newDate D (getProp p "due_date") with
            | none => rfl
            | some t => exact absurd (h.2 (by simp [hn])) ht
          rw [this]
  · rw [if_neg hf, hv]
    congr 2
    cases hp : getProp p f <;> first | exact absurd hp hu | rfl

theorem mem_objKeys_of_hasOwn {o : JsObj} {k : String} (h : hasOwn o k = true) :
    k ∈ objKeys o := by
  induction o with
  | nil => simp [hasOwn] at h
  | cons kv o ih =>
    obtain ⟨a, b⟩ := kv
    by_cases hk : k = a
    · subst hk; simp [objKeys]
    · have hb : (k == a) = false := by simpa using hk
      have h' : hasOwn o k = true := by
        unfold hasOwn at h ⊢
        rw [List.lookup_cons, hb] at h
        exact h
      have := ih h'
      simp only [objKeys, List.map_cons, List.mem_cons]
      exact Or.inr this

/-- Re-diffing is empty on every state and patch in which no tracked key of the
patch `p` carries `undefined` and its `due_date`, if present, is null, or truthy and
a valid date, or falsy and no date: for every `s'` that is `s` with the keys of `p`
overwritten, `diffTicket(s', p)` returns the empty change list. -/
theorem diffTicket_overwrite_empty (D : DateLib) (s p s' : JsObj)
    (hdef : ∀ f ∈ trackedFields, hasOwn p f = true → getProp p f ≠ JsVal.undefined)
    (hdate : hasOwn p "due_date" = true → dueDateStable D (getProp p "due_date"))
    (hs' : IsOverwrite s p s') :
    diffTicket D s' p = Except.ok [] := by
  have h := diffLoop_eq_filterMap D s' p (fun f => normalizeForCompare D f (getProp p f))
    trackedFields (by
      intro f hf hown
      have hv : getProp s' f = getProp p f := hs'.1 f (mem_objKeys_of_hasOwn hown)
      exact oldNormOf_of_getProp_eq D s' p f hv (hdef f hf hown)
        (fun hfd => by subst hfd; exact hdate hown))
  unfold diffTicket
  rw [h]
  congr 1
  apply List.filterMap_eq_nil_iff.2
  intro f _
  simp [changeOf]

theorem getProp_toObj_ne_undefined (t : TicketsRow) (f : String) (hf : f ∈ trackedFields) :
    getProp t.toObj f ≠ JsVal.undefined := by
  rcases mem_trackedFields_cases hf with h | h | h | h | h | h | h | h <;> subst h
  · simp [TicketsRow.toObj, getProp, List.lookup]
  · simp [TicketsRow.toObj, getProp, List.lookup]
  · simp [TicketsRow.toObj, getProp, List.lookup]
  · simp [TicketsRow.toObj, getProp, List.lookup]
  · cases h : t.assigned_to <;> simp [TicketsRow.toObj, getProp, List.lookup, h, optStr]
  · cases h : t.due_date <;> simp [TicketsRow.toObj, getProp, List.lookup, h, optDate]
  · cases h : t.parent_id <;> simp [TicketsRow.toObj, getProp, List.lookup, h, optStr]
  · simp [TicketsRow.toObj, getProp, List.lookup]

theorem dueDateStable_toObj (D : DateLib) (t : TicketsRow) :
    dueDateStable D (getProp t.toObj "due_date") := by
  cases h : t.due_date with
  | none => left; simp [TicketsRow.toObj, getProp, List.lookup, h, optDate]
  | some x =>
    right
    have : getProp t.toObj "due_date" = JsVal.date (some x) := by
      simp [TicketsRow.toObj, getProp, List.lookup, h, optDate]
    rw [this]
    exact ⟨by simp, by simp [truthy, newDate]⟩

/-- C6. Diffing is idempotent: for every ticket row `s`, every patch `p` and every
ticket row `s'` that is `s` with every key of `p` overwritten by the value `p` has
for it, `diffTicket(s', p)` returns the empty change list. -/
theorem diffTicket_idempotent (D : DateLib) (s s' : TicketsRow) (p : JsObj)
    (hs' : IsOverwrite s.toObj p s'.toObj) :
    diffTicket D s'.toObj p = Except.ok [] := by
  apply diffTicket_overwrite_empty D s.toObj p s'.toObj ?_ ?_ hs'
  · intro f hf hown
    rw [← hs'.1 f (mem_objKeys_of_hasOwn hown)]
    exact getProp_toObj_ne_undefined s' f hf
  · intro hown
    rw [← hs'.1 "due_date" (mem_objKeys_of_hasOwn hown)]
    exact dueDateStable_toObj D s'

/-- C6 at a concrete row and patch: the patch renames the ticket, sets the status in
lower case and clears the due date; the row after the update holds these values. -/
theorem diffTicket_idempotent_witness :
    IsOverwrite sampleTicket.toObj
      [("title", JsVal.str "New"), ("status", JsVal.str "closed"), ("due_date", JsVal.null)]
      { sampleTicket with title := "New", status := "closed", due_date := none }.toObj ∧
    diffTicket sampleDates
      { sampleTicket with title := "New", status := "closed", due_date := none }.toObj
      [("title", JsVal.str "New"), ("status", JsVal.str "closed"), ("due_date", JsVal.null)]
      = Except.ok [] :=
  ⟨by decide,
   diffTicket_idempotent sampleDates sampleTicket
    { sampleTicket with title := "New", status := "closed", due_date := none }
    [("title", JsVal.str "New"), ("status", JsVal.str "closed"), ("due_date", JsVal.null)]
    (by decide)⟩

/-! ### Enumerated fields (C7) -/

theorem isUpperForm_normalize_enum (D : DateLib) (hidem : upperIdempotent D) (f : String)
    (hf : f ∈ enumFields) (v : JsVal) : isUpperForm D (normalizeForCompare D f v) := by
  have hne : f ≠ "due_date" := by
    intro h; subst h; simp [enumFields] at hf
  have he : f = "status" ∨ f = "priority" ∨ f = "ticket_type" := by
    simpa [enumFields] using hf
  cases v <;> simp [normalizeForCompare, isUpperForm, hne, he, toUpperCase_idem D hidem]

/-- C7. With the upper-case mapping of the runtime (which leaves upper-case forms
as they are): for an enumerated field (status, priority, ticket_type) whose current
value and patch value are strings that differ only in letter case, the change list
that `diffTicket` returns has no entry for that field; and in every change list it
returns, the old and new value of an entry for an enumerated field are in
upper-case form. -/
theorem diffTicket_enum_case_insensitive (D : DateLib) (hidem : upperIdempotent D)
    (t : TicketsRow) (data : JsObj) :
    ∃ cs, diffTicket D t.toObj data = Except.ok cs ∧
      (∀ f ∈ enumFields, ∀ a b : String, getProp t.toObj f = JsVal.str a →
        getProp data f = JsVal.str b → differOnlyInCase D a b → ∀ c ∈ cs, c.field ≠ f) ∧
      (∀ c ∈ cs, c.field ∈ enumFields → isUpperForm D c.old ∧ isUpperForm D c.val) := by
  refine ⟨_, diffTicket_toObj D t data, ?_, ?_⟩
  · intro f hf a b ha hb hab c hc hcf
    obtain ⟨g, _, hg⟩ := List.mem_filterMap.1 hc
    have h := changeOf_field D data _ g c hg
    rw [h.1] at hcf
    subst hcf
    apply h.2.2.2.2
    have hne : g ≠ "due_date" := by
      intro h; subst h; simp [enumFields] at hf
    have he : g = "status" ∨ g = "priority" ∨ g = "ticket_type" := by
      simpa [enumFields] using hf
    simp [oldNormSpec, ha, hb, orNull, normalizeForCompare, hne, he, jsString,
      toUpperCase_eq_of_differOnlyInCase D hidem hab]
  · intro c hc hcf
    obtain ⟨g, _, hg⟩ := List.mem_filterMap.1 hc
    have h := changeOf_field D data _ g c hg
    rw [h.1] at hcf
    rw [h.2.1, h.2.2.1]
    exact ⟨isUpperForm_normalize_enum D hidem g hcf _,
      isUpperForm_normalize_enum D hidem g hcf _⟩

/-- C7, at the example of the specification, current status "open" with patch
status "OPEN", and at a letter outside the basic latin ones, current status "café"
with patch status "CAFÉ". -/
theorem diffTicket_enum_case_insensitive_witness :
    (∃ cs, diffTicket sampleDates sampleTicket.toObj [("status", JsVal.str "OPEN")] =
        Except.ok cs ∧ ∀ c ∈ cs, c.field ≠ "status") ∧
    (∃ cs, diffTicket sampleDates { sampleTicket with status := "café" }.toObj
        [("status", JsVal.str "CAFÉ")] = Except.ok cs ∧ ∀ c ∈ cs, c.field ≠ "status") := by
  constructor
  · obtain ⟨cs, h, hcase, _⟩ :=
      diffTicket_enum_case_insensitive sampleDates upperIdempotent_sampleDates sampleTicket
        [("status", JsVal.str "OPEN")]
    refine ⟨cs, h, hcase "status" (by decide) "open" "OPEN" (by decide) (by decide) ?_⟩
    unfold differOnlyInCase sameLetter
    decide
  · obtain ⟨cs, h, hcase, _⟩ :=
      diffTicket_enum_case_insensitive sampleDates upperIdempotent_sampleDates
        { sampleTicket with status := "café" } [("status", JsVal.str "CAFÉ")]
    refine ⟨cs, h, hcase "status" (by decide) "café" "CAFÉ" (by decide) (by decide) ?_⟩
    unfold differOnlyInCase sameLetter
    decide

/-! ### Dates (C8, C9) -/

theorem oldNormOf_eq_value (D : DateLib) (oldT : JsObj) (f : String)
    (h : f = "due_date" → truthy (getProp oldT "due_date") = true →
      newDate D (getProp oldT "due_date") ≠ none) :
    oldNormOf D oldT f = Except.ok (oldNormValue D oldT f) := by
  unfold oldNormOf oldNormValue
  by_cases hf : f = "due_date"
  · rw [if_pos hf, if_pos hf]
    by_cases ht : truthy (getProp oldT "due_date") = true
    · rw [if_pos ht, if_pos ht]
      cases hn : newDate D (getProp oldT "due_date") with
      | none => exact absurd hn (h hf ht)
      | some t => rfl
    · rw [if_neg ht, if_neg ht]
  · rw [if_neg hf, if_neg hf]

theorem diffLoop_error_of_mem (D : DateLib) (oldT data : JsObj) (fs : List String)
    (f : String) (e : JsError) (hf : f ∈ fs) (hown : hasOwn data f = true)
    (herr : oldNormOf D oldT f = Except.error e) :
    ∃ e', diffLoop D oldT data fs = Except.error e' := by
  induction fs with
  | nil => cases hf
  | cons g fs ih =>
    by_cases hg : g = f
    · subst hg
      exact ⟨e, by simp [diffLoop, hown, herr]⟩
    · have hmem : f ∈ fs := by
        rcases List.mem_cons.1 hf with h | h
        · exact absurd h.symm hg
        · exact h
      obtain ⟨e', he'⟩ := ih hmem
      by_cases hgo : hasOwn data g = true
      · cases hog : oldNormOf D oldT g with
        | error e'' => exact ⟨e'', by simp [diffLoop, hgo, hog]⟩
        | ok o => exact ⟨e', by simp [diffLoop, hgo, hog, he']⟩
      · exact ⟨e', by simp [diffLoop, hgo, he']⟩

theorem diffTicket_eq_of_due_date_ok (D : DateLib) (oldT data : JsObj)
    (h : hasOwn data "due_date" = true → truthy (getProp oldT "due_date") = true →
      newDate D (getProp oldT "due_date") ≠ none) :
    diffTicket D oldT data =
      Except.ok (trackedFields.filterMap (changeOf D data (oldNormValue D oldT))) :=
  diffLoop_eq_filterMap D oldT data _ trackedFields
    (fun f _ hown => oldNormOf_eq_value D oldT f (fun hf => by subst hf; exact h hown))

/-- C8. For a valid instant `t` and a string `iso` that denotes it (it parses to
`t`, as the ISO-8601 string of `t` does), `diffTicket` returns a change list without
a `due_date` entry when the current `due_date` is the `Date` object of `t` and the
patch carries `iso`, and also when the current value is `iso` and the patch carries
the `Date` object. -/
theorem diffTicket_due_date_same_instant (D : DateLib) (oldT data : JsObj) (t : Int)
    (iso : String) (_hvalid : validTime t)
    (hparse : D.parse iso = some t)
    (hne : iso ≠ "")
    (hrepr : (getProp oldT "due_date" = JsVal.date (some t) ∧
                getProp data "due_date" = JsVal.str iso) ∨
             (getProp oldT "due_date" = JsVal.str iso ∧
                getProp data "due_date" = JsVal.date (some t))) :
    ∃ cs, diffTicket D oldT data = Except.ok cs ∧ ∀ c ∈ cs, c.field ≠ "due_date" := by
  have hok : truthy (getProp oldT "due_date") = true ∧
      newDate D (getProp oldT "due_date") = some t := by
    rcases hrepr with ⟨h, _⟩ | ⟨h, _⟩
    · rw [h]; exact ⟨rfl, rfl⟩
    · rw [h]; exact ⟨by simpa [truthy] using hne, hparse⟩
  have hnew : normalizeForCompare D "due_date" (getProp data "due_date") =
      JsVal.str (D.toISOString t) := by
    rcases hrepr with ⟨_, h⟩ | ⟨_, h⟩
    · rw [h]; simp [normalizeForCompare, newDate, hparse]
    · rw [h]; simp [normalizeForCompare]
  refine ⟨_, diffTicket_eq_of_due_date_ok D oldT data (fun _ _ => by rw [hok.2]; simp), ?_⟩
  intro c hc hcf
  obtain ⟨g, _, hg⟩ := List.mem_filterMap.1 hc
  have h := changeOf_field D data _ g c hg
  rw [h.1] at hcf
  subst hcf
  apply h.2.2.2.2
  rw [hnew]
  simp [oldNormValue, hok.1, hok.2]

/-- C8, at the epoch: a `Date` object in the row and its ISO string in the patch. -/
theorem diffTicket_due_date_same_instant_witness :
    ∃ cs, diffTicket sampleDates sampleTicket.toObj
        [("due_date", JsVal.str "1970-01-01T00:00:00.000Z")] = Except.ok cs ∧
      ∀ c ∈ cs, c.field ≠ "due_date" :=
  diffTicket_due_date_same_instant sampleDates sampleTicket.toObj
    [("due_date", JsVal.str "1970-01-01T00:00:00.000Z")] 0 "1970-01-01T00:00:00.000Z"
    (by decide) (by decide) (by decide) (Or.inl ⟨by decide, by decide⟩)

/-- For `due_date`, on every state and patch: `diffTicket` returns normally exactly
when the patch has no `due_date` key or the current value is falsy or denotes a
valid date; on the patch side null and every value that denotes no date normalize
to null; on the current side a falsy value is taken as null; and against such a
patch value the returned list has a `due_date` entry exactly when the current value
is truthy, with new value null. -/
theorem diffTicket_due_date_null_policy (D : DateLib) (oldT data : JsObj) :
    ((∃ cs, diffTicket D oldT data = Except.ok cs) ↔
      ¬ (hasOwn data "due_date" = true ∧ truthy (getProp oldT "due_date") = true ∧
          newDate D (getProp oldT "due_date") = none)) ∧
    normalizeForCompare D "due_date" JsVal.null = JsVal.null ∧
    (∀ v, v ≠ JsVal.undefined → newDate D v = none →
      normalizeForCompare D "due_date" v = JsVal.null) ∧
    (truthy (getProp oldT "due_date") = false →
      oldNormOf D oldT "due_date" = Except.ok JsVal.null) ∧
    (∀ cs v, diffTicket D oldT data = Except.ok cs → data.lookup "due_date" = some v →
      (v = JsVal.null ∨ (v ≠ JsVal.undefined ∧ newDate D v = none)) →
      ((∃ c ∈ cs, c.field = "due_date") ↔ truthy (getProp oldT "due_date") = true) ∧
      (∀ c ∈ cs, c.field = "due_date" → c.val = JsVal.null)) := by
  have hpatch : ∀ v, v ≠ JsVal.undefined → newDate D v = none →
      normalizeForCompare D "due_date" v = JsVal.null := by
    intro v hv hn
    by_cases hnull : v = JsVal.null
    · rw [hnull]; rfl
    · rw [normalizeForCompare_due_date D v hv hnull, hn]
  have htotal : (∃ cs, diffTicket D oldT data = Except.ok cs) ↔
      ¬ (hasOwn data "due_date" = true ∧ truthy (getProp oldT "due_date") = true ∧
          newDate D (getProp oldT "due_date") = none) := by
    constructor
    · rintro ⟨cs, hcs⟩ ⟨hown, ht, hn⟩
      have herr : oldNormOf D oldT "due_date" =
          Except.error { name := "RangeError", message := "Invalid time value", status := none } := by
        simp [oldNormOf, ht, hn, dateToISOString, Except.map]
      obtain ⟨e', he'⟩ := diffLoop_error_of_mem D oldT data trackedFields "due_date" _
        (by decide) hown herr
      unfold diffTicket at hcs
      rw [he'] at hcs
      cases hcs
    · intro h
      exact ⟨_, diffTicket_eq_of_due_date_ok D oldT data
        (fun hown ht hn => h ⟨hown, ht, hn⟩)⟩
  refine ⟨htotal, rfl, hpatch, ?_, ?_⟩
  · intro ht
    simp [oldNormOf, ht]
  · intro cs v hcs hv hcase
    have hown : hasOwn data "due_date" = true := by simp [hasOwn, hv]
    have hget : getProp data "due_date" = v := by simp [getProp, hv]
    have hnew : normalizeForCompare D "due_date" (getProp data "due_date") = JsVal.null := by
      rw [hget]
      rcases hcase with h | ⟨h1, h2⟩
      · rw [h]; rfl
      · exact hpatch v h1 h2
    have hgood := htotal.1 ⟨cs, hcs⟩
    have heq := diffTicket_eq_of_due_date_ok D oldT data
      (fun hown ht hn => hgood ⟨hown, ht, hn⟩)
    rw [heq] at hcs
    cases hcs
    constructor
    · rw [mem_filterMap_changeOf D data _ trackedFields "due_date" (by decide)]
      rw [hnew]
      constructor
      · rintro ⟨_, hne⟩
        by_contra ht
        apply hne
        simp [oldNormValue, ht]
      · intro ht
        refine ⟨hown, ?_⟩
        cases hn : newDate D (getProp oldT "due_date") with
        | none => exact absurd ⟨hown, ht, hn⟩ hgood
        | some t => simp [oldNormValue, ht, hn]
    · intro c hc hcf
      obtain ⟨g, _, hg⟩ := List.mem_filterMap.1 hc
      have h := changeOf_field D data _ g c hg
      rw [h.1] at hcf
      subst hcf
      rw [h.2.2.1, hnew]

/-! ## The permission check (C1) -/

/-- C1. `hasPerm(req, entity, op)` is truthy for every entity and operation when
`req.ctx.isSuperAdmin` is true; when the flag is not truthy it is truthy exactly
when a permission set is loaded and contains the key of that very
(entity, operation) pair; and it is falsy when no permission set is loaded (also
when the request has no context at all). -/
theorem hasPerm_spec (req : Req) (entity op : String) :
    (∀ c, req.ctx = some c → c.isSuperAdmin = JsVal.bool true →
      truthy (hasPerm req entity op) = true) ∧
    (∀ c, req.ctx = some c → truthy c.isSuperAdmin = false →
      (truthy (hasPerm req entity op) = true ↔
        ∃ ps, c.perms = some ps ∧ permKey entity op ∈ ps)) ∧
    (∀ c, req.ctx = some c → truthy c.isSuperAdmin = false → c.perms = none →
      truthy (hasPerm req entity op) = false) ∧
    (req.ctx = none → truthy (hasPerm req entity op) = false) := by
  have hfalse : ∀ c, req.ctx = some c → truthy c.isSuperAdmin = false →
      hasPerm req entity op =
        match c.perms with
        | none => JsVal.undefined
        | some ps => JsVal.bool (ps.contains (permKey entity op)) := by
    intro c hctx h
    unfold hasPerm
    simp only [hctx]
    rw [if_neg (by rw [h]; simp)]
  refine ⟨?_, ?_, ?_, ?_⟩
  · intro c hctx h
    unfold hasPerm
    simp only [hctx, h]
    rfl
  · intro c hctx h
    rw [hfalse c hctx h]
    cases hp : c.perms with
    | none => simp [truthy]
    | some ps => simp [truthy]
  · intro c hctx h hp
    rw [hfalse c hctx h, hp]
    rfl
  · intro hctx
    unfold hasPerm
    simp only [hctx]
    rfl

/-- C1, at a member holding `TICKET:READ` and a key `TICKET:*`: reading is allowed,
and the star key grants nothing for `TICKET:UPDATE`. -/
theorem hasPerm_spec_witness :
    truthy (hasPerm sampleMemberReq "TICKET" "READ") = true ∧
    ¬ (truthy (hasPerm sampleMemberReq "TICKET" "UPDATE") = true) := by
  have h1 := (hasPerm_spec sampleMemberReq "TICKET" "READ").2.1 _ rfl (by decide)
  have h2 := (hasPerm_spec sampleMemberReq "TICKET" "UPDATE").2.1 _ rfl (by decide)
  refine ⟨h1.2 ⟨_, rfl, by decide⟩, ?_⟩
  intro h
  obtain ⟨ps, hps, hmem⟩ := h2.1 h
  cases hps
  revert hmem
  decide

/-! ## Assignments (C2, C3) -/

theorem updateAssignedRoleForUser_userRole (s : Store) (req : Req) :
    (updateAssignedRoleForUser s req).1.userRole = s.userRole ∨
    ∃ uid wid rid,
      (updateAssignedRoleForUser s req).1.userRole =
        s.userRole.filter (fun r => ¬ (r.user_id = uid ∧ r.workspace_id = wid)) ++
          [{ user_id := uid, workspace_id := wid, role_id := rid }] := by
  unfold updateAssignedRoleForUser
  simp only []
  repeat' split
  all_goals first
    | exact Or.inl rfl
    | exact Or.inr ⟨_, _, _, rfl⟩

theorem removeAssignedRolesForUser_userRole (s : Store) (req : Req) :
    ∃ q : UserRoleRow → Bool,
      (removeAssignedRolesForUser s req).1.userRole = s.userRole.filter q := by
  unfold removeAssignedRolesForUser
  simp only []
  repeat' split
  all_goals first
    | exact ⟨_, rfl⟩
    | exact ⟨fun _ => true, (List.filter_true _).symm⟩

theorem assignRolestoUsers_userRole (s : Store) (req : Req) (usersArg rolesArg : ArrayArg) :
    (assignRolestoUsers s req usersArg rolesArg).1.userRole = s.userRole ∨
    ∃ users roles wid,
      usersArg.toList? = some users ∧ rolesArg.toList? = some roles ∧
      (assignRolestoUsers s req usersArg rolesArg).1.userRole =
        s.userRole.filter
            (fun r => ¬ (r.workspace_id = wid ∧ r.user_id ∈ (finalByUser users roles).map Prod.fst)) ++
          ((finalByUser users roles).map Prod.fst).map (fun user_id =>
            ({ user_id := user_id, workspace_id := wid,
               role_id := ((finalByUser users roles).lookup user_id).getD "" } : UserRoleRow)) := by
  unfold assignRolestoUsers
  simp only []
  repeat' split
  all_goals first
    | exact Or.inl rfl
    | (refine Or.inr ⟨_, _, _, ?_, ?_, rfl⟩ <;> assumption)
    | (rename_i users roles hu hr _ _ wid _ _ _ _ _ hlen
       refine Or.inr ⟨users, roles, wid, hu, hr, ?_⟩
       · have hnil := List.length_eq_zero.1 (not_not.1 hlen)
         show List.filter _ s.userRole = _
         rw [hnil, List.append_nil])

theorem ensurePermission_userRole (s : Store) (e o newId : String) :
    (ensurePermission s e o newId).1.userRole = s.userRole := by
  unfold ensurePermission
  split <;> rfl

theorem ensurePermissions_userRole (gen : Nat → String) (s : Store) (n : Nat)
    (perms : List (String × String)) :
    (ensurePermissions gen s n perms).1.userRole = s.userRole := by
  induction perms generalizing s n with
  | nil => rfl
  | cons p rest ih =>
    obtain ⟨e, o⟩ := p
    simp only [ensurePermissions]
    rw [ih, ensurePermission_userRole]

theorem grantPermissionsToRole_userRole (gen : Nat → String) (s : Store) (n : Nat)
    (roleId : String) (perms : List (String × String)) :
    (grantPermissionsToRole gen s n roleId perms).userRole = s.userRole := by
  simp only [grantPermissionsToRole]
  exact ensurePermissions_userRole gen s n perms

theorem grantDefaultRoles_userRole (gen : Nat → String) (s : Store) (n : Nat)
    (roles : List RoleRow) (ts : List (String × List (String × String))) :
    (grantDefaultRoles gen s n roles ts).userRole = s.userRole := by
  induction roles generalizing s n ts with
  | nil => cases ts <;> rfl
  | cons r rs ih =>
    cases ts with
    | nil => rfl
    | cons t ts =>
      obtain ⟨name, perms⟩ := t
      simp only [grantDefaultRoles]
      rw [ih, grantPermissionsToRole_userRole]

theorem createWorkspace_userRole (lower : String → String) (gen : Nat → String) (s : Store) (req : Req) :
    (createWorkspace lower gen s req).1.userRole = s.userRole ∨
    ∃ adminId rid,
      (createWorkspace lower gen s req).1.userRole =
        s.userRole ++ [{ user_id := adminId, role_id := rid, workspace_id := gen 0 }] := by
  unfold createWorkspace
  split
  · exact Or.inl rfl
  split
  · exact Or.inl rfl
  split
  · split
    · exact Or.inl rfl
    · exact Or.inl rfl
    · split
      · split
        · exact Or.inl rfl
        · dsimp only
          split
          · simp only [grantDefaultRoles_userRole]
            exact Or.inr ⟨_, _, rfl⟩
          · simp only [grantDefaultRoles_userRole]
            exact Or.inl trivial
      · exact Or.inl rfl
  · exact Or.inl rfl

theorem lookup_isSome_iff_mem_keys {β : Type} (m : List (String × β)) (k : String) :
    (m.lookup k).isSome = true ↔ k ∈ m.map Prod.fst := by
  induction m with
  | nil => simp
  | cons kv m ih =>
    obtain ⟨a, b⟩ := kv
    by_cases hk : k = a
    · subst hk; simp [List.lookup_cons]
    · have hb : (k == a) = false := by simpa using hk
      rw [List.lookup_cons, hb]
      simp only [List.map_cons, List.mem_cons, hk, false_or]
      exact ih

theorem keys_mapSet (m : List (String × String)) (k v : String) :
    (mapSet m k v).map Prod.fst =
      if (m.lookup k).isSome = true then m.map Prod.fst else m.map Prod.fst ++ [k] := by
  unfold mapSet
  split
  · rw [List.map_map]
    apply List.map_congr_left
    intro kv _
    by_cases h : kv.1 = k
    · simp [h]
    · simp [h]
  · simp

theorem nodup_keys_mapSet (m : List (String × String)) (k v : String)
    (h : (m.map Prod.fst).Nodup) : ((mapSet m k v).map Prod.fst).Nodup := by
  rw [keys_mapSet]
  split
  · exact h
  · rename_i hk
    rw [lookup_isSome_iff_mem_keys] at hk
    exact List.Nodup.append h (List.nodup_singleton k) (by simpa using hk)

theorem nodup_keys_foldl_mapSet (pairs : List (String × String)) (m : List (String × String))
    (h : (m.map Prod.fst).Nodup) :
    ((pairs.foldl (fun m p => mapSet m p.1 p.2) m).map Prod.fst).Nodup := by
  induction pairs generalizing m with
  | nil => exact h
  | cons p ps ih => exact ih _ (nodup_keys_mapSet m p.1 p.2 h)

theorem nodup_keys_finalByUser (users roles : List String) :
    ((finalByUser users roles).map Prod.fst).Nodup :=
  nodup_keys_foldl_mapSet _ [] List.nodup_nil

theorem assignmentsOf_filter_le (l : List UserRoleRow) (q : UserRoleRow → Bool) (u w : String) :
    ((l.filter q).filter (fun r => r.user_id = u ∧ r.workspace_id = w)).length ≤
      (l.filter (fun r => r.user_id = u ∧ r.workspace_id = w)).length :=
  ((List.filter_sublist l).filter _).length_le

theorem rows_filter_length_le_one (keys : List String) (hk : keys.Nodup) (f : String → String)
    (wid u w : String) :
    ((keys.map (fun x => ({ user_id := x, workspace_id := wid, role_id := f x } : UserRoleRow))).filter
        (fun r => r.user_id = u ∧ r.workspace_id = w)).length ≤ 1 := by
  induction keys with
  | nil => simp
  | cons x xs ih =>
    have hx : x ∉ xs := (List.nodup_cons.1 hk).1
    have hxs : xs.Nodup := (List.nodup_cons.1 hk).2
    by_cases hxu : x = u ∧ wid = w
    · have hnil : (xs.map (fun x => ({ user_id := x, workspace_id := wid, role_id := f x } : UserRoleRow))).filter
          (fun r => r.user_id = u ∧ r.workspace_id = w) = [] := by
        apply List.filter_eq_nil_iff.2
        intro r hr
        obtain ⟨y, hy, rfl⟩ := List.mem_map.1 hr
        have : y ≠ u := by
          intro h; apply hx; rw [hxu.1, ← h]; exact hy
        simp [this]
      simp only [List.map_cons, List.filter_cons]
      rw [if_pos (by simpa using hxu), hnil]
      simp
    · have := ih hxs
      simp only [List.map_cons, List.filter_cons]
      rw [if_neg (by simpa using hxu)]
      exact this

theorem atMostOne_of_filter (s s' : Store) (q : UserRoleRow → Bool)
    (h : AtMostOneAssignment s) (hs : s'.userRole = s.userRole.filter q) :
    AtMostOneAssignment s' := by
  intro u w
  unfold assignmentsOf
  rw [hs]
  exact le_trans (assignmentsOf_filter_le _ q u w) (h u w)

theorem atMostOne_of_eq (s s' : Store) (h : AtMostOneAssignment s)
    (hs : s'.userRole = s.userRole) : AtMostOneAssignment s' := by
  intro u w
  unfold assignmentsOf
  rw [hs]
  exact h u w

theorem atMostOne_of_replace (s s' : Store) (uid wid rid : String)
    (h : AtMostOneAssignment s)
    (hs : s'.userRole =
      s.userRole.filter (fun r => ¬ (r.user_id = uid ∧ r.workspace_id = wid)) ++
        [{ user_id := uid, workspace_id := wid, role_id := rid }]) :
    AtMostOneAssignment s' := by
  intro u w
  unfold assignmentsOf
  rw [hs, List.filter_append, List.length_append]
  by_cases huw : uid = u ∧ wid = w
  · have hnil : (s.userRole.filter (fun r => ¬ (r.user_id = uid ∧ r.workspace_id = wid))).filter
        (fun r => r.user_id = u ∧ r.workspace_id = w) = [] := by
      apply List.filter_eq_nil_iff.2
      intro r hr
      have := (List.mem_filter.1 hr).2
      rw [← huw.1, ← huw.2]
      simp only [decide_eq_true_eq, decide_not, Bool.not_eq_true', decide_eq_false_iff_not] at this ⊢
      exact this
    rw [hnil]
    simp [List.filter_cons]
    split <;> simp
  · have h1 := le_trans (assignmentsOf_filter_le s.userRole
      (fun r => ¬ (r.user_id = uid ∧ r.workspace_id = wid)) u w) (h u w)
    have h2 : ([({ user_id := uid, workspace_id := wid, role_id := rid } : UserRoleRow)].filter
        (fun r => r.user_id = u ∧ r.workspace_id = w)).length = 0 := by
      simp [List.filter_cons, huw]
    omega

theorem atMostOne_of_bulk (s s' : Store) (keys : List String) (hk : keys.Nodup)
    (f : String → String) (wid : String) (h : AtMostOneAssignment s)
    (hs : s'.userRole =
      s.userRole.filter (fun r => ¬ (r.workspace_id = wid ∧ r.user_id ∈ keys)) ++
        keys.map (fun x => ({ user_id := x, workspace_id := wid, role_id := f x } : UserRoleRow))) :
    AtMostOneAssignment s' := by
  intro u w
  unfold assignmentsOf
  rw [hs, List.filter_append, List.length_append]
  by_cases huw : wid = w ∧ u ∈ keys
  · have hnil : (s.userRole.filter (fun r => ¬ (r.workspace_id = wid ∧ r.user_id ∈ keys))).filter
        (fun r => r.user_id = u ∧ r.workspace_id = w) = [] := by
      apply List.filter_eq_nil_iff.2
      intro r hr
      have := (List.mem_filter.1 hr).2
      have hmem := huw.2
      rw [← huw.1]
      simp only [decide_eq_true_eq, not_and]
      intro hru hrw
      subst hru
      simp [hrw, hmem] at this
    rw [hnil]
    simpa using rows_filter_length_le_one keys hk f wid u w
  · have h1 := le_trans (assignmentsOf_filter_le s.userRole
      (fun r => ¬ (r.workspace_id = wid ∧ r.user_id ∈ keys)) u w) (h u w)
    have h2 : ((keys.map (fun x => ({ user_id := x, workspace_id := wid, role_id := f x } : UserRoleRow))).filter
        (fun r => r.user_id = u ∧ r.workspace_id = w)).length = 0 := by
      rw [List.length_eq_zero]
      apply List.filter_eq_nil_iff.2
      intro r hr
      obtain ⟨y, hy, rfl⟩ := List.mem_map.1 hr
      simp only [decide_eq_true_eq, not_and]
      intro hyu hww
      subst hyu
      exact huw ⟨hww, hy⟩
    omega

theorem atMostOne_of_new_workspace (s s' : Store) (adminId rid wid : String)
    (h : AtMostOneAssignment s) (hfresh : ∀ r ∈ s.userRole, r.workspace_id ≠ wid)
    (hs : s'.userRole =
      s.userRole ++ [{ user_id := adminId, role_id := rid, workspace_id := wid }]) :
    AtMostOneAssignment s' := by
  intro u w
  unfold assignmentsOf
  rw [hs, List.filter_append, List.length_append]
  by_cases hw : wid = w
  · have hnil : s.userRole.filter (fun r => r.user_id = u ∧ r.workspace_id = w) = [] := by
      apply List.filter_eq_nil_iff.2
      intro r hr
      have := hfresh r hr
      rw [hw] at this
      simp [this]
    rw [hnil]
    simp [List.filter_cons]
    split <;> simp
  · have h1 := h u w
    unfold assignmentsOf at h1
    have h2 : ([({ user_id := adminId, role_id := rid, workspace_id := wid } : UserRoleRow)].filter
        (fun r => r.user_id = u ∧ r.workspace_id = w)).length = 0 := by
      simp [List.filter_cons, hw]
    omega

theorem atMostOne_run (s : Store) (c : Call) (hfresh : c.freshIds s)
    (h : AtMostOneAssignment s) : AtMostOneAssignment (c.run s) := by
  cases c with
  | createWorkspace lower gen req =>
    rcases createWorkspace_userRole lower gen s req with hs | ⟨adminId, rid, hs⟩
    · exact atMostOne_of_eq s _ h hs
    · exact atMostOne_of_new_workspace s _ adminId rid (gen 0) h hfresh.2.2.1 hs
  | assignRolestoUsers req users roles =>
    rcases assignRolestoUsers_userRole s req users roles with hs | ⟨us, rs, wid, _, _, hs⟩
    · exact atMostOne_of_eq s _ h hs
    · exact atMostOne_of_bulk s _ _ (nodup_keys_finalByUser us rs)
        (fun x => ((finalByUser us rs).lookup x).getD "") wid h (by rw [Call.run, hs, List.map_map])
  | updateAssignedRoleForUser req =>
    rcases updateAssignedRoleForUser_userRole s req with hs | ⟨uid, wid, rid, hs⟩
    · exact atMostOne_of_eq s _ h hs
    · exact atMostOne_of_replace s _ uid wid rid h hs
  | removeAssignedRolesForUser req =>
    obtain ⟨q, hs⟩ := removeAssignedRolesForUser_userRole s req
    exact atMostOne_of_filter s _ q h hs

/-- C2. From a store in which every (user, workspace) pair has at most one Assignment
row, every sequence of `createWorkspace`, `assignRolestoUsers`,
`updateAssignedRoleForUser` and `removeAssignedRolesForUser` calls (the store
handing a new workspace id to each created workspace) leads to a store in which
every (user, workspace) pair has at most one Assignment row. -/
theorem atMostOneAssignment_runCalls (s : Store) (cs : List Call)
    (hfresh : callsFresh s cs) (h : AtMostOneAssignment s) :
    AtMostOneAssignment (runCalls s cs) := by
  induction cs generalizing s with
  | nil => exact h
  | cons c cs ih =>
    exact ih (c.run s) hfresh.2 (atMostOne_run s c hfresh.1 h)

theorem lookup_map_replace {β : Type} (m : List (String × β)) (k : String) (v : β)
    (k' : String) :
    List.lookup k' (m.map (fun kv => if kv.1 = k then (k, v) else kv)) =
      if k' = k then (if (m.lookup k).isSome = true then some v else none)
      else m.lookup k' := by
  induction m with
  | nil => simp
  | cons kv m ih =>
    obtain ⟨a, b⟩ := kv
    rw [List.map_cons]
    by_cases hak : a = k
    · subst hak
      rw [if_pos rfl]
      by_cases hk : k' = a
      · subst hk
        simp [List.lookup_cons]
      · have hb : (k' == a) = false := by simpa using hk
        rw [List.lookup_cons, hb, if_neg hk, List.lookup_cons, hb]
        simp only [ih, if_neg hk]
    · rw [if_neg hak]
      by_cases hk : k' = k
      · subst hk
        have hb : (k' == a) = false := by simpa using (Ne.symm hak)
        rw [List.lookup_cons, hb, List.lookup_cons, hb, ih]
      · rw [if_neg hk]
        by_cases hka : k' = a
        · subst hka
          simp [List.lookup_cons]
        · have hb : (k' == a) = false := by simpa using hka
          rw [List.lookup_cons, hb, List.lookup_cons, hb, ih, if_neg hk]

theorem lookup_append_singleton {β : Type} (m : List (String × β)) (k : String) (v : β)
    (k' : String) :
    List.lookup k' (m ++ [(k, v)]) =
      if (m.lookup k').isSome = true then m.lookup k'
      else if k' = k then some v else none := by
  induction m with
  | nil =>
    by_cases hk : k' = k
    · subst hk; simp [List.lookup_cons]
    · have hb : (k' == k) = false := by simpa using hk
      simp [List.lookup_cons, hb, hk]
  | cons kv m ih =>
    obtain ⟨a, b⟩ := kv
    by_cases hka : k' = a
    · subst hka; simp [List.lookup_cons]
    · have hb : (k' == a) = false := by simpa using hka
      rw [List.cons_append, List.lookup_cons, hb, List.lookup_cons, hb, ih]

theorem lookup_mapSet (m : List (String × String)) (k v k' : String) :
    (mapSet m k v).lookup k' = if k' = k then some v else m.lookup k' := by
  unfold mapSet
  by_cases h : (m.lookup k).isSome = true
  · rw [if_pos h, lookup_map_replace]
    by_cases hk : k' = k
    · rw [if_pos hk, if_pos hk, if_pos h]
    · rw [if_neg hk, if_neg hk]
  · rw [if_neg h, lookup_append_singleton]
    by_cases hk : k' = k
    · subst hk
      rw [if_neg h, if_pos rfl, if_pos rfl]
    · rw [if_neg hk, if_neg hk]
      cases hl : m.lookup k' <;> simp

theorem lookup_foldl_mapSet_last (pairs : List (String × String)) (i : Nat) (u r : String)
    (hi : pairs[i]? = some (u, r))
    (hlast : ∀ j, i < j → ∀ r', pairs[j]? ≠ some (u, r')) :
    (pairs.foldl (fun m p => mapSet m p.1 p.2) []).lookup u = some r := by
  induction pairs using List.reverseRecOn with
  | nil => simp at hi
  | append_singleton l p ih =>
    rw [List.foldl_append, List.foldl_cons, List.foldl_nil, lookup_mapSet]
    by_cases hil : i < l.length
    · have hi' : l[i]? = some (u, r) := by
        rw [List.getElem?_append_left hil] at hi; exact hi
      have hp : p.1 ≠ u := by
        intro hpu
        have := hlast l.length hil p.2
        apply this
        rw [List.getElem?_append_right (le_refl _)]
        simp [← hpu]
      rw [if_neg (Ne.symm hp)]
      apply ih hi'
      intro j hj r' hjr
      have hjl : j < l.length := by
        by_contra hge
        have : l[j]? = none := List.getElem?_eq_none (by omega)
        rw [this] at hjr
        cases hjr
      apply hlast j hj r'
      rw [List.getElem?_append_left hjl]
      exact hjr
    · have hil' : i = l.length := by
        by_contra hne
        have : (l ++ [p])[i]? = none := List.getElem?_eq_none (by simp; omega)
        rw [this] at hi
        cases hi
      subst hil'
      rw [List.getElem?_append_right (le_refl _)] at hi
      simp at hi
      rw [hi]
      simp

theorem mem_keys_foldl_mapSet (pairs m : List (String × String)) (u : String) :
    u ∈ (pairs.foldl (fun m p => mapSet m p.1 p.2) m).map Prod.fst ↔
      u ∈ m.map Prod.fst ∨ u ∈ pairs.map Prod.fst := by
  induction pairs generalizing m with
  | nil => simp
  | cons p ps ih =>
    rw [List.foldl_cons, ih, keys_mapSet]
    by_cases h : (m.lookup p.1).isSome = true
    · rw [if_pos h]
      have hm := (lookup_isSome_iff_mem_keys m p.1).1 h
      simp only [List.map_cons, List.mem_cons]
      constructor
      · rintro (h1 | h1)
        · exact Or.inl h1
        · exact Or.inr (Or.inr h1)
      · rintro (h1 | h1 | h1)
        · exact Or.inl h1
        · exact Or.inl (h1 ▸ hm)
        · exact Or.inr h1
    · rw [if_neg h]
      simp only [List.map_cons, List.mem_cons, List.mem_append, List.mem_singleton]
      tauto

theorem mem_keys_finalByUser (users roles : List String) (hlen : users.length = roles.length)
    (u : String) : u ∈ (finalByUser users roles).map Prod.fst ↔ u ∈ users := by
  unfold finalByUser
  rw [mem_keys_foldl_mapSet]
  have : (users.zip roles).map Prod.fst = users := List.map_fst_zip _ _ (le_of_eq hlen)
  rw [this]
  simp

theorem mem_distinct (l : List String) (x : String) : x ∈ distinct l ↔ x ∈ l := by
  induction l with
  | nil => simp [distinct]
  | cons a l ih =>
    simp only [distinct, List.mem_cons, List.mem_filter, ih]
    by_cases h : x = a
    · simp [h]
    · simp [h]

theorem rows_filter_eq_singleton (keys : List String) (hk : keys.Nodup) (f : String → String)
    (wid u : String) (hu : u ∈ keys) :
    (keys.map (fun x => ({ user_id := x, workspace_id := wid, role_id := f x } : UserRoleRow))).filter
        (fun r => r.user_id = u ∧ r.workspace_id = wid) =
      [{ user_id := u, workspace_id := wid, role_id := f u }] := by
  induction keys with
  | nil => cases hu
  | cons x xs ih =>
    have hx : x ∉ xs := (List.nodup_cons.1 hk).1
    have hxs : xs.Nodup := (List.nodup_cons.1 hk).2
    simp only [List.map_cons, List.filter_cons]
    by_cases hxu : x = u
    · subst hxu
      have hnil : (xs.map (fun x => ({ user_id := x, workspace_id := wid, role_id := f x } : UserRoleRow))).filter
          (fun r => r.user_id = x ∧ r.workspace_id = wid) = [] := by
        apply List.filter_eq_nil_iff.2
        intro r hr
        obtain ⟨y, hy, rfl⟩ := List.mem_map.1 hr
        have : y ≠ x := by
          intro h; apply hx; rw [← h]; exact hy
        simp [this]
      rw [if_pos (by simp), hnil]
    · have hmem : u ∈ xs := by
        rcases List.mem_cons.1 hu with h | h
        · exact absurd h.symm hxu
        · exact h
      rw [if_neg (by simp [hxu])]
      exact ih hxs hmem

/-- The store and response of `assignRolestoUsers` on a request that passes every
check. -/
theorem assignRolestoUsers_valid (s : Store) (req : Req) (users roles : List String)
    (wid : String)
    (hlen : users.length = roles.length) (hne : users ≠ [])
    (hwid : workspaceIdOf req = some wid)
    (hperm : truthy (hasPerm req "USER_ROLE" "CREATE") = true)
    (hws : ∃ w ∈ s.workspace, w.id = wid)
    (hroles : ∀ rid ∈ roles, ∃ row ∈ s.role, row.id = rid ∧ row.workspace_id = wid)
    (husers : ∀ uid ∈ users, ∃ row ∈ s.users, row.id = uid) :
    (assignRolestoUsers s req (ArrayArg.array users) (ArrayArg.array roles)).1.userRole =
      s.userRole.filter
          (fun r => ¬ (r.workspace_id = wid ∧ r.user_id ∈ (finalByUser users roles).map Prod.fst)) ++
        ((finalByUser users roles).map Prod.fst).map (fun user_id =>
          ({ user_id := user_id, workspace_id := wid,
             role_id := ((finalByUser users roles).lookup user_id).getD "" } : UserRoleRow)) ∧
    (assignRolestoUsers s req (ArrayArg.array users) (ArrayArg.array roles)).2.status = 200 ∧
    (assignRolestoUsers s req (ArrayArg.array users) (ArrayArg.array roles)).2.payload =
      Payload.assignments ((finalByUser users roles).map Prod.fst).length
        ((s.userRole.filter
            (fun r => ¬ (r.workspace_id = wid ∧ r.user_id ∈ (finalByUser users roles).map Prod.fst)) ++
          ((finalByUser users roles).map Prod.fst).map (fun user_id =>
            ({ user_id := user_id, workspace_id := wid,
               role_id := ((finalByUser users roles).lookup user_id).getD "" } : UserRoleRow))).filter
          (fun r => r.workspace_id = wid ∧ r.user_id ∈ (finalByUser users roles).map Prod.fst)) := by
  have hkeys : (finalByUser users roles).map Prod.fst ≠ [] := by
    intro h
    obtain ⟨u, us, rfl⟩ := List.exists_cons_of_ne_nil hne
    have := (mem_keys_finalByUser (u :: us) roles hlen u).2 (List.mem_cons_self _ _)
    rw [h] at this
    cases this
  unfold assignRolestoUsers
  simp only [ArrayArg.toList?, hwid]
  split
  · rename_i h
    rcases h with h | h
    · exact absurd hlen h
    · exact absurd (List.length_eq_zero.1 h) hne
  split
  · rename_i h
    rw [hperm] at h
    simp at h
  split
  · rename_i h
    obtain ⟨w, hw, hwid'⟩ := hws
    have := List.find?_eq_none.1 (Option.isNone_iff_eq_none.1 h) w hw
    simp [hwid'] at this
  split
  · rename_i h
    exfalso; apply h
    rw [List.length_eq_zero]
    apply List.filter_eq_nil_iff.2
    intro rid hrid
    obtain ⟨row, hrow, hrid', hrw⟩ := hroles rid ((mem_distinct roles rid).1 hrid)
    simp only [decide_not, Bool.not_eq_true', decide_eq_false_iff_not, not_not]
    apply List.mem_map.2
    exact ⟨row, List.mem_filter.2 ⟨hrow, by simp [hrid', hrw, hrid]⟩, hrid'⟩
  split
  · rename_i h
    exfalso; apply h
    rw [List.length_eq_zero]
    apply List.filter_eq_nil_iff.2
    intro uid huid
    obtain ⟨row, hrow, huid'⟩ := husers uid ((mem_distinct users uid).1 huid)
    simp only [decide_not, Bool.not_eq_true', decide_eq_false_iff_not, not_not]
    apply List.mem_map.2
    exact ⟨row, List.mem_filter.2 ⟨hrow, by simp [huid', huid]⟩, huid'⟩
  have hrows : ¬ ((finalByUser users roles).length = 0) := by
    intro h
    apply hkeys
    rw [List.length_eq_zero.1 h]
    rfl
  simp only [ne_eq, List.length_map, if_pos hrows]
  exact ⟨trivial, trivial, trivial⟩

/-- C3. On a valid bulk-assign request (non-empty lists of equal length, a resolved
workspace that exists, the permission, every listed role in the workspace, every
listed user existing) `assignRolestoUsers` answers 200 and leaves every listed user
with exactly one Assignment in the workspace, holding the role at the last position
where the user occurs; the table is the old one without the former rows of the
listed users in the workspace, followed by the created rows, one per distinct
listed user. -/
theorem assignRolestoUsers_last_role_wins (s : Store) (req : Req) (users roles : List String)
    (wid : String)
    (hlen : users.length = roles.length) (hne : users ≠ [])
    (hwid : workspaceIdOf req = some wid)
    (hperm : truthy (hasPerm req "USER_ROLE" "CREATE") = true)
    (hws : ∃ w ∈ s.workspace, w.id = wid)
    (hroles : ∀ rid ∈ roles, ∃ row ∈ s.role, row.id = rid ∧ row.workspace_id = wid)
    (husers : ∀ uid ∈ users, ∃ row ∈ s.users, row.id = uid) :
    (assignRolestoUsers s req (ArrayArg.array users) (ArrayArg.array roles)).2.status = 200 ∧
    (∀ (i : Nat) (u r : String), users[i]? = some u → roles[i]? = some r →
      (∀ j : Nat, i < j → users[j]? ≠ some u) →
      assignmentsOf (assignRolestoUsers s req (ArrayArg.array users) (ArrayArg.array roles)).1
          u wid = [{ user_id := u, role_id := r, workspace_id := wid }]) ∧
    (∃ created : List UserRoleRow,
      (assignRolestoUsers s req (ArrayArg.array users) (ArrayArg.array roles)).1.userRole =
        s.userRole.filter (fun r => ¬ (r.workspace_id = wid ∧ r.user_id ∈ users)) ++ created ∧
      (created.map (fun r => r.user_id)).Nodup ∧
      (∀ u, u ∈ created.map (fun r => r.user_id) ↔ u ∈ users) ∧
      (∀ r ∈ created, r.workspace_id = wid) ∧
      (assignRolestoUsers s req (ArrayArg.array users) (ArrayArg.array roles)).2.payload =
        Payload.assignments created.length created) := by
  obtain ⟨htab, hstatus, hpay⟩ :=
    assignRolestoUsers_valid s req users roles wid hlen hne hwid hperm hws hroles husers
  have hnd := nodup_keys_finalByUser users roles
  have hmem := mem_keys_finalByUser users roles hlen
  refine ⟨hstatus, ?_, ?_⟩
  · intro i u r hu hr hlast
    have hukeys : u ∈ (finalByUser users roles).map Prod.fst :=
      (hmem u).2 (List.getElem?_mem hu)
    have hlook : (finalByUser users roles).lookup u = some r := by
      apply lookup_foldl_mapSet_last (users.zip roles) i u r
      · rw [List.getElem?_zip_eq_some]
        exact ⟨hu, hr⟩
      · intro j hj r' hjr
        rw [List.getElem?_zip_eq_some] at hjr
        exact hlast j hj hjr.1
    unfold assignmentsOf
    rw [htab, List.filter_append]
    have hnil : (s.userRole.filter
        (fun r => ¬ (r.workspace_id = wid ∧ r.user_id ∈ (finalByUser users roles).map Prod.fst))).filter
        (fun r => r.user_id = u ∧ r.workspace_id = wid) = [] := by
      apply List.filter_eq_nil_iff.2
      intro x hx
      have := (List.mem_filter.1 hx).2
      simp only [decide_eq_true_eq, not_and]
      intro hxu hxw
      subst hxu
      simp [hxw, hukeys] at this
    rw [hnil, List.nil_append, List.map_map]
    have := rows_filter_eq_singleton ((finalByUser users roles).map Prod.fst) hnd
      (fun x => ((finalByUser users roles).lookup x).getD "") wid u hukeys
    rw [List.map_map] at this
    rw [this]
    simp only [hlook, Option.getD_some]
  · refine ⟨((finalByUser users roles).map Prod.fst).map (fun user_id =>
        ({ user_id := user_id, workspace_id := wid,
           role_id := ((finalByUser users roles).lookup user_id).getD "" } : UserRoleRow)),
      ?_, ?_, ?_, ?_, ?_⟩
    · rw [htab]
      congr 1
      apply List.filter_congr
      intro x _
      simp only [hmem]
    · rw [List.map_map, List.map_map]
      exact hnd
    · intro u
      rw [List.map_map, List.map_map]
      exact hmem u
    · intro r hr
      obtain ⟨y, _, rfl⟩ := List.mem_map.1 hr
      rfl
    · rw [hpay, List.length_map, List.length_map, List.length_map]
      congr 1
      rw [List.filter_append]
      have hnil : (s.userRole.filter
          (fun r => ¬ (r.workspace_id = wid ∧ r.user_id ∈ (finalByUser users roles).map Prod.fst))).filter
          (fun r => r.workspace_id = wid ∧ r.user_id ∈ (finalByUser users roles).map Prod.fst) = [] := by
        apply List.filter_eq_nil_iff.2
        intro x hx
        have := (List.mem_filter.1 hx).2
        simp only [decide_not, Bool.not_eq_true', decide_eq_false_iff_not] at this
        simp only [decide_eq_true_eq]
        exact this
      rw [hnil, List.nil_append]
      apply List.filter_eq_self.2
      intro x hx
      obtain ⟨y, hy, rfl⟩ := List.mem_map.1 hx
      simpa using hy

/-- C2, at a concrete store and sequence of four calls. -/
theorem atMostOneAssignment_runCalls_witness :
    callsFresh sampleStore sampleCalls ∧ AtMostOneAssignment sampleStore ∧
      AtMostOneAssignment (runCalls sampleStore sampleCalls) ∧
      (runCalls sampleStore sampleCalls).userRole =
        [{ user_id := "u2", role_id := "r3", workspace_id := "w2" },
         { user_id := "u2", role_id := "r1", workspace_id := "w1" }] := by
  have hfresh : callsFresh sampleStore sampleCalls :=
    ⟨by show workspaceIdUnused sampleStore (sampleGen 0); decide, trivial, trivial, trivial,
      trivial⟩
  have h0 : AtMostOneAssignment sampleStore := by
    intro u w
    simp only [assignmentsOf, sampleStore, List.filter_cons, List.filter_nil]
    split <;> simp
  exact ⟨hfresh, h0, atMostOneAssignment_runCalls sampleStore sampleCalls hfresh h0, by decide⟩

/-- C3, at the example of the specification: `u2` listed twice with roles `r1` then
`r2` ends with `r2`. -/
theorem assignRolestoUsers_last_role_wins_witness :
    assignmentsOf
      (assignRolestoUsers sampleStore (sampleAdminReq []) (ArrayArg.array ["u2", "u2"])
        (ArrayArg.array ["r1", "r2"])).1 "u2" "w1" =
      [{ user_id := "u2", role_id := "r2", workspace_id := "w1" }] :=
  (assignRolestoUsers_last_role_wins sampleStore (sampleAdminReq []) ["u2", "u2"] ["r1", "r2"]
    "w1" rfl (by decide) (by decide) (by decide) (by decide) (by decide) (by decide)).2.1
    1 "u2" "r2" rfl rfl (by
      intro j hj
      have : ["u2", "u2"][j]? = none := List.getElem?_eq_none (by simp; omega)
      rw [this]; simp)


/-! ## `updateTicket` (C5, C10) -/

theorem assertUserInWorkspace_ok_iff (s : Store) (userId workspaceId : String) :
    assertUserInWorkspace s userId workspaceId = Except.ok () ↔
      ∃ r ∈ s.userRole, r.user_id = userId ∧ r.workspace_id = workspaceId := by
  unfold assertUserInWorkspace
  cases h : s.userRole.find? (fun r => r.user_id = userId ∧ r.workspace_id = workspaceId) with
  | none =>
    constructor
    · intro h'; cases h'
    · rintro ⟨r, hr, h1, h2⟩
      have := List.find?_eq_none.1 h r hr
      simp [h1, h2] at this
  | some r =>
    refine ⟨fun _ => ?_, fun _ => rfl⟩
    have hmem := List.mem_of_find?_eq_some h
    have hp := List.find?_some h
    exact ⟨r, hmem, by simpa using hp⟩

theorem getTicketAndAssertAccess_ok (s : Store) (ticketId userId : String) (t : TicketsRow)
    (hfind : s.tickets.find? (fun x => x.id = ticketId) = some t)
    (hmem : ∃ r ∈ s.userRole, r.user_id = userId ∧ r.workspace_id = t.workspace_id) :
    getTicketAndAssertAccess s ticketId userId = Except.ok t := by
  unfold getTicketAndAssertAccess
  rw [hfind]
  simp only
  rw [(assertUserInWorkspace_ok_iff s userId t.workspace_id).2 hmem]

/-- C10. For an `updateTicket` request of a workspace member on an existing ticket
whose validations pass and whose computed change list is empty, the handler leaves
the store as it is and answers 200 "No changes" with the current ticket. -/
theorem updateTicket_no_changes (D : DateLib) (accepts : Store → TicketsRow → Bool)
    (s : Store) (req : Req) (t : TicketsRow)
    (hfind : s.tickets.find? (fun x => x.id = req.params.ticketId) = some t)
    (hmem : ∃ r ∈ s.userRole, r.user_id = req.user.id ∧ r.workspace_id = t.workspace_id)
    (hvalid : validateUpdate s t req.body = none)
    (hdiff : diffTicket D t.toObj (updateDataOf D req.body) = Except.ok []) :
    updateTicket D accepts s req =
      (s, { status := 200, message := "No changes", payload := Payload.ticket t }) := by
  unfold updateTicket
  simp only [getTicketAndAssertAccess_ok s _ _ t hfind hmem, hvalid, hdiff]
  rfl

/-- C10, at a member who sends the current status in another letter case. -/
theorem updateTicket_no_changes_witness :
    updateTicket sampleDates (fun _ _ => true) sampleStore
        (sampleAdminReq [("status", JsVal.str "OPEN")]) =
      (sampleStore, { status := 200, message := "No changes",
                      payload := Payload.ticket sampleTicket }) :=
  updateTicket_no_changes sampleDates (fun _ _ => true) sampleStore
    (sampleAdminReq [("status", JsVal.str "OPEN")]) sampleTicket (by decide)
    ⟨{ user_id := "u1", role_id := "r1", workspace_id := "w1" }, by decide, by decide⟩
    (by decide) (by rfl)

theorem map_field_filterMap_changeOf (D : DateLib) (data : JsObj) (o : String → JsVal)
    (fs : List String) :
    (fs.filterMap (changeOf D data o)).map (fun c => c.field) =
      fs.filter (fun f => hasOwn data f = true ∧
        normalizeForCompare D f (getProp data f) ≠ o f) := by
  induction fs with
  | nil => rfl
  | cons f fs ih =>
    by_cases h : hasOwn data f = true ∧ normalizeForCompare D f (getProp data f) ≠ o f
    · have hc : changeOf D data o f =
          some { field := f, old := o f, val := normalizeForCompare D f (getProp data f) } := by
        unfold changeOf; rw [if_pos h]
      rw [List.filterMap_cons, hc, List.filter_cons, if_pos (by simpa using h)]
      simp only [List.map_cons, ih]
    · have hc : changeOf D data o f = none := by
        unfold changeOf; rw [if_neg h]
      rw [List.filterMap_cons, hc, List.filter_cons, if_neg (by simpa using h)]
      exact ih

theorem lookup_eq_of_perm {β : Type} {l₁ l₂ : List (String × β)} (hp : l₁.Perm l₂)
    (hnd : (l₁.map Prod.fst).Nodup) (k : String) : l₁.lookup k = l₂.lookup k := by
  induction hp with
  | nil => rfl
  | cons x _ ih =>
    obtain ⟨a, b⟩ := x
    rw [List.lookup_cons, List.lookup_cons, ih (List.nodup_cons.1 hnd).2]
  | swap x y l =>
    obtain ⟨a, b⟩ := x
    obtain ⟨c, d⟩ := y
    have hne : c ≠ a := by
      intro h
      have := (List.nodup_cons.1 hnd).1
      apply this
      simp [h]
    simp only [List.lookup_cons]
    by_cases hka : k = a
    · subst hka
      have : (k == c) = false := by simpa using (Ne.symm hne)
      simp [this]
    · have : (k == a) = false := by simpa using hka
      simp [this]
  | trans h₁ _ ih₁ ih₂ =>
    rw [ih₁ hnd]
    exact ih₂ ((h₁.map Prod.fst).nodup_iff.1 hnd)

theorem diffLoop_congr (D : DateLib) (oldT data data' : JsObj) (fs : List String)
    (h : ∀ k, data.lookup k = data'.lookup k) :
    diffLoop D oldT data fs = diffLoop D oldT data' fs := by
  induction fs with
  | nil => rfl
  | cons f fs ih =>
    simp only [diffLoop, hasOwn, getProp, h, ih]

theorem updateDataOf_title (D : DateLib) (v : JsVal) :
    updateDataOf D [("title", v)] = [("title", v)] := by
  simp [updateDataOf, buildUpdateData, objKeys, allowed, setProp, hasOwn, getProp, List.lookup]

theorem updateDataOf_status_title (D : DateLib) (v w : JsVal) :
    updateDataOf D [("status", v), ("title", w)] = [("status", v), ("title", w)] := by
  simp [updateDataOf, buildUpdateData, objKeys, allowed, setProp, hasOwn, getProp, List.lookup]

theorem updateDataOf_title_status (D : DateLib) (v w : JsVal) :
    updateDataOf D [("title", w), ("status", v)] = [("title", w), ("status", v)] := by
  simp [updateDataOf, buildUpdateData, objKeys, allowed, setProp, hasOwn, getProp, List.lookup]

theorem diffTicket_title (D : DateLib) (t : TicketsRow) (newTitle : String)
    (hnew : newTitle ≠ t.title) :
    diffTicket D t.toObj [("title", JsVal.str newTitle)] =
      Except.ok [{ field := "title", old := JsVal.str t.title, val := JsVal.str newTitle }] := by
  rw [diffTicket_toObj]
  simp [trackedFields, changeOf, hasOwn, getProp, List.lookup, oldNormSpec, TicketsRow.toObj,
    normalizeForCompare, orNull, jsString, hnew]

theorem diffTicket_title_status (D : DateLib) (t : TicketsRow) (newTitle newStatus : String)
    (data : JsObj)
    (hdata : data = [("status", JsVal.str newStatus), ("title", JsVal.str newTitle)] ∨
      data = [("title", JsVal.str newTitle), ("status", JsVal.str newStatus)])
    (hnew : newTitle ≠ t.title) (hstatus : toUpperCase D newStatus ≠ toUpperCase D t.status) :
    diffTicket D t.toObj data =
      Except.ok [{ field := "title", old := JsVal.str t.title, val := JsVal.str newTitle },
                 { field := "status", old := JsVal.str (toUpperCase D t.status),
                   val := JsVal.str (toUpperCase D newStatus) }] := by
  rw [diffTicket_toObj]
  rcases hdata with h | h <;> subst h <;>
    simp [trackedFields, changeOf, hasOwn, getProp, List.lookup, oldNormSpec, TicketsRow.toObj,
      normalizeForCompare, orNull, jsString, hnew, hstatus]

theorem validateUpdate_none_of_no_refs (s : Store) (t : TicketsRow) (body : JsObj)
    (hp : getProp body "parent_id" = JsVal.undefined)
    (ha : getProp body "assigned_to" = JsVal.undefined) :
    validateUpdate s t body = none := by
  simp [validateUpdate, hp, ha, truthy]

theorem updateTicket_title_only (D : DateLib) (accepts : Store → TicketsRow → Bool)
    (s : Store) (req : Req) (t : TicketsRow) (newTitle : String)
    (hfind : s.tickets.find? (fun x => x.id = req.params.ticketId) = some t)
    (hmem : ∃ r ∈ s.userRole, r.user_id = req.user.id ∧ r.workspace_id = t.workspace_id)
    (hbody : req.body = [("title", JsVal.str newTitle)])
    (hnew : newTitle ≠ t.title)
    (hacc : accepts s { t with title := newTitle, updated_by := some req.user.id } = true) :
    (updateTicket D accepts s req).1.history =
      s.history ++
        [{ workspace_id := t.workspace_id, ticket_id := t.id, field_changed := "title",
           old_value := some t.title, new_value := some newTitle, action := "UPDATE",
           changed_by := req.user.id }] := by
  unfold updateTicket
  simp only [getTicketAndAssertAccess_ok s _ _ t hfind hmem, hbody,
    validateUpdate_none_of_no_refs s t [("title", JsVal.str newTitle)] rfl rfl,
    updateDataOf_title, diffTicket_title D t newTitle hnew]
  simp [ticketsUpdate, hfind, setColumns, setColumn, hacc, writeHistory, historyRows,
    historyValue, jsString]

theorem updateTicket_title_status (D : DateLib) (accepts : Store → TicketsRow → Bool)
    (s : Store) (req : Req) (t : TicketsRow) (newTitle newStatus : String)
    (hfind : s.tickets.find? (fun x => x.id = req.params.ticketId) = some t)
    (hmem : ∃ r ∈ s.userRole, r.user_id = req.user.id ∧ r.workspace_id = t.workspace_id)
    (hbody : req.body = [("status", JsVal.str newStatus), ("title", JsVal.str newTitle)] ∨
      req.body = [("title", JsVal.str newTitle), ("status", JsVal.str newStatus)])
    (hnew : newTitle ≠ t.title) (hstatus : toUpperCase D newStatus ≠ toUpperCase D t.status)
    (hacc : accepts s { t with title := newTitle, status := newStatus,
                               updated_by := some req.user.id } = true) :
    (updateTicket D accepts s req).1.history =
      s.history ++
        [{ workspace_id := t.workspace_id, ticket_id := t.id, field_changed := "title",
           old_value := some t.title, new_value := some newTitle, action := "UPDATE",
           changed_by := req.user.id },
         { workspace_id := t.workspace_id, ticket_id := t.id, field_changed := "status",
           old_value := some (toUpperCase D t.status),
           new_value := some (toUpperCase D newStatus), action := "UPDATE",
           changed_by := req.user.id }] := by
  unfold updateTicket
  rcases hbody with hbody | hbody
  · simp only [getTicketAndAssertAccess_ok s _ _ t hfind hmem, hbody,
      validateUpdate_none_of_no_refs s t
        [("status", JsVal.str newStatus), ("title", JsVal.str newTitle)] rfl rfl,
      updateDataOf_status_title,
      diffTicket_title_status D t newTitle newStatus _ (Or.inl rfl) hnew hstatus]
    simp [ticketsUpdate, hfind, setColumns, setColumn, hacc, writeHistory, historyRows,
      historyValue, jsString]
  · simp only [getTicketAndAssertAccess_ok s _ _ t hfind hmem, hbody,
      validateUpdate_none_of_no_refs s t
        [("title", JsVal.str newTitle), ("status", JsVal.str newStatus)] rfl rfl,
      updateDataOf_title_status,
      diffTicket_title_status D t newTitle newStatus _ (Or.inr rfl) hnew hstatus]
    simp [ticketsUpdate, hfind, setColumns, setColumn, hacc, writeHistory, historyRows,
      historyValue, jsString]

/-- C5. For every ticket row and patch, the fields of the change list that
`diffTicket` returns form a sublist of the declared field order, each field at most
once, and a patch with the same entries in another key order gives the same list;
hence `updateTicket` by a member with only a changed title appends exactly one
History row, for `title`, and with a changed status and title, sent in either key
order, it appends two rows, `title` then `status`. -/
theorem diffTicket_declared_order (D : DateLib) (accepts : Store → TicketsRow → Bool)
    (t : TicketsRow) (data data' : JsObj) (s : Store) (req : Req)
    (newTitle newStatus : String) :
    (∃ cs, diffTicket D t.toObj data = Except.ok cs ∧
      (cs.map (fun c => c.field)).Sublist trackedFields ∧
      (cs.map (fun c => c.field)).Nodup) ∧
    ((objKeys data).Nodup → data.Perm data' →
      diffTicket D t.toObj data' = diffTicket D t.toObj data) ∧
    (s.tickets.find? (fun x => x.id = req.params.ticketId) = some t →
      (∃ r ∈ s.userRole, r.user_id = req.user.id ∧ r.workspace_id = t.workspace_id) →
      newTitle ≠ t.title →
      (req.body = [("title", JsVal.str newTitle)] →
        accepts s { t with title := newTitle, updated_by := some req.user.id } = true →
        (updateTicket D accepts s req).1.history =
          s.history ++
            [{ workspace_id := t.workspace_id, ticket_id := t.id, field_changed := "title",
               old_value := some t.title, new_value := some newTitle, action := "UPDATE",
               changed_by := req.user.id }]) ∧
      ((req.body = [("status", JsVal.str newStatus), ("title", JsVal.str newTitle)] ∨
          req.body = [("title", JsVal.str newTitle), ("status", JsVal.str newStatus)]) →
        toUpperCase D newStatus ≠ toUpperCase D t.status →
        accepts s { t with title := newTitle, status := newStatus,
                           updated_by := some req.user.id } = true →
        (updateTicket D accepts s req).1.history =
          s.history ++
            [{ workspace_id := t.workspace_id, ticket_id := t.id, field_changed := "title",
               old_value := some t.title, new_value := some newTitle, action := "UPDATE",
               changed_by := req.user.id },
             { workspace_id := t.workspace_id, ticket_id := t.id, field_changed := "status",
               old_value := some (toUpperCase D t.status),
               new_value := some (toUpperCase D newStatus), action := "UPDATE",
               changed_by := req.user.id }])) := by
  refine ⟨⟨_, diffTicket_toObj D t data, ?_, ?_⟩, ?_, ?_⟩
  · rw [map_field_filterMap_changeOf]
    exact List.filter_sublist _
  · rw [map_field_filterMap_changeOf]
    exact trackedFields_nodup.filter _
  · intro hnd hperm
    exact diffLoop_congr D t.toObj data' data trackedFields
      (fun k => (lookup_eq_of_perm hperm hnd k).symm)
  · intro hfind hmem hnew
    exact ⟨fun hbody hacc =>
        updateTicket_title_only D accepts s req t newTitle hfind hmem hbody hnew hacc,
      fun hbody hstatus hacc =>
        updateTicket_title_status D accepts s req t newTitle newStatus hfind hmem hbody hnew
          hstatus hacc⟩

/-- C5, at a member who sends a new status and then a new title: two History rows,
`title` first. -/
theorem diffTicket_declared_order_witness :
    (updateTicket sampleDates (fun _ _ => true) sampleStore
        (sampleAdminReq [("status", JsVal.str "closed"), ("title", JsVal.str "New")])).1.history =
      [{ workspace_id := "w1", ticket_id := "t1", field_changed := "title",
         old_value := some "Old", new_value := some "New", action := "UPDATE",
         changed_by := "u1" },
       { workspace_id := "w1", ticket_id := "t1", field_changed := "status",
         old_value := some "OPEN", new_value := some "CLOSED", action := "UPDATE",
         changed_by := "u1" }] :=
  ((diffTicket_declared_order sampleDates (fun _ _ => true) sampleTicket [] []
      sampleStore (sampleAdminReq [("status", JsVal.str "closed"), ("title", JsVal.str "New")])
      "New" "closed").2.2 (by decide)
      ⟨{ user_id := "u1", role_id := "r1", workspace_id := "w1" }, by decide, by decide⟩
      (by decide)).2 (Or.inl rfl) (by decide) rfl

/-! ## The History writer (C11) -/

/-- C11. For every change list, `writeHistory` appends one History row per change, in
the order of the list (none for the empty list): the row of a change carries the
given workspace id, ticket id, actor and action, the field of the change, and as
old and new value the string form of the old and new value of the change, or null
when that value is null; no other table changes. -/
theorem writeHistory_appends_rows (D : DateLib) (s : Store)
    (workspaceId ticketId userId : String) (changes : List Change) (action : String) :
    (writeHistory D s workspaceId ticketId userId changes action).history =
      s.history ++ changes.map (fun c =>
        ({ workspace_id := workspaceId, ticket_id := ticketId, field_changed := c.field,
           old_value := if c.old = JsVal.null then none else some (jsString D c.old),
           new_value := if c.val = JsVal.null then none else some (jsString D c.val),
           action := action, changed_by := userId } : HistoryRow)) ∧
    (writeHistory D s workspaceId ticketId userId changes action).history.length =
      s.history.length + changes.length ∧
    { writeHistory D s workspaceId ticketId userId changes action with history := s.history } = s := by
  have hrows : historyRows D workspaceId ticketId userId changes action =
      changes.map (fun c =>
        ({ workspace_id := workspaceId, ticket_id := ticketId, field_changed := c.field,
           old_value := if c.old = JsVal.null then none else some (jsString D c.old),
           new_value := if c.val = JsVal.null then none else some (jsString D c.val),
           action := action, changed_by := userId } : HistoryRow)) := by
    unfold historyRows
    apply List.map_congr_left
    intro c _
    unfold historyValue
    by_cases h1 : c.old = JsVal.null <;> by_cases h2 : c.val = JsVal.null <;> simp [h1, h2]
  unfold writeHistory
  by_cases h : changes.length = 0
  · have hnil : changes = [] := List.length_eq_zero.1 h
    subst hnil
    simp
  · rw [if_neg h]
    refine ⟨?_, ?_, ?_⟩
    · simp only [hrows]
    · simp only [hrows, List.length_append, List.length_map]
    · rfl

/-! ## Super-admin gate of `createWorkspace` (C20) -/

theorem createWorkspace_not_super_admin (lower : String → String) (gen : Nat → String) (s : Store) (req : Req)
    (h : req.user.user_type ≠ "SUPER_ADMIN") :
    createWorkspace lower gen s req =
      (s, httpError 403 "Only SUPER_ADMIN can perform this action") := by
  unfold createWorkspace requireSuperAdmin
  rw [if_pos h]
  rfl

/-- C20. For every caller whose `user_type` is not `SUPER_ADMIN`, whatever the body
and the store, `createWorkspace` answers 403 and returns the store it was given. -/
theorem createWorkspace_requires_super_admin (lower : String → String) (gen : Nat → String) (s : Store) (req : Req)
    (h : req.user.user_type ≠ "SUPER_ADMIN") :
    createWorkspace lower gen s req =
      (s, httpError 403 "Only SUPER_ADMIN can perform this action") :=
  createWorkspace_not_super_admin lower gen s req h

/-- C20, at a workspace admin who sends a complete body. -/
theorem createWorkspace_requires_super_admin_witness :
    createWorkspace toLowerCase sampleGen sampleStore
        (sampleAdminReq [("name", JsVal.str "Beta"), ("admin_id", JsVal.str "u2")]) =
      (sampleStore, httpError 403 "Only SUPER_ADMIN can perform this action") :=
  createWorkspace_requires_super_admin toLowerCase sampleGen sampleStore _ (by decide)

/-! ## Workspace membership on ticket operations (C13, C14) -/

theorem assertUserInWorkspace_not_member (s : Store) (userId workspaceId : String)
    (h : ¬ isMember s userId workspaceId) :
    assertUserInWorkspace s userId workspaceId = Except.error notMemberError := by
  unfold assertUserInWorkspace
  cases hf : s.userRole.find? (fun r => r.user_id = userId ∧ r.workspace_id = workspaceId) with
  | none => rfl
  | some r =>
    exfalso; apply h
    exact ⟨r, List.mem_of_find?_eq_some hf, by simpa using List.find?_some hf⟩

theorem getTicketAndAssertAccess_not_member (s : Store) (ticketId userId : String)
    (t : TicketsRow) (hfind : s.tickets.find? (fun x => x.id = ticketId) = some t)
    (h : ¬ isMember s userId t.workspace_id) :
    getTicketAndAssertAccess s ticketId userId = Except.error notMemberError := by
  unfold getTicketAndAssertAccess
  rw [hfind]
  simp only
  rw [assertUserInWorkspace_not_member s userId t.workspace_id h]

theorem getTicketById_not_member (s : Store) (req : Req) (t : TicketsRow)
    (hfind : s.tickets.find? (fun x => x.id = req.params.ticketId) = some t)
    (h : ¬ isMember s req.user.id t.workspace_id) :
    getTicketById s req = (s, httpError 403 "User is not a member of this workspace") := by
  unfold getTicketById
  rw [hfind]
  simp only
  rw [assertUserInWorkspace_not_member s req.user.id t.workspace_id h]
  rfl

theorem updateTicket_not_member (D : DateLib) (accepts : Store → TicketsRow → Bool)
    (s : Store) (req : Req) (t : TicketsRow)
    (hfind : s.tickets.find? (fun x => x.id = req.params.ticketId) = some t)
    (h : ¬ isMember s req.user.id t.workspace_id) :
    updateTicket D accepts s req =
      (s, httpError 403 "User is not a member of this workspace") := by
  unfold updateTicket
  simp only [getTicketAndAssertAccess_not_member s _ _ t hfind h]
  rfl

theorem deleteTicket_not_member (D : DateLib) (commits : Store → Bool)
    (s : Store) (req : Req) (t : TicketsRow)
    (hfind : s.tickets.find? (fun x => x.id = req.params.ticketId) = some t)
    (h : ¬ isMember s req.user.id t.workspace_id) :
    deleteTicket D commits s req =
      (s, httpError 403 "User is not a member of this workspace") := by
  unfold deleteTicket
  simp only [getTicketAndAssertAccess_not_member s _ _ t hfind h]
  rfl

theorem validateUpdate_status (s : Store) (t : TicketsRow) (body : JsObj) (r : Res)
    (h : validateUpdate s t body = some r) : r.status = 400 ∨ r.status = 500 := by
  unfold validateUpdate at h
  simp only at h
  split at h
  · rename_i r' heq
    cases h
    repeat' split at heq
    all_goals first
      | (cases heq; first | exact Or.inl rfl | exact Or.inr rfl)
      | cases heq
  · repeat' split at h
    all_goals first
      | (cases h; first | exact Or.inl rfl | exact Or.inr rfl)
      | cases h

theorem getTicketById_member_status (s : Store) (req : Req) (t : TicketsRow)
    (hfind : s.tickets.find? (fun x => x.id = req.params.ticketId) = some t)
    (h : isMember s req.user.id t.workspace_id) :
    (getTicketById s req).2.status = 200 := by
  unfold getTicketById
  rw [hfind]
  simp only
  rw [(assertUserInWorkspace_ok_iff s req.user.id t.workspace_id).2 h]

theorem updateTicket_member_status (D : DateLib) (accepts : Store → TicketsRow → Bool)
    (s : Store) (req : Req) (t : TicketsRow)
    (hfind : s.tickets.find? (fun x => x.id = req.params.ticketId) = some t)
    (h : isMember s req.user.id t.workspace_id) :
    (updateTicket D accepts s req).2.status ≠ 403 := by
  unfold updateTicket
  simp only [getTicketAndAssertAccess_ok s _ _ t hfind h, diffTicket_toObj]
  cases hv : validateUpdate s t req.body with
  | some r =>
    simp only
    rcases validateUpdate_status s t req.body r hv with h1 | h1 <;> rw [h1] <;> decide
  | none =>
    simp only
    split
    · simp
    · split
      · simp [updateTicketFailure, clientError]
      · simp

theorem deleteTicket_member_status (D : DateLib) (commits : Store → Bool)
    (s : Store) (req : Req) (t : TicketsRow)
    (hfind : s.tickets.find? (fun x => x.id = req.params.ticketId) = some t)
    (h : isMember s req.user.id t.workspace_id) :
    (deleteTicket D commits s req).2.status ≠ 403 := by
  unfold deleteTicket
  simp only [getTicketAndAssertAccess_ok s _ _ t hfind h]
  split
  · simp [deleteTicketFailure, recordNotFound]
  · split
    · simp
    · simp [deleteTicketFailure, clientError]

/-- C13. `assertUserInWorkspace` raises the 403 error for every user who holds no
Assignment in the workspace and returns normally exactly when an Assignment row of
the pair exists; hence `getTicketById`, `updateTicket` and `deleteTicket` of a
non-member on an existing ticket of the workspace answer 403 and return the store
they were given. -/
theorem assertUserInWorkspace_membership (D : DateLib)
    (accepts : Store → TicketsRow → Bool) (commits : Store → Bool) (s : Store) (req : Req)
    (userId workspaceId : String) (t : TicketsRow) :
    (¬ isMember s userId workspaceId →
      assertUserInWorkspace s userId workspaceId =
        Except.error { name := "Error", message := "User is not a member of this workspace",
                       status := some 403 }) ∧
    (assertUserInWorkspace s userId workspaceId = Except.ok () ↔
      isMember s userId workspaceId) ∧
    (s.tickets.find? (fun x => x.id = req.params.ticketId) = some t →
      ¬ isMember s req.user.id t.workspace_id →
      getTicketById s req = (s, httpError 403 "User is not a member of this workspace") ∧
      updateTicket D accepts s req =
        (s, httpError 403 "User is not a member of this workspace") ∧
      deleteTicket D commits s req =
        (s, httpError 403 "User is not a member of this workspace")) :=
  ⟨assertUserInWorkspace_not_member s userId workspaceId,
   assertUserInWorkspace_ok_iff s userId workspaceId,
   fun hfind h => ⟨getTicketById_not_member s req t hfind h,
     updateTicket_not_member D accepts s req t hfind h,
     deleteTicket_not_member D commits s req t hfind h⟩⟩

/-- C13, at user `u2`, who holds no Assignment in workspace `w1`, on ticket `t1`. -/
theorem assertUserInWorkspace_membership_witness :
    updateTicket sampleDates (fun _ _ => true) sampleStore
        { user := { id := "u2", user_type := "OTHER" }, ctx := none,
          params := { wid := none, id := none, ticketId := "t1" },
          body := [("title", JsVal.str "New")] } =
      (sampleStore, httpError 403 "User is not a member of this workspace") :=
  ((assertUserInWorkspace_membership sampleDates (fun _ _ => true) (fun _ => true) sampleStore
      { user := { id := "u2", user_type := "OTHER" }, ctx := none,
        params := { wid := none, id := none, ticketId := "t1" },
        body := [("title", JsVal.str "New")] } "u2" "w1" sampleTicket).2.2
      (by decide) (by decide)).2.1

/-- C14 (amended). On ticket operations a super-admin is checked like every other
user: whatever the user type and the flag of the caller, `getTicketById`,
`updateTicket` and `deleteTicket` on an existing ticket answer 403 exactly when the
caller holds no Assignment in the workspace of the ticket. -/
theorem ticket_access_needs_membership (D : DateLib)
    (accepts : Store → TicketsRow → Bool) (commits : Store → Bool) (s : Store) (req : Req)
    (t : TicketsRow)
    (hfind : s.tickets.find? (fun x => x.id = req.params.ticketId) = some t) :
    ((getTicketById s req).2.status = 403 ↔ ¬ isMember s req.user.id t.workspace_id) ∧
    ((updateTicket D accepts s req).2.status = 403 ↔
      ¬ isMember s req.user.id t.workspace_id) ∧
    ((deleteTicket D commits s req).2.status = 403 ↔
      ¬ isMember s req.user.id t.workspace_id) := by
  refine ⟨⟨fun h hm => ?_, fun h => ?_⟩, ⟨fun h hm => ?_, fun h => ?_⟩,
    ⟨fun h hm => ?_, fun h => ?_⟩⟩
  · rw [getTicketById_member_status s req t hfind hm] at h
    cases h
  · rw [getTicketById_not_member s req t hfind h]; rfl
  · exact updateTicket_member_status D accepts s req t hfind hm h
  · rw [updateTicket_not_member D accepts s req t hfind h]; rfl
  · exact deleteTicket_member_status D commits s req t hfind hm h
  · rw [deleteTicket_not_member D commits s req t hfind h]; rfl

/-- C14, amended form at the workspace admin `u1` reading ticket `t1` of the
workspace: the answer is not 403. -/
theorem ticket_access_needs_membership_witness :
    ¬ (getTicketById sampleStore (sampleAdminReq [])).2.status = 403 := by
  intro h
  exact (ticket_access_needs_membership sampleDates (fun _ _ => true) (fun _ => true)
    sampleStore (sampleAdminReq []) sampleTicket (by decide)).1.1 h (by decide)

/-- C14, as stated, fails: the super-admin `u0`, for whom `hasPerm` is truthy on every
pair, holds no Assignment in workspace `w1` and is answered 403 by `getTicketById`,
`updateTicket` and `deleteTicket` on ticket `t1`; the store stays as it is. -/
theorem super_admin_rejected_without_assignment :
    truthy (hasPerm (sampleSuperReq []) "TICKET" "READ") = true ∧
    getTicketById sampleStore (sampleSuperReq []) =
      (sampleStore, httpError 403 "User is not a member of this workspace") ∧
    updateTicket sampleDates (fun _ _ => true) sampleStore
        (sampleSuperReq [("title", JsVal.str "New")]) =
      (sampleStore, httpError 403 "User is not a member of this workspace") ∧
    deleteTicket sampleDates (fun _ => true) sampleStore (sampleSuperReq []) =
      (sampleStore, httpError 403 "User is not a member of this workspace") := by
  refine ⟨by decide, by decide, by decide, by decide⟩

/-! ## Deleting a ticket (C12) -/

theorem find?_filter_of_find? {α : Type} (l : List α) (p q : α → Bool) (a : α)
    (h : l.find? p = some a) (hq : q a = true) : (l.filter q).find? p = some a := by
  induction l with
  | nil => simp at h
  | cons x xs ih =>
    rw [List.find?_cons] at h
    by_cases hx : p x = true
    · rw [hx] at h
      cases h
      rw [List.filter_cons, if_pos hq, List.find?_cons, hx]
    · have hx' : p x = false := by simpa using hx
      rw [hx'] at h
      rw [List.filter_cons]
      split
      · rw [List.find?_cons, hx']
        exact ih h
      · exact ih h

/-- The store and response of `deleteTicket` for a member on an existing ticket that
is not its own parent, when the store commits the transaction. -/
theorem deleteTicket_removes (D : DateLib) (commits : Store → Bool) (s : Store) (req : Req)
    (t : TicketsRow)
    (hfind : s.tickets.find? (fun x => x.id = req.params.ticketId) = some t)
    (hmem : isMember s req.user.id t.workspace_id)
    (hself : t.parent_id ≠ some t.id)
    (hcommit : commits
      { s with
        history := s.history ++
          [{ workspace_id := t.workspace_id, ticket_id := t.id, field_changed := "deleted",
             old_value := some "false", new_value := some "true", action := "DELETE",
             changed_by := req.user.id }],
        comments := s.comments.filter (fun c => c.ticket_id ≠ t.id),
        tickets := (s.tickets.filter (fun x => x.parent_id ≠ some t.id)).filter
          (fun x => x.id ≠ t.id) } = true) :
    deleteTicket D commits s req =
      ({ s with
          history := s.history ++
            [{ workspace_id := t.workspace_id, ticket_id := t.id, field_changed := "deleted",
               old_value := some "false", new_value := some "true", action := "DELETE",
               changed_by := req.user.id }],
          comments := s.comments.filter (fun c => c.ticket_id ≠ t.id),
          tickets := (s.tickets.filter (fun x => x.parent_id ≠ some t.id)).filter
            (fun x => x.id ≠ t.id) },
       { status := 200, message := "Ticket deleted", payload := Payload.none }) := by
  have hid : t.id = req.params.ticketId := by
    simpa using List.find?_some hfind
  have hstill : (s.tickets.filter (fun x => x.parent_id ≠ some req.params.ticketId)).find?
      (fun x => x.id = req.params.ticketId) = some t :=
    find?_filter_of_find? s.tickets _ _ t hfind (by rw [← hid]; simpa using hself)
  unfold deleteTicket
  simp only [getTicketAndAssertAccess_ok s _ _ t hfind hmem]
  simp only [writeHistory, deletedChange, historyRows, historyValue, jsString, List.length_singleton,
    List.map_cons, List.map_nil]
  simp only [show ((1 : Nat) = 0) = False by simp, if_false]
  simp only [hstill]
  simp only [ne_eq, reduceCtorEq, not_false_eq_true, if_true, ← hid]
  simp only [ne_eq] at hcommit
  rw [if_pos hcommit]

/-- C12. The code at a ticket that is its own parent: `updateTicket` accepts the
ticket itself as parent; on the resulting store `deleteTicket` of the workspace
admin removes the ticket together with the tickets whose parent it is, so the final
`delete` finds no row and throws: the answer is 500 and the store keeps the ticket,
its comments and its History as they were. -/
theorem deleteTicket_self_parent_fails :
    selfParentStore.tickets = [{ sampleTicket with parent_id := some "t1",
                                                   updated_by := some "u1" }] ∧
    isMember selfParentStore "u1" "w1" ∧
    deleteTicket sampleDates (fun _ => true) selfParentStore (sampleAdminReq []) =
      (selfParentStore,
       { status := 500, message := "Record to delete does not exist",
         payload := Payload.none }) := by
  refine ⟨by decide, by decide, by decide⟩

/-! ## The guard on the Admin role (C15) -/

/-- C15. The code at a workspace admin without the super-admin designation who
targets the role `r1`, named "Admin": the replace call answers 200 and gives `u2`
the Admin role, and the removal call answers 200 and deletes the Admin Assignment
of `u1`; neither answers 403. -/
theorem admin_role_guard_never_fires :
    (sampleStore.role.find? (fun r => r.id = "r1")).map (fun r => r.name) = some "Admin" ∧
    updateAssignedRoleForUser sampleStore
        (sampleAdminReq [("user_id", JsVal.str "u2"), ("role_id", JsVal.str "r1")]) =
      ({ sampleStore with
          userRole := [{ user_id := "u1", role_id := "r1", workspace_id := "w1" },
                       { user_id := "u2", role_id := "r1", workspace_id := "w1" }] },
       { status := 200, message := "Role updated for user",
         payload := Payload.assignment
           (some { user_id := "u2", role_id := "r1", workspace_id := "w1" }) }) ∧
    removeAssignedRolesForUser sampleStore
        (sampleAdminReq [("user_id", JsVal.str "u1"), ("role_id", JsVal.str "r1")]) =
      ({ sampleStore with userRole := [] },
       { status := 200, message := "Role removed from user",
         payload := Payload.removed 1 }) := by
  refine ⟨by decide, by decide, by decide⟩

/-! ## Removing assignments (C16) -/

/-- The table after an authorised removal for an existing user when the role query
of the handler finds a role: without `role_id` every Assignment of the user in the
workspace is gone, with a `role_id` the Assignments of the user in the workspace
with that role are gone, and every other row is kept. -/
theorem removeAssignedRolesForUser_removes (s : Store) (req : Req) (wid uid : String)
    (hwid : workspaceIdOf req = some wid)
    (huid : getProp req.body "user_id" = JsVal.str uid) (hne : uid ≠ "")
    (hperm : truthy (hasPerm req "USER_ROLE" "DELETE") = true)
    (huser : ∃ u ∈ s.users, u.id = uid) :
    (getProp req.body "role_id" = JsVal.undefined →
      (∃ r ∈ s.role, r.workspace_id = wid) →
      (removeAssignedRolesForUser s req).1.userRole =
          s.userRole.filter (fun r => ¬ (r.user_id = uid ∧ r.workspace_id = wid)) ∧
        (removeAssignedRolesForUser s req).2.status = 200) ∧
    (∀ rid, getProp req.body "role_id" = JsVal.str rid → rid ≠ "" →
      (∃ r ∈ s.role, r.id = rid ∧ r.workspace_id = wid) →
      (removeAssignedRolesForUser s req).1.userRole =
          s.userRole.filter
            (fun r => ¬ (r.user_id = uid ∧ r.workspace_id = wid ∧ r.role_id = rid)) ∧
        (removeAssignedRolesForUser s req).2.status = 200) := by
  have hu : ¬ ((s.users.find? (fun u => u.id = uid)).isNone = true) := by
    obtain ⟨u, hu, hid⟩ := huser
    intro h
    have := List.find?_eq_none.1 (Option.isNone_iff_eq_none.1 h) u hu
    simp [hid] at this
  have htr : truthy (JsVal.str uid) = true := by simpa [truthy] using hne
  constructor
  · intro hrid hrole
    have hr : ∃ r, s.role.find? (fun r => r.workspace_id = wid) = some r := by
      obtain ⟨r, hr, hw⟩ := hrole
      cases hf : s.role.find? (fun r => r.workspace_id = wid) with
      | none =>
        have := List.find?_eq_none.1 hf r hr
        simp [hw] at this
      | some r' => exact ⟨r', rfl⟩
    obtain ⟨r, hr⟩ := hr
    unfold removeAssignedRolesForUser
    simp only [hwid, huid, hrid, htr, hperm, hr, hu]
    simp [removalWhere, truthy]
  · intro rid hrid hridne hrole
    have hr : ∃ r, s.role.find? (fun r => r.id = rid ∧ r.workspace_id = wid) = some r := by
      obtain ⟨r, hr, hi, hw⟩ := hrole
      cases hf : s.role.find? (fun r => r.id = rid ∧ r.workspace_id = wid) with
      | none =>
        have := List.find?_eq_none.1 hf r hr
        simp [hi, hw] at this
      | some r' => exact ⟨r', rfl⟩
    obtain ⟨r, hr⟩ := hr
    have htr2 : truthy (JsVal.str rid) = true := by simpa [truthy] using hridne
    unfold removeAssignedRolesForUser
    simp only [hwid, huid, hrid, htr, hperm, hr, hu]
    simp [removalWhere, htr2]

/-- C16. The code at a removal without `role_id` that the super-admin `u0` sends for
the existing user `u2` on workspace `w1`, when the workspace has no role: the role
query of the handler finds nothing and the answer is 404 instead of a success. -/
theorem removeAssignedRolesForUser_without_role_404 :
    truthy (hasPerm
      { sampleSuperReq [("user_id", JsVal.str "u2")] with
        params := { wid := some "w1", id := none, ticketId := "" } }
      "USER_ROLE" "DELETE") = true ∧
    (noRoleStore.users.find? (fun u => u.id = "u2")).isSome = true ∧
    removeAssignedRolesForUser noRoleStore
        { sampleSuperReq [("user_id", JsVal.str "u2")] with
          params := { wid := some "w1", id := none, ticketId := "" } } =
      (noRoleStore, httpError 404 "Role does not belong to this workspace") := by
  refine ⟨by decide, by decide, by decide⟩

/-! ## Deleting a role (C17) -/

/-- C17. For an authorised `deleteRole` request that names workspace `wid` and role
`roleId`: if an Assignment of the workspace references the role, the answer is 409
and the store is the one given; if the role exists in the workspace and no
Assignment references it, the answer is 204 and the store is the one given without
the role and without the grants of the role, every other row being kept. -/
theorem deleteRole_in_use_or_removed (s : Store) (req : Req) (wid roleId : String)
    (hwid : firstTruthy [req.params.wid, req.ctx.bind (fun c => c.workspaceId)] = some wid)
    (hrid : firstTruthy [req.params.roleId] = some roleId)
    (hperm : truthy (hasPerm req "ROLE" "DELETE") = true) :
    ((∃ r ∈ s.userRole, r.role_id = roleId ∧ r.workspace_id = wid) →
      deleteRole s req = (s, httpError 409 "Cannot delete a role that is assigned to users")) ∧
    ((∃ r ∈ s.role, r.id = roleId ∧ r.workspace_id = wid) →
      (∀ r ∈ s.userRole, r.role_id ≠ roleId) →
      deleteRole s req =
        ({ s with
            role := s.role.filter (fun r => r.id ≠ roleId),
            rolePermission := s.rolePermission.filter (fun rp => rp.role_id ≠ roleId) },
         { status := 204, message := "Role deleted successfully", payload := Payload.none })) := by
  constructor
  · rintro ⟨r, hr, h1, h2⟩
    have hin : (s.userRole.find? (fun r => r.role_id = roleId ∧ r.workspace_id = wid)).isSome = true := by
      cases hf : s.userRole.find? (fun r => r.role_id = roleId ∧ r.workspace_id = wid) with
      | none =>
        have := List.find?_eq_none.1 hf r hr
        simp [h1, h2] at this
      | some _ => rfl
    unfold deleteRole
    simp only [hwid, hrid, hperm, hin]
    rfl
  · rintro ⟨r, hr, h1, h2⟩ hfree
    have hin : (s.userRole.find? (fun r => r.role_id = roleId ∧ r.workspace_id = wid)).isSome = false := by
      cases hf : s.userRole.find? (fun r => r.role_id = roleId ∧ r.workspace_id = wid) with
      | none => rfl
      | some x =>
        have hx := List.mem_of_find?_eq_some hf
        have hp := List.find?_some hf
        exact absurd (by simpa using hp : x.role_id = roleId ∧ x.workspace_id = wid).1 (hfree x hx)
    have hex : (s.role.find? (fun r => r.id = roleId ∧ r.workspace_id = wid)).isNone = false := by
      cases hf : s.role.find? (fun r => r.id = roleId ∧ r.workspace_id = wid) with
      | none =>
        have := List.find?_eq_none.1 hf r hr
        simp [h1, h2] at this
      | some _ => rfl
    unfold deleteRole
    simp only [hwid, hrid, hperm, hin, hex]
    rfl

/-- C17, at the role `r2` of workspace `w1`, which no Assignment references, and at
the role `r1`, which the Assignment of `u1` references. -/
theorem deleteRole_in_use_or_removed_witness :
    deleteRole sampleStore (sampleRoleReq "r2") =
      ({ sampleStore with
          role := [{ id := "r1", workspace_id := "w1", name := "Admin", desc := none }] },
       { status := 204, message := "Role deleted successfully", payload := Payload.none }) ∧
    deleteRole sampleStore (sampleRoleReq "r1") =
      (sampleStore, httpError 409 "Cannot delete a role that is assigned to users") :=
  ⟨(deleteRole_in_use_or_removed sampleStore (sampleRoleReq "r2") "w1" "r2" (by decide)
      (by decide) (by decide)).2
      ⟨{ id := "r2", workspace_id := "w1", name := "Dev", desc := none }, by decide, by decide⟩
      (by decide),
   (deleteRole_in_use_or_removed sampleStore (sampleRoleReq "r1") "w1" "r1" (by decide)
      (by decide) (by decide)).1
      ⟨{ user_id := "u1", role_id := "r1", workspace_id := "w1" }, by decide, by decide⟩⟩

/-! ## Name conflict on `createWorkspace` (C19) -/

theorem likeSkip_plain (t p : List Char) (q : Char) (hq : plainChar q) :
    likeSkip t (q :: p) = some (t, q :: p) := by
  simp only [likeSkip, hq.1, hq.2.1, if_false]

/-- A pattern of plain characters matches the text that is equal to it and no
other, and is never rejected. -/
theorem matchText_plain (p : List Char) (hp : ∀ q ∈ p, plainChar q) :
    ∀ fuel t, p.length < fuel →
      (t = p → matchText fuel t p = LikeResult.yes) ∧
      (t ≠ p → matchText fuel t p = LikeResult.no ∨ matchText fuel t p = LikeResult.abort) := by
  induction p with
  | nil =>
    intro fuel t hfuel
    cases fuel with
    | zero => simp at hfuel
    | succ fuel =>
      cases t with
      | nil =>
        constructor
        · intro _
          simp [matchText]
        · intro h
          exact absurd rfl h
      | cons c t =>
        constructor
        · intro h
          cases h
        · intro _
          left
          simp [matchText]
  | cons q p ih =>
    intro fuel t hfuel
    have hq := hp q (List.mem_cons_self _ _)
    have hp' : ∀ q' ∈ p, plainChar q' := fun q' h => hp q' (List.mem_cons_of_mem _ h)
    cases fuel with
    | zero => simp at hfuel
    | succ fuel =>
      have hfuel' : p.length < fuel := by simpa using hfuel
      cases t with
      | nil =>
        constructor
        · intro h
          cases h
        · intro _
          right
          have : (q == '%') = false := by simpa using hq.1
          simp [matchText, this]
      | cons c t =>
        have hstep : matchText (fuel + 1) (c :: t) (q :: p) =
            if q = c then matchText fuel t p else LikeResult.no := by
          simp only [matchText, hq.1, hq.2.1, hq.2.2, if_false]
        rw [hstep]
        constructor
        · intro h
          have h1 : c = q := (List.cons.inj h).1
          have h2 : t = p := (List.cons.inj h).2
          rw [if_pos h1.symm]
          exact (ih hp' fuel t hfuel').1 h2
        · intro h
          by_cases hc : q = c
          · rw [if_pos hc]
            apply (ih hp' fuel t hfuel').2
            intro h2
            exact h (by rw [hc, h2])
          · rw [if_neg hc]
            exact Or.inl rfl

/-- For a name that is plain after lower-casing, the case-insensitive filter finds
the first workspace whose lower-cased name is the lower-cased requested name. -/
theorem findWorkspaceByName_plain (lower : String → String) (name : String)
    (hplain : ∀ q ∈ (lower name).data, plainChar q) (ws : List WorkspaceRow) :
    findWorkspaceByName lower name ws =
      Except.ok (ws.find? (fun w => lower w.name = lower name)) := by
  induction ws with
  | nil => rfl
  | cons w ws ih =>
    have hm := matchText_plain (lower name).data hplain ((lower name).data.length + 1)
      (lower w.name).data (by omega)
    simp only [findWorkspaceByName, ilike, List.find?_cons]
    by_cases heq : lower w.name = lower name
    · have h1 := hm.1 (by rw [heq])
      rw [heq] at h1
      simp only [heq, h1, decide_True]
    · have hne : (lower w.name).data ≠ (lower name).data := by
        intro h
        exact heq (String.ext h)
      have hd : decide (lower w.name = lower name) = false := by simpa using heq
      rcases hm.2 hne with h1 | h1
      · simp only [h1, hd]
        exact ih
      · simp only [h1, hd]
        exact ih

/-- C19 (amended). For every `createWorkspace` request of a super-admin that carries
a non-empty name and a truthy `admin_id`, and whose name, lower-cased by the
database, holds none of the pattern characters `%`, `_` and backslash and is the
lower-cased name of an existing workspace, the answer is 409 and the store is the
one given: no workspace, role, grant or Assignment is created. -/
theorem createWorkspace_name_conflict (lower : String → String) (gen : Nat → String)
    (s : Store) (req : Req) (name : String)
    (hsuper : req.user.user_type = "SUPER_ADMIN")
    (hname : getProp req.body "name" = JsVal.str name) (hne : name ≠ "")
    (hadmin : truthy (getProp req.body "admin_id") = true)
    (hplain : ∀ q ∈ (lower name).data, plainChar q)
    (hex : ∃ w ∈ s.workspace, lower w.name = lower name) :
    createWorkspace lower gen s req =
      (s, httpError 409 "Workspace with this name already exists") := by
  obtain ⟨w, hw, heq⟩ := hex
  have hfound : ∃ w', s.workspace.find? (fun w => lower w.name = lower name) = some w' := by
    cases hf : s.workspace.find? (fun w => lower w.name = lower name) with
    | none =>
      have := List.find?_eq_none.1 hf w hw
      simp [heq] at this
    | some w' => exact ⟨w', rfl⟩
  obtain ⟨w', hw'⟩ := hfound
  have htr : truthy (JsVal.str name) = true := by simpa [truthy] using hne
  unfold createWorkspace requireSuperAdmin
  simp only [hsuper, hname, htr, hadmin, findWorkspaceByName_plain lower name hplain, hw']
  rfl

/-- C19, amended form at the example of the specification, with the cases swapped:
"acme" is sent while "Acme" exists. -/
theorem createWorkspace_name_conflict_witness :
    createWorkspace toLowerCase sampleGen sampleStore
        (sampleSuperReq [("name", JsVal.str "acme"), ("admin_id", JsVal.str "u2")]) =
      (sampleStore, httpError 409 "Workspace with this name already exists") :=
  createWorkspace_name_conflict toLowerCase sampleGen sampleStore _ "acme" (by decide)
    (by decide) (by decide) (by decide) (by decide)
    ⟨{ id := "w1", name := "Acme", created_by := "u0", admin_id := "u1" }, by decide, by decide⟩

/-- C19, as stated, fails.  A super-admin request whose name "acme" equals the
existing "Acme" up to letter case, but which carries no `admin_id`, is answered 400
by the check of the required fields.  And the database reads the requested name as
a pattern: after a workspace with the name `a\b` has been created, the same name is
requested again; the backslash makes the pattern stand for the name `ab`, the
existing workspace is not found, and the answer is 201 with a second workspace of
that name, where the specification asks for 409. -/
theorem createWorkspace_same_name_not_409 :
    createWorkspace toLowerCase sampleGen sampleStore
        (sampleSuperReq [("name", JsVal.str "acme")]) =
      (sampleStore, httpError 400 "All fields are required") ∧
    (createWorkspace toLowerCase sampleGen sampleStore
        (sampleSuperReq [("name", JsVal.str "a\\b"), ("admin_id", JsVal.str "u2")])).2.status
      = 201 ∧
    backslashStore.workspace =
      [{ id := "w1", name := "Acme", created_by := "u0", admin_id := "u1" },
       { id := "w2", name := "a\\b", created_by := "u0", admin_id := "u2" }] ∧
    ilike toLowerCase "a\\b" "a\\b" = LikeResult.no ∧
    (createWorkspace toLowerCase freshGen backslashStore
        (sampleSuperReq [("name", JsVal.str "a\\b"), ("admin_id", JsVal.str "u2")])).2.status
      = 201 ∧
    (createWorkspace toLowerCase freshGen backslashStore
        (sampleSuperReq [("name", JsVal.str "a\\b"), ("admin_id", JsVal.str "u2")])).1.workspace
      = backslashStore.workspace ++
        [{ id := "g", name := "a\\b", created_by := "u0", admin_id := "u2" }] := by
  refine ⟨by decide, by decide, by decide, by decide, by decide, by decide⟩

/-- A requested name that holds a wildcard is answered 409 although no workspace has
that name up to letter case: "A_me" and "%" both match the existing "Acme". -/
theorem createWorkspace_wildcard_name_409 :
    createWorkspace toLowerCase sampleGen sampleStore
        (sampleSuperReq [("name", JsVal.str "A_me"), ("admin_id", JsVal.str "u2")]) =
      (sampleStore, httpError 409 "Workspace with this name already exists") ∧
    createWorkspace toLowerCase sampleGen sampleStore
        (sampleSuperReq [("name", JsVal.str "%"), ("admin_id", JsVal.str "u2")]) =
      (sampleStore, httpError 409 "Workspace with this name already exists") := by
  refine ⟨by decide, by decide⟩

/-! ## Provisioning a workspace (C18) -/

theorem ensurePermission_frame (s : Store) (e o newId : String) :
    sameButPermission s (ensurePermission s e o newId).1 := by
  unfold ensurePermission sameButPermission
  split <;> exact ⟨rfl, rfl, rfl, rfl, rfl, rfl, rfl, rfl⟩

theorem ensurePermission_pair (s : Store) (e o newId : String) :
    (ensurePermission s e o newId).2.entity = e ∧
      (ensurePermission s e o newId).2.operation = o := by
  unfold ensurePermission
  split
  · rename_i p hp
    simpa using List.find?_some hp
  · exact ⟨rfl, rfl⟩

theorem ensurePermission_permission (s : Store) (e o newId : String) :
    ((ensurePermission s e o newId).1.permission = s.permission ∧
        (ensurePermission s e o newId).2 ∈ s.permission) ∨
      ((ensurePermission s e o newId).1.permission =
          s.permission ++ [(ensurePermission s e o newId).2] ∧
        (ensurePermission s e o newId).2.id = newId) := by
  unfold ensurePermission
  split
  · rename_i p hp
    exact Or.inl ⟨rfl, List.mem_of_find?_eq_some hp⟩
  · exact Or.inr ⟨rfl, rfl⟩

theorem ensurePermissions_frame (gen : Nat → String) (s : Store) (n : Nat)
    (perms : List (String × String)) :
    sameButPermission s (ensurePermissions gen s n perms).1 := by
  induction perms generalizing s n with
  | nil => exact ⟨rfl, rfl, rfl, rfl, rfl, rfl, rfl, rfl⟩
  | cons p rest ih =>
    obtain ⟨e, o⟩ := p
    simp only [ensurePermissions]
    obtain ⟨a1, a2, a3, a4, a5, a6, a7, a8⟩ := ensurePermission_frame s e o (gen n)
    obtain ⟨b1, b2, b3, b4, b5, b6, b7, b8⟩ := ih (ensurePermission s e o (gen n)).1 (n + 1)
    exact ⟨b1.trans a1, b2.trans a2, b3.trans a3, b4.trans a4, b5.trans a5, b6.trans a6,
      b7.trans a7, b8.trans a8⟩

theorem ensurePermissions_pairs (gen : Nat → String) (s : Store) (n : Nat)
    (perms : List (String × String)) :
    (ensurePermissions gen s n perms).2.map (fun p => (p.entity, p.operation)) = perms := by
  induction perms generalizing s n with
  | nil => rfl
  | cons p rest ih =>
    obtain ⟨e, o⟩ := p
    simp only [ensurePermissions, List.map_cons, ih]
    rw [(ensurePermission_pair s e o (gen n)).1, (ensurePermission_pair s e o (gen n)).2]

theorem ensurePermissions_append (gen : Nat → String) (s : Store) (n : Nat)
    (perms : List (String × String)) :
    ∃ added : List PermissionRow,
      (ensurePermissions gen s n perms).1.permission = s.permission ++ added ∧
      ∀ p ∈ added, ∃ k, n ≤ k ∧ p.id = gen k := by
  induction perms generalizing s n with
  | nil => exact ⟨[], by simp [ensurePermissions], by simp⟩
  | cons p rest ih =>
    obtain ⟨e, o⟩ := p
    simp only [ensurePermissions]
    obtain ⟨added, h1, h2⟩ := ih (ensurePermission s e o (gen n)).1 (n + 1)
    rcases ensurePermission_permission s e o (gen n) with ⟨hp, _⟩ | ⟨hp, hid⟩
    · refine ⟨added, by rw [h1, hp], ?_⟩
      intro q hq
      obtain ⟨k, hk, hqk⟩ := h2 q hq
      exact ⟨k, by omega, hqk⟩
    · refine ⟨(ensurePermission s e o (gen n)).2 :: added, by rw [h1, hp]; simp, ?_⟩
      intro q hq
      rcases List.mem_cons.1 hq with h | h
      · exact ⟨n, le_refl _, by rw [h, hid]⟩
      · obtain ⟨k, hk, hqk⟩ := h2 q h
        exact ⟨k, by omega, hqk⟩

theorem ensurePermissions_mem (gen : Nat → String) (s : Store) (n : Nat)
    (perms : List (String × String)) :
    ∀ p ∈ (ensurePermissions gen s n perms).2,
      p ∈ (ensurePermissions gen s n perms).1.permission := by
  induction perms generalizing s n with
  | nil => intro p hp; cases hp
  | cons q rest ih =>
    obtain ⟨e, o⟩ := q
    simp only [ensurePermissions]
    intro p hp
    rcases List.mem_cons.1 hp with h | h
    · obtain ⟨added, h1, _⟩ :=
        ensurePermissions_append gen (ensurePermission s e o (gen n)).1 (n + 1) rest
      rw [h1, h]
      apply List.mem_append_left
      rcases ensurePermission_permission s e o (gen n) with ⟨hp', hm⟩ | ⟨hp', _⟩
      · rw [hp']; exact hm
      · rw [hp']; simp
    · exact ih _ _ p h

theorem ensurePermissions_nodup (gen : Nat → String) (s : Store) (n : Nat)
    (perms : List (String × String)) (hinj : Function.Injective gen)
    (hnd : (s.permission.map (fun p => p.id)).Nodup)
    (hfr : ∀ k, n ≤ k → gen k ∉ s.permission.map (fun p => p.id)) :
    ((ensurePermissions gen s n perms).1.permission.map (fun p => p.id)).Nodup := by
  induction perms generalizing s n with
  | nil => exact hnd
  | cons q rest ih =>
    obtain ⟨e, o⟩ := q
    simp only [ensurePermissions]
    apply ih
    · rcases ensurePermission_permission s e o (gen n) with ⟨hp, _⟩ | ⟨hp, hid⟩
      · rw [hp]; exact hnd
      · rw [hp, List.map_append, List.map_singleton, hid]
        exact List.Nodup.append hnd (List.nodup_singleton _)
          (by simpa using hfr n (le_refl _))
    · intro k hk
      rcases ensurePermission_permission s e o (gen n) with ⟨hp, _⟩ | ⟨hp, hid⟩
      · rw [hp]; exact hfr k (by omega)
      · rw [hp, List.map_append, List.map_singleton, hid, List.mem_append, List.mem_singleton]
        rintro (h | h)
        · exact hfr k (by omega) h
        · have := hinj h
          omega

theorem createRolePermissions_append (table rows : List RolePermissionRow) :
    ∃ extra : List RolePermissionRow,
      createRolePermissions table rows = table ++ extra ∧ ∀ r ∈ extra, r ∈ rows := by
  induction rows generalizing table with
  | nil => exact ⟨[], by simp [createRolePermissions], by simp⟩
  | cons r rest ih =>
    simp only [createRolePermissions]
    split
    · obtain ⟨extra, h1, h2⟩ := ih table
      exact ⟨extra, h1, fun x hx => List.mem_cons_of_mem _ (h2 x hx)⟩
    · obtain ⟨extra, h1, h2⟩ := ih (table ++ [r])
      refine ⟨r :: extra, by rw [h1]; simp, ?_⟩
      intro x hx
      rcases List.mem_cons.1 hx with h | h
      · rw [h]; exact List.mem_cons_self _ _
      · exact List.mem_cons_of_mem _ (h2 x h)

theorem mem_createRolePermissions (table rows : List RolePermissionRow)
    (r : RolePermissionRow) :
    r ∈ createRolePermissions table rows ↔ r ∈ table ∨ r ∈ rows := by
  induction rows generalizing table with
  | nil => simp [createRolePermissions]
  | cons x rest ih =>
    simp only [createRolePermissions]
    split
    · rename_i hx
      rw [ih]
      simp only [List.mem_cons]
      constructor
      · rintro (h | h)
        · exact Or.inl h
        · exact Or.inr (Or.inr h)
      · rintro (h | h | h)
        · exact Or.inl h
        · exact Or.inl (h ▸ hx)
        · exact Or.inr h
    · rw [ih]
      simp only [List.mem_append, List.mem_singleton, List.mem_cons]
      tauto

theorem mem_grantsOf (s : Store) (roleId : String) (pair : String × String) :
    pair ∈ grantsOf s roleId ↔
      ∃ rp ∈ s.rolePermission, rp.role_id = roleId ∧
        ∃ p, s.permission.find? (fun p => p.id = rp.permission_id) = some p ∧
          (p.entity, p.operation) = pair := by
  unfold grantsOf
  simp only [List.mem_filterMap, List.mem_filter, decide_eq_true_eq, Option.map_eq_some']
  constructor
  · rintro ⟨rp, ⟨h1, h2⟩, p, h3, h4⟩
    exact ⟨rp, h1, h2, p, h3, h4⟩
  · rintro ⟨rp, h1, h2, p, h3, h4⟩
    exact ⟨rp, ⟨h1, h2⟩, p, h3, h4⟩

theorem find?_id_eq_of_mem (l : List PermissionRow) (p : PermissionRow)
    (hnd : (l.map (fun p => p.id)).Nodup) (hp : p ∈ l) :
    l.find? (fun q => q.id = p.id) = some p := by
  cases hf : l.find? (fun q => q.id = p.id) with
  | none =>
    have := List.find?_eq_none.1 hf p hp
    simp at this
  | some q =>
    have hq := List.mem_of_find?_eq_some hf
    have hid : q.id = p.id := by simpa using List.find?_some hf
    rw [List.inj_on_of_nodup_map hnd hq hp hid]

theorem createDefaultRoles_default (gen : Nat → String) (wsId : String) :
    createDefaultRoles gen wsId 1 DEFAULT_ROLES =
      [{ id := gen 1, workspace_id := wsId, name := "Admin", desc := none }] := rfl

theorem grantDefaultRoles_default (gen : Nat → String) (s : Store) (r : RoleRow) :
    grantDefaultRoles gen s (1 + DEFAULT_ROLES.length) [r] DEFAULT_ROLES =
      grantPermissionsToRole gen s 2 r.id adminPermissions := rfl

theorem findWorkspaceByName_error_status (lower : String → String) (name : String)
    (ws : List WorkspaceRow) (e : JsError)
    (h : findWorkspaceByName lower name ws = Except.error e) : e.status = none := by
  induction ws with
  | nil => cases h
  | cons w ws ih =>
    simp only [findWorkspaceByName] at h
    split at h
    · cases h
    · cases h
      rfl
    · exact ih h

/-- The store and response of a `createWorkspace` call that answers 201. -/
theorem createWorkspace_success (lower : String → String) (gen : Nat → String) (s : Store) (req : Req)
    (hok : (createWorkspace lower gen s req).2.status = 201) :
    ∃ name adminId,
      getProp req.body "name" = JsVal.str name ∧
      getProp req.body "admin_id" = JsVal.str adminId ∧
      (∃ u ∈ s.users, u.id = adminId) ∧
      createWorkspace lower gen s req =
        ({ grantPermissionsToRole gen
              { s with
                  workspace := s.workspace ++
                    [{ id := gen 0, name := name, created_by := req.user.id, admin_id := adminId }],
                  role := s.role ++
                    [{ id := gen 1, workspace_id := gen 0, name := "Admin", desc := none }] }
              2 (gen 1) adminPermissions
            with userRole := s.userRole ++
              [{ user_id := adminId, role_id := gen 1, workspace_id := gen 0 }] },
         { status := 201, message := "",
           payload := Payload.workspace
             { id := gen 0, name := name, created_by := req.user.id, admin_id := adminId } }) := by
  by_cases hsa : req.user.user_type ≠ "SUPER_ADMIN"
  · rw [createWorkspace_not_super_admin lower gen s req hsa] at hok
    simp [httpError] at hok
  have hsa' : req.user.user_type = "SUPER_ADMIN" := not_not.1 hsa
  unfold createWorkspace requireSuperAdmin at hok ⊢
  simp only [hsa', ne_eq, not_true_eq_false, if_false] at hok ⊢
  split at hok
  · simp [httpError] at hok
  rename_i hreq
  rw [if_neg hreq]
  split at hok
  · rename_i name hname
    simp only [hname] at hreq ⊢
    cases hfw : findWorkspaceByName lower name s.workspace with
    | error e =>
      simp only [hfw] at hok
      simp [httpError, findWorkspaceByName_error_status lower name s.workspace e hfw] at hok
    | ok found =>
      cases found with
      | some w =>
        simp only [hfw] at hok
        simp [httpError] at hok
      | none =>
        simp only [hfw] at hok ⊢
        split at hok
        · rename_i adminId hadmin
          simp only [hadmin] at hreq ⊢
          split at hok
          · simp [httpError] at hok
          rename_i huser
          rw [if_neg huser]
          refine ⟨name, adminId, rfl, rfl, ?_, ?_⟩
          · cases hf : s.users.find? (fun u => u.id = adminId) with
            | none => simp [hf] at huser
            | some u =>
              exact ⟨u, List.mem_of_find?_eq_some hf, by simpa using List.find?_some hf⟩
          · simp only [createDefaultRoles_default, grantDefaultRoles_default]
            simp only [List.find?_cons, decide_True, grantPermissionsToRole_userRole]
        · simp [httpError] at hok
  · simp [httpError] at hok

theorem grantPermissionsToRole_eq (gen : Nat → String) (s : Store) (n : Nat) (roleId : String)
    (perms : List (String × String)) :
    grantPermissionsToRole gen s n roleId perms =
      { (ensurePermissions gen s n perms).1 with
        rolePermission :=
          createRolePermissions (ensurePermissions gen s n perms).1.rolePermission
            ((ensurePermissions gen s n perms).2.map
              (fun p => ({ role_id := roleId, permission_id := p.id } : RolePermissionRow))) } := by
  simp only [grantPermissionsToRole]

theorem mem_idsInUse_of_rolePermission {s : Store} {rp : RolePermissionRow}
    (h : rp ∈ s.rolePermission) : rp.role_id ∈ idsInUse s ∧ rp.permission_id ∈ idsInUse s := by
  unfold idsInUse
  simp only [List.mem_append, List.mem_map]
  exact ⟨Or.inl (Or.inl (Or.inl (Or.inl (Or.inr ⟨rp, h, rfl⟩)))),
    Or.inl (Or.inl (Or.inl (Or.inr ⟨rp, h, rfl⟩)))⟩

theorem mem_idsInUse_of_permission {s : Store} {p : PermissionRow}
    (h : p ∈ s.permission) : p.id ∈ idsInUse s := by
  unfold idsInUse
  simp only [List.mem_append, List.mem_map]
  exact Or.inl (Or.inl (Or.inl (Or.inl (Or.inl (Or.inr ⟨p, h, rfl⟩)))))

theorem mem_idsInUse_of_userRole {s : Store} {r : UserRoleRow}
    (h : r ∈ s.userRole) : r.workspace_id ∈ idsInUse s ∧ r.role_id ∈ idsInUse s := by
  unfold idsInUse
  simp only [List.mem_append, List.mem_map]
  exact ⟨Or.inl (Or.inr ⟨r, h, rfl⟩), Or.inl (Or.inl (Or.inr ⟨r, h, rfl⟩))⟩

/-- The tables of the store after `grantPermissionsToRole` for a role id that no
RolePermission row carries yet, with generated ids that are new. -/
theorem grantPermissionsToRole_fresh (gen : Nat → String) (s0 s : Store) (n : Nat)
    (roleId : String) (perms : List (String × String))
    (hfresh : generatedIdsFresh gen s0)
    (hperm : s.permission = s0.permission) (hrp : s.rolePermission = s0.rolePermission)
    (hrole : roleId ∉ idsInUse s0)
    (hpk : (s0.permission.map (fun p => p.id)).Nodup) :
    sameButPermission
      { s with rolePermission := (grantPermissionsToRole gen s n roleId perms).rolePermission }
      (grantPermissionsToRole gen s n roleId perms) ∧
    (∀ pair, pair ∈ grantsOf (grantPermissionsToRole gen s n roleId perms) roleId ↔
      pair ∈ perms) ∧
    (∀ rid, rid ≠ roleId →
      grantsOf (grantPermissionsToRole gen s n roleId perms) rid = grantsOf s0 rid) ∧
    (grantPermissionsToRole gen s n roleId perms).rolePermission.filter
        (fun rp => rp.role_id ≠ roleId) = s0.rolePermission ∧
    s0.permission <+: (grantPermissionsToRole gen s n roleId perms).permission := by
  obtain ⟨hinj, hnew⟩ := hfresh
  rw [grantPermissionsToRole_eq]
  obtain ⟨f1, f2, f3, f4, f5, f6, f7, f8⟩ := ensurePermissions_frame gen s n perms
  obtain ⟨added, hadd, hids⟩ := ensurePermissions_append gen s n perms
  have hpairs := ensurePermissions_pairs gen s n perms
  have hmem := ensurePermissions_mem gen s n perms
  have hnd : ((ensurePermissions gen s n perms).1.permission.map (fun p => p.id)).Nodup :=
    ensurePermissions_nodup gen s n perms hinj (by rw [hperm]; exact hpk)
      (fun k _ hk => by
        rw [hperm] at hk
        obtain ⟨p, hp, hpid⟩ := List.mem_map.1 hk
        exact hnew k (hpid ▸ mem_idsInUse_of_permission hp))
  obtain ⟨extra, hextra, hsub⟩ := createRolePermissions_append
    (ensurePermissions gen s n perms).1.rolePermission
    ((ensurePermissions gen s n perms).2.map
      (fun p => ({ role_id := roleId, permission_id := p.id } : RolePermissionRow)))
  have hextra_role : ∀ r ∈ extra, r.role_id = roleId := by
    intro r hr
    obtain ⟨p, _, rfl⟩ := List.mem_map.1 (hsub r hr)
    rfl
  have hold_role : ∀ r ∈ s0.rolePermission, r.role_id ≠ roleId := by
    intro r hr h
    exact hrole (h ▸ (mem_idsInUse_of_rolePermission hr).1)
  refine ⟨⟨f1, f2, f3, rfl, f5, f6, f7, f8⟩, ?_, ?_, ?_, ?_⟩
  · intro pair
    rw [mem_grantsOf]
    simp only
    constructor
    · rintro ⟨rp, hrpmem, hrid, p, hfind, hpair⟩
      rw [mem_createRolePermissions, f4, hrp] at hrpmem
      rcases hrpmem with h | h
      · exact absurd hrid (hold_role rp h)
      · obtain ⟨q, hq, rfl⟩ := List.mem_map.1 h
        simp only at hfind
        rw [find?_id_eq_of_mem _ q hnd (hmem q hq)] at hfind
        have hqp : q = p := Option.some.inj hfind
        rw [← hpairs, ← hpair, ← hqp]
        exact List.mem_map.2 ⟨q, hq, rfl⟩
    · intro hp
      rw [← hpairs] at hp
      obtain ⟨q, hq, hqp⟩ := List.mem_map.1 hp
      refine ⟨{ role_id := roleId, permission_id := q.id }, ?_, rfl, q, ?_, hqp⟩
      · rw [mem_createRolePermissions]
        exact Or.inr (List.mem_map.2 ⟨q, hq, rfl⟩)
      · exact find?_id_eq_of_mem _ q hnd (hmem q hq)
  · intro rid hrid
    unfold grantsOf
    simp only
    rw [hextra, f4, hrp, List.filter_append]
    have hnil : extra.filter (fun rp => rp.role_id = rid) = [] := by
      apply List.filter_eq_nil_iff.2
      intro r hr
      rw [decide_eq_true_eq, hextra_role r hr]
      exact fun h => hrid h.symm
    rw [hnil, List.append_nil]
    apply List.filterMap_congr
    intro rp hrpmem
    have hrp0 : rp ∈ s0.rolePermission := (List.mem_filter.1 hrpmem).1
    rw [hadd, hperm, List.find?_append]
    have hnone : added.find? (fun p => p.id = rp.permission_id) = none := by
      apply List.find?_eq_none.2
      intro p hp
      obtain ⟨k, _, hk⟩ := hids p hp
      simp only [decide_eq_true_eq]
      intro h
      exact hnew k (hk ▸ h ▸ (mem_idsInUse_of_rolePermission hrp0).2)
    rw [hnone]
    cases s0.permission.find? (fun p => p.id = rp.permission_id) <;> rfl
  · simp only
    rw [hextra, f4, hrp, List.filter_append]
    have h1 : s0.rolePermission.filter (fun rp => rp.role_id ≠ roleId) = s0.rolePermission := by
      apply List.filter_eq_self.2
      intro r hr
      simpa using hold_role r hr
    have h2 : extra.filter (fun rp => rp.role_id ≠ roleId) = [] := by
      apply List.filter_eq_nil_iff.2
      intro r hr
      simp [hextra_role r hr]
    rw [h1, h2, List.append_nil]
  · simp only
    rw [hadd, hperm]
    exact List.prefix_append _ _

theorem freshGen_fresh : generatedIdsFresh freshGen sampleStore := by
  constructor
  · intro a b h
    have h1 : List.replicate (a + 1) 'g' = List.replicate (b + 1) 'g' := by
      unfold freshGen at h
      exact congrArg String.data h
    have h2 := congrArg List.length h1
    simp only [List.length_replicate] at h2
    omega
  · intro k h
    have hall : ∀ x ∈ idsInUse sampleStore, x.data.head? ≠ some 'g' := by decide
    exact hall _ h rfl

/-- C18. For every `createWorkspace` call that answers 201, in a store whose Permission
ids are distinct and with generated ids that are new: the body carries a name and an
admin user id A, the response carries the new workspace, and the resulting store has
that workspace appended, a role named "Admin" in it appended whose grant set is
exactly the permission pairs of the "Admin" template of `DEFAULT_ROLES`, and one
Assignment appended, linking A to that role, which is the only Assignment of the new
workspace; users, tickets, comments and history are unchanged, the RolePermission
rows of other roles and the earlier Permission rows are kept, and the grant set of
every other role is unchanged. -/
theorem createWorkspace_provisions (lower : String → String) (gen : Nat → String) (s : Store) (req : Req)
    (hok : (createWorkspace lower gen s req).2.status = 201)
    (hfresh : generatedIdsFresh gen s)
    (hpk : (s.permission.map (fun p => p.id)).Nodup) :
    ∃ name adminId,
      getProp req.body "name" = JsVal.str name ∧
      getProp req.body "admin_id" = JsVal.str adminId ∧
      (createWorkspace lower gen s req).2.payload =
        Payload.workspace ⟨gen 0, name, req.user.id, adminId⟩ ∧
      (createWorkspace lower gen s req).1.workspace =
        s.workspace ++ [⟨gen 0, name, req.user.id, adminId⟩] ∧
      (createWorkspace lower gen s req).1.role = s.role ++ [⟨gen 1, gen 0, "Admin", none⟩] ∧
      (∀ pair, pair ∈ grantsOf (createWorkspace lower gen s req).1 (gen 1) ↔
        pair ∈ adminPermissions) ∧
      (createWorkspace lower gen s req).1.userRole = s.userRole ++ [⟨adminId, gen 1, gen 0⟩] ∧
      (createWorkspace lower gen s req).1.userRole.filter (fun r => r.workspace_id = gen 0) =
        [⟨adminId, gen 1, gen 0⟩] ∧
      (createWorkspace lower gen s req).1.users = s.users ∧
      (createWorkspace lower gen s req).1.tickets = s.tickets ∧
      (createWorkspace lower gen s req).1.comments = s.comments ∧
      (createWorkspace lower gen s req).1.history = s.history ∧
      (createWorkspace lower gen s req).1.rolePermission.filter (fun rp => rp.role_id ≠ gen 1) =
        s.rolePermission ∧
      s.permission <+: (createWorkspace lower gen s req).1.permission ∧
      ∀ rid, rid ≠ gen 1 →
        grantsOf (createWorkspace lower gen s req).1 rid = grantsOf s rid := by
  obtain ⟨name, adminId, hn, ha, _, heq⟩ := createWorkspace_success lower gen s req hok
  have hgrant :=
    grantPermissionsToRole_fresh gen s
      { s with workspace := s.workspace ++ [⟨gen 0, name, req.user.id, adminId⟩],
               role := s.role ++ [⟨gen 1, gen 0, "Admin", none⟩] }
      2 (gen 1) adminPermissions hfresh rfl rfl (hfresh.2 1) hpk
  generalize grantPermissionsToRole gen
      { s with workspace := s.workspace ++ [⟨gen 0, name, req.user.id, adminId⟩],
               role := s.role ++ [⟨gen 1, gen 0, "Admin", none⟩] }
      2 (gen 1) adminPermissions = G at heq hgrant
  obtain ⟨hsame, hgrants, hother, hkeep, hprefix⟩ := hgrant
  obtain ⟨f1, f2, f3, _, _, f6, f7, f8⟩ := hsame
  refine ⟨name, adminId, hn, ha, ?_⟩
  rw [heq]
  refine ⟨rfl, f2, f3, hgrants, rfl, ?_, f1, f6, f7, f8, hkeep, hprefix, hother⟩
  show (s.userRole ++ [_]).filter _ = _
  rw [List.filter_append]
  have hnil : s.userRole.filter (fun r => r.workspace_id = gen 0) = [] := by
    apply List.filter_eq_nil_iff.2
    intro r hr
    rw [decide_eq_true_eq]
    intro h
    exact hfresh.2 0 (h ▸ (mem_idsInUse_of_userRole hr).1)
  rw [hnil]
  simp

/-- C18, at the super-admin who creates "Beta" with admin `u2` in `sampleStore`: the
call answers 201 and the grant set of the new role is the "Admin" template. -/
theorem createWorkspace_provisions_witness :
    (createWorkspace toLowerCase freshGen sampleStore
        (sampleSuperReq [("name", JsVal.str "Beta"), ("admin_id", JsVal.str "u2")])).2.status
      = 201 ∧
    (sampleStore.permission.map (fun p => p.id)).Nodup ∧
    generatedIdsFresh freshGen sampleStore ∧
    ∀ pair, pair ∈ grantsOf (createWorkspace toLowerCase freshGen sampleStore
        (sampleSuperReq [("name", JsVal.str "Beta"), ("admin_id", JsVal.str "u2")])).1
        (freshGen 1) ↔ pair ∈ adminPermissions := by
  refine ⟨by decide, by decide, freshGen_fresh, ?_⟩
  obtain ⟨_, _, _, _, _, _, _, hg, _⟩ :=
    createWorkspace_provisions toLowerCase freshGen sampleStore
      (sampleSuperReq [("name", JsVal.str "Beta"), ("admin_id", JsVal.str "u2")])
      (by decide) freshGen_fresh (by decide)
  exact hg

/-! ## The "Admin" template (C21) -/

theorem adminPermissions_eq :
    adminPermissions =
      fullCrudEntities.flatMap (fun e => crudOperations.map (fun o => (e, o))) ++
        [("HISTORY", "READ")] := by
  decide

/-- C21 (amended). The permission list of the "Admin" template holds a pair
(entity, operation) exactly when the entity is one of ROLE, USER, USER_ROLE,
ROLE_PERMISSION, TICKET, COMMENT and the operation is one of CREATE, READ, UPDATE,
DELETE, or the pair is (HISTORY, READ); it has no pair for WORKSPACE, no duplicate
pair, and it covers every pair that a route checks for an entity other than
WORKSPACE. -/
theorem adminPermissions_pairs :
    (∀ e o, (e, o) ∈ adminPermissions ↔
      (e ∈ fullCrudEntities ∧ o ∈ crudOperations) ∨ (e = "HISTORY" ∧ o = "READ")) ∧
    (∀ o, ("WORKSPACE", o) ∉ adminPermissions) ∧
    adminPermissions.Nodup ∧
    (∀ p ∈ routeChecks, p.1 ≠ "WORKSPACE" → p ∈ adminPermissions) := by
  refine ⟨?_, ?_, by decide, by decide⟩
  · intro e o
    rw [adminPermissions_eq]
    simp only [List.mem_append, List.mem_flatMap, List.mem_map, Prod.mk.injEq,
      List.mem_singleton]
    constructor
    · rintro (⟨a, ha, b, hb, rfl, rfl⟩ | h)
      · exact Or.inl ⟨ha, hb⟩
      · exact Or.inr h
    · rintro (⟨ha, hb⟩ | h)
      · exact Or.inl ⟨e, ha, o, hb, rfl, rfl⟩
      · exact Or.inr h
  · intro o h
    rw [adminPermissions_eq] at h
    simp [fullCrudEntities, crudOperations] at h

/-- C21, as stated, fails: the entity kinds of the system are the eight tags
WORKSPACE, ROLE, USER, USER_ROLE, ROLE_PERMISSION, TICKET, COMMENT and HISTORY, the
route that creates a workspace checks (WORKSPACE, CREATE), and neither that pair nor
(HISTORY, CREATE), (HISTORY, UPDATE), (HISTORY, DELETE) is in the permission list of
the "Admin" template, which has 25 pairs. -/
theorem adminPermissions_not_full_crud :
    entityKinds = ["ROLE", "USER", "USER_ROLE", "ROLE_PERMISSION", "TICKET", "COMMENT",
                   "HISTORY", "WORKSPACE"] ∧
    ("WORKSPACE", "CREATE") ∈ routeChecks ∧
    ("WORKSPACE", "CREATE") ∉ adminPermissions ∧
    ("HISTORY", "CREATE") ∉ adminPermissions ∧
    ("HISTORY", "UPDATE") ∉ adminPermissions ∧
    ("HISTORY", "DELETE") ∉ adminPermissions ∧
    adminPermissions.length = 25 := by
  refine ⟨by decide, by decide, by decide, by decide, by decide, by decide, by decide⟩

/-! ## The ticket check of `createComment` (C30) -/

/-- The ticket check of `createComment` for a request with a truthy message whose
workspace id is read without error: a ticket id that resolves to no ticket is
answered 500, because the block of the check reads `ticket.workspace_id` on null; a
ticket of another workspace is answered 404; no comment is created in either case. -/
theorem createComment_ticket_check (newId : String) (accepts : Store → CommentsRow → Bool)
    (s : Store) (req : Req) (workspaceId : Option String)
    (hws : commentWorkspaceId req = Except.ok workspaceId)
    (hmsg : truthy (getProp req.body "message") = true) :
    (s.tickets.find? (fun t => t.id = req.params.ticketId) = none →
      createComment newId accepts s req = (s, httpError 500 "Something went wrong")) ∧
    (∀ t, s.tickets.find? (fun t => t.id = req.params.ticketId) = some t →
      some t.workspace_id ≠ workspaceId →
      createComment newId accepts s req =
        (s, httpError 404 "Ticket not found in this workspace")) := by
  constructor
  · intro hfind
    unfold createComment
    simp only [hws, hmsg, hfind]
    rfl
  · intro t hfind hne
    unfold createComment
    simp only [hws, hmsg, hfind]
    simp [hne]

/-- C30. The code at a ticket id that resolves to no ticket: the workspace admin
`u1` sends a comment for the ticket id `t9` on workspace `w1`, no ticket has that
id, and the answer is 500 "Something went wrong" instead of 404; for the ticket `t2`
of another workspace the answer is 404; the store is unchanged both times. -/
theorem createComment_missing_ticket_500 :
    sampleStore.tickets.find? (fun t => t.id = "t9") = none ∧
    createComment "c1" (fun _ _ => true) sampleStore
        (sampleCommentReq "t9" [("message", JsVal.str "hi")]) =
      (sampleStore, httpError 500 "Something went wrong") ∧
    createComment "c1" (fun _ _ => true) twoWorkspaceStore
        (sampleCommentReq "t2" [("message", JsVal.str "hi")]) =
      (twoWorkspaceStore, httpError 404 "Ticket not found in this workspace") := by
  refine ⟨by decide, by decide, by decide⟩

/-! ## Order of the permission check and the payload checks (C26) -/

theorem firstTruthy_cons_some (w : String) (hne : w ≠ "") (rest : List (Option String)) :
    firstTruthy (some w :: rest) = some w := by
  simp [firstTruthy, hne]

/-- C26 (amended). For a request that names the workspace (and the role, for the
handlers of a role) and a caller who lacks the permission the handler asks for:
`createRole` answers 403 for every body; `assignRolestoUsers`,
`updateAssignedRoleForUser`, `removeAssignedRolesForUser`, `updateRolePermissions` and
`removePermissionsFromRole` test the payload first and answer 400 when it is
malformed (arrays that are missing, empty or of unequal length, a missing `user_id`
or `role_id`, a missing or empty `permissions` array) and 403 otherwise; the store
is unchanged in every case. -/
theorem payload_checked_before_permission (gen : Nat → String)
    (roleWrite : Store → RoleRow → RoleWrite) (s : Store) (req : Req)
    (usersArg rolesArg : ArrayArg) (perms : PermsArg) (wid roleId : String)
    (hwid : req.params.wid = some wid) (hne : wid ≠ "")
    (hrid : req.params.roleId = some roleId) (hrne : roleId ≠ "") :
    (truthy (hasPerm req "ROLE" "CREATE") = false →
      createRole gen roleWrite s req perms =
        (s, httpError 403 "Forbidden: ROLE:CREATE required")) ∧
    (truthy (hasPerm req "USER_ROLE" "CREATE") = false →
      assignRolestoUsers s req usersArg rolesArg =
        (s, if bulkArgsMalformed usersArg rolesArg then
              httpError 400 "Provide non-empty 'users' and 'roles' arrays of equal length"
            else httpError 403 "Access Denied : USER_ROLE:CREATE required")) ∧
    (truthy (hasPerm req "USER_ROLE" "UPDATE") = false →
      updateAssignedRoleForUser s req =
        (s, if !truthy (getProp req.body "user_id") || !truthy (getProp req.body "role_id") then
              httpError 400 "user_id and role_id are required"
            else httpError 403 "Access Denied : USER_ROLE:UPDATE required")) ∧
    (truthy (hasPerm req "USER_ROLE" "DELETE") = false →
      removeAssignedRolesForUser s req =
        (s, if !truthy (getProp req.body "user_id") then httpError 400 "user_id is required"
            else httpError 403 "Access Denied : USER_ROLE:DELETE required")) ∧
    (truthy (hasPerm req "ROLE" "UPDATE") = false →
      updateRolePermissions gen s req perms =
        (s, if permsMissing perms then httpError 400 "Permissions array required"
            else httpError 403 "Access denied: ROLE:UPDATE required") ∧
      removePermissionsFromRole s req perms =
        (s, if permsMissing perms then httpError 400 "Permissions array required"
            else httpError 403 "Access denied: ROLE:UPDATE required")) := by
  have hw1 : workspaceIdOf req = some wid := by
    unfold workspaceIdOf
    rw [hwid]
    exact firstTruthy_cons_some wid hne _
  have hw2 : firstTruthy [req.params.wid, req.ctx.bind (fun c => c.workspaceId)] = some wid := by
    rw [hwid]
    exact firstTruthy_cons_some wid hne _
  have hr : firstTruthy [req.params.roleId] = some roleId := by
    rw [hrid]
    exact firstTruthy_cons_some roleId hrne _
  refine ⟨fun h => ?_, fun h => ?_, fun h => ?_, fun h => ?_, fun h => ⟨?_, ?_⟩⟩
  · unfold createRole
    simp only [hw2, h]
    rfl
  · unfold assignRolestoUsers bulkArgsMalformed
    cases hu : usersArg.toList? with
    | none => simp
    | some users =>
      cases hro : rolesArg.toList? with
      | none => simp
      | some roles =>
        by_cases hlen : users.length ≠ roles.length ∨ users.length = 0
        · have hb : (users.length != roles.length || users.length == 0) = true := by
            rcases hlen with h1 | h1
            · simp [h1]
            · simp [h1]
          simp only [hlen, hb, if_true]
        · have hb : (users.length != roles.length || users.length == 0) = false := by
            have hn := not_or.1 hlen
            rw [Bool.or_eq_false_iff]
            exact ⟨by simpa using hn.1, by simpa using hn.2⟩
          simp only [hlen, hb, if_false, hw1, h]
          simp
  · unfold updateAssignedRoleForUser
    simp only [hw1, h]
    split <;> simp
  · unfold removeAssignedRolesForUser
    simp only [hw1, h]
    split <;> simp
  · unfold updateRolePermissions
    simp only [hw2, hr, h]
    split <;> simp
  · unfold removePermissionsFromRole
    simp only [hw2, hr, h]
    split <;> simp

/-- C26, amended form at the member `u1` without any role permission, on role `r2` of
workspace `w1`: two arrays of equal length are answered 403. -/
theorem payload_checked_before_permission_witness :
    assignRolestoUsers sampleStore (sampleUnauthorisedReq []) (ArrayArg.array ["u2"])
        (ArrayArg.array ["r2"]) =
      (sampleStore, httpError 403 "Access Denied : USER_ROLE:CREATE required") :=
  (payload_checked_before_permission sampleGen (fun _ _ => RoleWrite.accepted) sampleStore
    (sampleUnauthorisedReq []) (ArrayArg.array ["u2"]) (ArrayArg.array ["r2"]) PermsArg.absent
    "w1" "r2" rfl (by decide) rfl (by decide)).2.1 (by decide)

/-- C26, as stated, fails: the member `u1`, who holds none of the permissions asked
for, is answered 400 and not 403 when the arrays of a bulk assignment are empty,
when `user_id` is missing in a replace or a removal, and when the `permissions`
array of a grant or a revoke is missing; with a well-formed payload the same caller
is answered 403. -/
theorem unauthorised_malformed_payload_400 :
    truthy (hasPerm (sampleUnauthorisedReq []) "USER_ROLE" "CREATE") = false ∧
    truthy (hasPerm (sampleUnauthorisedReq []) "USER_ROLE" "UPDATE") = false ∧
    truthy (hasPerm (sampleUnauthorisedReq []) "USER_ROLE" "DELETE") = false ∧
    truthy (hasPerm (sampleUnauthorisedReq []) "ROLE" "UPDATE") = false ∧
    (assignRolestoUsers sampleStore (sampleUnauthorisedReq []) (ArrayArg.array [])
        (ArrayArg.array [])).2.status = 400 ∧
    (updateAssignedRoleForUser sampleStore (sampleUnauthorisedReq [])).2.status = 400 ∧
    (removeAssignedRolesForUser sampleStore (sampleUnauthorisedReq [])).2.status = 400 ∧
    (updateRolePermissions sampleGen sampleStore (sampleUnauthorisedReq [])
        PermsArg.absent).2.status = 400 ∧
    (removePermissionsFromRole sampleStore (sampleUnauthorisedReq [])
        (PermsArg.array [])).2.status = 400 ∧
    (updateAssignedRoleForUser sampleStore
        (sampleUnauthorisedReq [("user_id", JsVal.str "u2"), ("role_id", JsVal.str "r2")])).2.status
      = 403 := by
  refine ⟨by decide, by decide, by decide, by decide, by decide, by decide, by decide,
    by decide, by decide, by decide⟩

/-! ## Replacing and revoking grants (C22, C23, C24) -/

theorem createRolePermissions_nil (table : List RolePermissionRow) :
    createRolePermissions table [] = table := rfl

/-- The test `permRows.length` before `createMany` changes nothing: without rows the
call inserts nothing. -/
theorem createRolePermissions_guard (table : List RolePermissionRow) (roleId : String)
    (permRows : List PermissionRow) :
    (if permRows.length ≠ 0 then createRolePermissions table (grantRows roleId permRows)
      else table) = createRolePermissions table (grantRows roleId permRows) := by
  cases permRows with
  | nil => rfl
  | cons p ps => simp

/-- The grant sets after the former grants of a role were deleted and the listed
pairs were ensured and linked: the role holds exactly the listed pairs, every other
role holds what it held. -/
theorem replaceGrants_spec (gen : Nat → String) (s0 s s' : Store) (n : Nat)
    (roleId : String) (pairs : List (String × String))
    (hfresh : generatedIdsFresh gen s0)
    (hpk : (s0.permission.map (fun p => p.id)).Nodup)
    (hperm : s.permission = s0.permission)
    (hperm' : s'.permission = (ensurePermissions gen s n pairs).1.permission)
    (hrp' : s'.rolePermission =
      createRolePermissions (s0.rolePermission.filter (fun rp => rp.role_id ≠ roleId))
        (grantRows roleId (ensurePermissions gen s n pairs).2)) :
    (∀ pair, pair ∈ grantsOf s' roleId ↔ pair ∈ pairs) ∧
    (∀ rid, rid ≠ roleId → grantsOf s' rid = grantsOf s0 rid) ∧
    s0.permission <+: s'.permission := by
  obtain ⟨hinj, hnew⟩ := hfresh
  obtain ⟨added, hadd, hids⟩ := ensurePermissions_append gen s n pairs
  have hpairs := ensurePermissions_pairs gen s n pairs
  have hmem := ensurePermissions_mem gen s n pairs
  have hnd : ((ensurePermissions gen s n pairs).1.permission.map (fun p => p.id)).Nodup :=
    ensurePermissions_nodup gen s n pairs hinj (by rw [hperm]; exact hpk)
      (fun k _ hk => by
        rw [hperm] at hk
        obtain ⟨p, hp, hpid⟩ := List.mem_map.1 hk
        exact hnew k (hpid ▸ mem_idsInUse_of_permission hp))
  obtain ⟨extra, hextra, hsub⟩ := createRolePermissions_append
    (s0.rolePermission.filter (fun rp => rp.role_id ≠ roleId))
    (grantRows roleId (ensurePermissions gen s n pairs).2)
  have hextra_role : ∀ r ∈ extra, r.role_id = roleId := by
    intro r hr
    obtain ⟨p, _, rfl⟩ := List.mem_map.1 (hsub r hr)
    rfl
  refine ⟨?_, ?_, ?_⟩
  · intro pair
    rw [mem_grantsOf, hrp', hperm']
    constructor
    · rintro ⟨rp, hrpmem, hrid, p, hfind, hpair⟩
      rw [mem_createRolePermissions] at hrpmem
      rcases hrpmem with h | h
      · have := (List.mem_filter.1 h).2
        simp [hrid] at this
      · obtain ⟨q, hq, rfl⟩ := List.mem_map.1 h
        simp only at hfind
        rw [find?_id_eq_of_mem _ q hnd (hmem q hq)] at hfind
        have hqp : q = p := Option.some.inj hfind
        rw [← hpairs, ← hpair, ← hqp]
        exact List.mem_map.2 ⟨q, hq, rfl⟩
    · intro hp
      rw [← hpairs] at hp
      obtain ⟨q, hq, hqp⟩ := List.mem_map.1 hp
      refine ⟨{ role_id := roleId, permission_id := q.id }, ?_, rfl, q, ?_, hqp⟩
      · rw [mem_createRolePermissions]
        exact Or.inr (List.mem_map.2 ⟨q, hq, rfl⟩)
      · exact find?_id_eq_of_mem _ q hnd (hmem q hq)
  · intro rid hrid
    unfold grantsOf
    rw [hrp', hperm', hextra, List.filter_append, List.filter_filter]
    have hnil : extra.filter (fun rp => rp.role_id = rid) = [] := by
      apply List.filter_eq_nil_iff.2
      intro r hr
      rw [decide_eq_true_eq, hextra_role r hr]
      exact fun h => hrid h.symm
    have hsame : s0.rolePermission.filter
          (fun rp => (decide (rp.role_id = rid) && decide (rp.role_id ≠ roleId))) =
        s0.rolePermission.filter (fun rp => rp.role_id = rid) := by
      apply List.filter_congr
      intro r _
      by_cases h : r.role_id = rid
      · simp [h, hrid]
      · simp [h]
    rw [hnil, List.append_nil, hsame]
    apply List.filterMap_congr
    intro rp hrpmem
    have hrp0 : rp ∈ s0.rolePermission := (List.mem_filter.1 hrpmem).1
    rw [hadd, hperm, List.find?_append]
    have hnone : added.find? (fun p => p.id = rp.permission_id) = none := by
      apply List.find?_eq_none.2
      intro p hp
      obtain ⟨k, _, hk⟩ := hids p hp
      simp only [decide_eq_true_eq]
      intro h
      exact hnew k (hk ▸ h ▸ (mem_idsInUse_of_rolePermission hrp0).2)
    rw [hnone]
    cases s0.permission.find? (fun p => p.id = rp.permission_id) <;> rfl
  · rw [hperm', hadd, hperm]
    exact List.prefix_append _ _

theorem collectPairs_pairEntry (pairs : List (String × String)) :
    collectPairs (pairs.map pairEntry) = Except.ok pairs := by
  induction pairs with
  | nil => rfl
  | cons p ps ih =>
    simp only [List.map_cons, collectPairs, ih]
    rfl

theorem entryPairs_pairEntry (pairs : List (String × String)) :
    entryPairs (pairs.map pairEntry) = Except.ok pairs := by
  unfold entryPairs
  have h : (pairs.map pairEntry).any (fun x => x.isNone) = false := by
    induction pairs with
    | nil => rfl
    | cons p ps ih => simpa [pairEntry] using ih
  rw [h]
  exact collectPairs_pairEntry pairs

theorem find?_isNone_false_of_mem {α : Type} (l : List α) (p : α → Bool) (a : α)
    (ha : a ∈ l) (hp : p a = true) : (l.find? p).isNone = false := by
  cases h : l.find? p with
  | none => exact absurd hp (by simpa using List.find?_eq_none.1 h a ha)
  | some _ => rfl

/-- The ids that `freshGen` gives are new in every store whose ids do not start with
the letter g. -/
theorem freshGen_fresh_of (s : Store)
    (h : ∀ x ∈ idsInUse s, x.data.head? ≠ some 'g') : generatedIdsFresh freshGen s := by
  constructor
  · exact freshGen_fresh.1
  · intro k hk
    exact h _ hk rfl

/-- The result of an authorised `updateRolePermissions` call with a non-empty array
of pairs for a role of the workspace. -/
theorem updateRolePermissions_ok (gen : Nat → String) (s : Store) (req : Req)
    (wid roleId : String) (pairs : List (String × String))
    (hwid : firstTruthy [req.params.wid, req.ctx.bind (fun c => c.workspaceId)] = some wid)
    (hrid : firstTruthy [req.params.roleId] = some roleId)
    (hperm : truthy (hasPerm req "ROLE" "UPDATE") = true)
    (hrole : ∃ r ∈ s.role, r.id = roleId ∧ r.workspace_id = wid)
    (hne : pairs ≠ []) :
    updateRolePermissions gen s req (PermsArg.array (pairs.map pairEntry)) =
      ({ (ensurePermissions gen
            { s with rolePermission := s.rolePermission.filter (fun rp => rp.role_id ≠ roleId) }
            0 pairs).1 with
         rolePermission :=
           createRolePermissions
             (ensurePermissions gen
               { s with rolePermission := s.rolePermission.filter (fun rp => rp.role_id ≠ roleId) }
               0 pairs).1.rolePermission
             (grantRows roleId (ensurePermissions gen
               { s with rolePermission := s.rolePermission.filter (fun rp => rp.role_id ≠ roleId) }
               0 pairs).2) },
       { status := 200, message := "Role permissions updated", payload := Payload.none }) := by
  obtain ⟨r, hr, h1, h2⟩ := hrole
  have hfind : (s.role.find? (fun r => r.id = roleId ∧ r.workspace_id = wid)).isNone = false :=
    find?_isNone_false_of_mem _ _ r hr (by simp [h1, h2])
  have hmiss : permsMissing (PermsArg.array (pairs.map pairEntry)) = false := by
    cases pairs with
    | nil => exact absurd rfl hne
    | cons p ps => simp [permsMissing]
  unfold updateRolePermissions
  simp only [hwid, hrid, hperm, hfind, hmiss, PermsArg.entries, entryPairs_pairEntry,
    createRolePermissions_guard]
  simp

/-- C23 (amended). For every authorised `updateRolePermissions` call for a role of
the workspace with a non-empty list P of pairs, in a store whose Permission ids are
distinct and with generated ids that are new: the call answers 200 and afterwards
the grant set of the role is exactly the set of pairs of P, so a former grant that
is not in P is gone; the grant set of every other role is unchanged, the former
Permission rows are kept and no other table changes. -/
theorem updateRolePermissions_replaces (gen : Nat → String) (s : Store) (req : Req)
    (wid roleId : String) (pairs : List (String × String))
    (hwid : firstTruthy [req.params.wid, req.ctx.bind (fun c => c.workspaceId)] = some wid)
    (hrid : firstTruthy [req.params.roleId] = some roleId)
    (hperm : truthy (hasPerm req "ROLE" "UPDATE") = true)
    (hrole : ∃ r ∈ s.role, r.id = roleId ∧ r.workspace_id = wid)
    (hne : pairs ≠ [])
    (hfresh : generatedIdsFresh gen s)
    (hpk : (s.permission.map (fun p => p.id)).Nodup) :
    (updateRolePermissions gen s req (PermsArg.array (pairs.map pairEntry))).2 =
      { status := 200, message := "Role permissions updated", payload := Payload.none } ∧
    (∀ pair, pair ∈ grantsOf
        (updateRolePermissions gen s req (PermsArg.array (pairs.map pairEntry))).1 roleId ↔
      pair ∈ pairs) ∧
    (∀ rid, rid ≠ roleId →
      grantsOf (updateRolePermissions gen s req (PermsArg.array (pairs.map pairEntry))).1 rid =
        grantsOf s rid) ∧
    s.permission <+:
      (updateRolePermissions gen s req (PermsArg.array (pairs.map pairEntry))).1.permission ∧
    (updateRolePermissions gen s req (PermsArg.array (pairs.map pairEntry))).1.role = s.role ∧
    (updateRolePermissions gen s req (PermsArg.array (pairs.map pairEntry))).1.userRole =
      s.userRole := by
  rw [updateRolePermissions_ok gen s req wid roleId pairs hwid hrid hperm hrole hne]
  have hframe := ensurePermissions_frame gen
    { s with rolePermission := s.rolePermission.filter (fun rp => rp.role_id ≠ roleId) } 0 pairs
  have hspec := fun s' => replaceGrants_spec gen s
    { s with rolePermission := s.rolePermission.filter (fun rp => rp.role_id ≠ roleId) } s'
    0 roleId pairs hfresh hpk rfl
  generalize ensurePermissions gen
    { s with rolePermission := s.rolePermission.filter (fun rp => rp.role_id ≠ roleId) }
    0 pairs = E at hframe hspec
  obtain ⟨f1, f2, f3, f4, f5, f6, f7, f8⟩ := hframe
  obtain ⟨h1, h2, h3⟩ := hspec
    { E.1 with rolePermission := createRolePermissions E.1.rolePermission (grantRows roleId E.2) }
    rfl (by rw [f4])
  exact ⟨rfl, h1, h2, h3, f3, f5⟩

/-- C23, amended form at role `r2` of workspace `w1`, which holds (TICKET, READ), and
the list with the one pair (TICKET, UPDATE): afterwards the role holds exactly that
pair. -/
theorem updateRolePermissions_replaces_witness :
    (updateRolePermissions freshGen grantedStore (sampleRoleReq "r2")
        (PermsArg.array ([("TICKET", "UPDATE")].map pairEntry))).2 =
      { status := 200, message := "Role permissions updated", payload := Payload.none } ∧
    ∀ pair, pair ∈ grantsOf
        (updateRolePermissions freshGen grantedStore (sampleRoleReq "r2")
          (PermsArg.array ([("TICKET", "UPDATE")].map pairEntry))).1 "r2" ↔
      pair ∈ [("TICKET", "UPDATE")] :=
  ⟨(updateRolePermissions_replaces freshGen grantedStore (sampleRoleReq "r2") "w1" "r2"
      [("TICKET", "UPDATE")] (by decide) (by decide) (by decide)
      ⟨{ id := "r2", workspace_id := "w1", name := "Dev", desc := none }, by decide, by decide⟩
      (by decide) (freshGen_fresh_of grantedStore (by decide)) (by decide)).1,
   (updateRolePermissions_replaces freshGen grantedStore (sampleRoleReq "r2") "w1" "r2"
      [("TICKET", "UPDATE")] (by decide) (by decide) (by decide)
      ⟨{ id := "r2", workspace_id := "w1", name := "Dev", desc := none }, by decide, by decide⟩
      (by decide) (freshGen_fresh_of grantedStore (by decide)) (by decide)).2.1⟩

/-- C23, as stated, fails: role `r2` holds (TICKET, READ); after an authorised
`updateRolePermissions` call with the list of the one pair (TICKET, UPDATE), which
answers 200, the role holds (TICKET, UPDATE) only: the former grant is gone. -/
theorem updateRolePermissions_drops_former_grants :
    grantsOf grantedStore "r2" = [("TICKET", "READ")] ∧
    (updateRolePermissions freshGen grantedStore (sampleRoleReq "r2")
        (PermsArg.array [pairEntry ("TICKET", "UPDATE")])).2.status = 200 ∧
    grantsOf (updateRolePermissions freshGen grantedStore (sampleRoleReq "r2")
        (PermsArg.array [pairEntry ("TICKET", "UPDATE")])).1 "r2" = [("TICKET", "UPDATE")] ∧
    ("TICKET", "READ") ∉
      grantsOf (updateRolePermissions freshGen grantedStore (sampleRoleReq "r2")
        (PermsArg.array [pairEntry ("TICKET", "UPDATE")])).1 "r2" := by
  refine ⟨by decide, by decide, by decide, by decide⟩

/-- The result of an authorised `updateRole` call whose role write the store takes,
with an array of pairs as `permissions`. -/
theorem updateRole_ok_array (gen : Nat → String) (roleWrite : Store → RoleRow → RoleWrite)
    (s : Store) (req : Req) (wid roleId : String) (role r2 : RoleRow)
    (pairs : List (String × String))
    (hwid : firstTruthy [req.params.wid, req.ctx.bind (fun c => c.workspaceId)] = some wid)
    (hrid : firstTruthy [req.params.roleId] = some roleId)
    (hperm : truthy (hasPerm req "ROLE" "UPDATE") = true)
    (hfind : s.role.find? (fun r => r.id = roleId ∧ r.workspace_id = wid) = some role)
    (hdata : roleUpdateData role req.body = some r2)
    (hwrite : roleWrite s r2 = RoleWrite.accepted) :
    updateRole gen roleWrite s req (PermsArg.array (pairs.map pairEntry)) =
      ({ (ensurePermissions gen
            { s with role := s.role.map (fun r => if r.id = role.id then r2 else r) }
            0 pairs).1 with
         rolePermission :=
           createRolePermissions
             ((ensurePermissions gen
               { s with role := s.role.map (fun r => if r.id = role.id then r2 else r) }
               0 pairs).1.rolePermission.filter (fun rp => rp.role_id ≠ role.id))
             (grantRows role.id (ensurePermissions gen
               { s with role := s.role.map (fun r => if r.id = role.id then r2 else r) }
               0 pairs).2) },
       { status := 200, message := "", payload := Payload.role r2 }) := by
  unfold updateRole
  simp only [hwid, hrid, hperm, hfind, hdata, hwrite, entryPairs_pairEntry,
    createRolePermissions_guard]
  simp

/-- The result of an authorised `updateRole` call whose role write the store takes,
without an array as `permissions`. -/
theorem updateRole_ok_no_array (gen : Nat → String) (roleWrite : Store → RoleRow → RoleWrite)
    (s : Store) (req : Req) (wid roleId : String) (role r2 : RoleRow) (perms : PermsArg)
    (hwid : firstTruthy [req.params.wid, req.ctx.bind (fun c => c.workspaceId)] = some wid)
    (hrid : firstTruthy [req.params.roleId] = some roleId)
    (hperm : truthy (hasPerm req "ROLE" "UPDATE") = true)
    (hfind : s.role.find? (fun r => r.id = roleId ∧ r.workspace_id = wid) = some role)
    (hdata : roleUpdateData role req.body = some r2)
    (hwrite : roleWrite s r2 = RoleWrite.accepted)
    (hno : perms = PermsArg.absent ∨ perms = PermsArg.notArray) :
    updateRole gen roleWrite s req perms =
      ({ s with role := s.role.map (fun r => if r.id = role.id then r2 else r) },
       { status := 200, message := "", payload := Payload.role r2 }) := by
  unfold updateRole
  rcases hno with h | h <;> subst h <;>
    simp only [hwid, hrid, hperm, hfind, hdata, hwrite] <;> simp

/-- C22. For every authorised `updateRole` call on a role of the workspace whose role
write the store takes, in a store whose Permission ids are distinct and with
generated ids that are new: the call answers 200; when the body carries an array P
of pairs as `permissions`, afterwards the grant set of the role is exactly the set
of pairs of P (so an empty P leaves no grant and a former grant outside P is gone);
when the body carries no array, the grant set of the role is what it was; in both
cases the grant set of every other role is unchanged. -/
theorem updateRole_replaces_grants (gen : Nat → String)
    (roleWrite : Store → RoleRow → RoleWrite) (s : Store) (req : Req) (wid roleId : String)
    (role r2 : RoleRow) (pairs : List (String × String)) (perms : PermsArg)
    (hwid : firstTruthy [req.params.wid, req.ctx.bind (fun c => c.workspaceId)] = some wid)
    (hrid : firstTruthy [req.params.roleId] = some roleId)
    (hperm : truthy (hasPerm req "ROLE" "UPDATE") = true)
    (hfind : s.role.find? (fun r => r.id = roleId ∧ r.workspace_id = wid) = some role)
    (hdata : roleUpdateData role req.body = some r2)
    (hwrite : roleWrite s r2 = RoleWrite.accepted)
    (hfresh : generatedIdsFresh gen s)
    (hpk : (s.permission.map (fun p => p.id)).Nodup) :
    ((updateRole gen roleWrite s req (PermsArg.array (pairs.map pairEntry))).2.status = 200 ∧
      (∀ pair, pair ∈ grantsOf
          (updateRole gen roleWrite s req (PermsArg.array (pairs.map pairEntry))).1 roleId ↔
        pair ∈ pairs) ∧
      (∀ rid, rid ≠ roleId →
        grantsOf (updateRole gen roleWrite s req (PermsArg.array (pairs.map pairEntry))).1 rid =
          grantsOf s rid)) ∧
    ((perms = PermsArg.absent ∨ perms = PermsArg.notArray) →
      (updateRole gen roleWrite s req perms).2.status = 200 ∧
      ∀ rid, grantsOf (updateRole gen roleWrite s req perms).1 rid = grantsOf s rid) := by
  have hid : role.id = roleId := by
    have := List.find?_some hfind
    simp only [decide_eq_true_eq] at this
    exact this.1
  constructor
  · rw [updateRole_ok_array gen roleWrite s req wid roleId role r2 pairs hwid hrid hperm hfind
      hdata hwrite]
    have hframe := ensurePermissions_frame gen
      { s with role := s.role.map (fun r => if r.id = role.id then r2 else r) } 0 pairs
    have hspec := fun s' => replaceGrants_spec gen s
      { s with role := s.role.map (fun r => if r.id = role.id then r2 else r) } s'
      0 roleId pairs hfresh hpk rfl
    generalize ensurePermissions gen
      { s with role := s.role.map (fun r => if r.id = role.id then r2 else r) }
      0 pairs = E at hframe hspec
    obtain ⟨f1, f2, f3, f4, f5, f6, f7, f8⟩ := hframe
    obtain ⟨T, hT⟩ : ∃ T, T = createRolePermissions
        (E.1.rolePermission.filter (fun rp => rp.role_id ≠ role.id)) (grantRows role.id E.2) :=
      ⟨_, rfl⟩
    rw [← hT]
    obtain ⟨h1, h2, _⟩ := hspec { E.1 with rolePermission := T } rfl (by rw [hT, f4, hid])
    exact ⟨rfl, h1, h2⟩
  · intro hno
    rw [updateRole_ok_no_array gen roleWrite s req wid roleId role r2 perms hwid hrid hperm hfind
      hdata hwrite hno]
    exact ⟨rfl, fun _ => rfl⟩

/-- C22 at role `r2` of workspace `w1`, which holds (TICKET, READ), with the array of
the one pair (TICKET, UPDATE) as `permissions`: afterwards the role holds exactly
that pair. -/
theorem updateRole_replaces_grants_witness :
    (updateRole freshGen (fun _ _ => RoleWrite.accepted) grantedStore (sampleRoleReq "r2")
        (PermsArg.array ([("TICKET", "UPDATE")].map pairEntry))).2.status = 200 ∧
    (∀ pair, pair ∈ grantsOf
        (updateRole freshGen (fun _ _ => RoleWrite.accepted) grantedStore (sampleRoleReq "r2")
          (PermsArg.array ([("TICKET", "UPDATE")].map pairEntry))).1 "r2" ↔
      pair ∈ [("TICKET", "UPDATE")]) ∧
    ∀ rid, rid ≠ "r2" →
      grantsOf
        (updateRole freshGen (fun _ _ => RoleWrite.accepted) grantedStore (sampleRoleReq "r2")
          (PermsArg.array ([("TICKET", "UPDATE")].map pairEntry))).1 rid =
        grantsOf grantedStore rid :=
  (updateRole_replaces_grants freshGen (fun _ _ => RoleWrite.accepted) grantedStore
    (sampleRoleReq "r2") "w1" "r2"
    { id := "r2", workspace_id := "w1", name := "Dev", desc := none }
    { id := "r2", workspace_id := "w1", name := "Dev", desc := none }
    [("TICKET", "UPDATE")] PermsArg.absent (by decide) (by decide) (by decide) (by decide)
    (by decide) rfl (freshGen_fresh_of grantedStore (by decide)) (by decide)).1

/-! ### Revoking -/

theorem collectFilters_pairEntry (pairs : List (String × String)) :
    collectFilters (pairs.map pairEntry) =
      Except.ok (pairs.map (fun pr => fun (p : PermissionRow) =>
        decide (p.entity = pr.1) && decide (p.operation = pr.2))) := by
  induction pairs with
  | nil => rfl
  | cons p ps ih =>
    simp only [List.map_cons, collectFilters, ih]
    rfl

theorem entryFilters_pairEntry (pairs : List (String × String)) :
    entryFilters (pairs.map pairEntry) =
      Except.ok (pairs.map (fun pr => fun (p : PermissionRow) =>
        decide (p.entity = pr.1) && decide (p.operation = pr.2))) := by
  unfold entryFilters
  have h : (pairs.map pairEntry).any (fun x => x.isNone) = false := by
    induction pairs with
    | nil => rfl
    | cons p ps ih => simpa [pairEntry] using ih
  rw [h]
  exact collectFilters_pairEntry pairs

theorem any_pairFilter (pairs : List (String × String)) (p : PermissionRow) :
    (pairs.map (fun pr => fun (p : PermissionRow) =>
        decide (p.entity = pr.1) && decide (p.operation = pr.2))).any (fun f => f p) = true ↔
      (p.entity, p.operation) ∈ pairs := by
  induction pairs with
  | nil => simp
  | cons pr ps ih =>
    simp only [List.map_cons, List.any_cons, Bool.or_eq_true, ih, List.mem_cons,
      Bool.and_eq_true, decide_eq_true_eq]
    constructor
    · rintro (⟨h1, h2⟩ | h)
      · exact Or.inl (Prod.ext h1 h2)
      · exact Or.inr h
    · rintro (h | h)
      · exact Or.inl ⟨congrArg Prod.fst h, congrArg Prod.snd h⟩
      · exact Or.inr h

theorem any_pairFilter_eq (pairs : List (String × String)) (p : PermissionRow) :
    (pairs.map (fun pr => fun (p : PermissionRow) =>
        decide (p.entity = pr.1) && decide (p.operation = pr.2))).any (fun f => f p) =
      decide ((p.entity, p.operation) ∈ pairs) := by
  rw [Bool.eq_iff_iff, any_pairFilter]
  simp

/-- The branch that an authorised `removePermissionsFromRole` call takes with a
non-empty array of pairs for a role of the workspace: 404 when no Permission row
carries a listed pair, otherwise 200, the RolePermission rows of the role that point
to such a row being removed. -/
theorem removePermissionsFromRole_ok (s : Store) (req : Req)
    (wid roleId : String) (pairs : List (String × String))
    (hwid : firstTruthy [req.params.wid, req.ctx.bind (fun c => c.workspaceId)] = some wid)
    (hrid : firstTruthy [req.params.roleId] = some roleId)
    (hperm : truthy (hasPerm req "ROLE" "UPDATE") = true)
    (hrole : ∃ r ∈ s.role, r.id = roleId ∧ r.workspace_id = wid)
    (hne : pairs ≠ []) :
    removePermissionsFromRole s req (PermsArg.array (pairs.map pairEntry)) =
      if (s.permission.filter (fun p => decide ((p.entity, p.operation) ∈ pairs))).length = 0 then
        (s, httpError 404 "No matching permissions found")
      else
        ({ s with rolePermission := s.rolePermission.filter (fun rp =>
              ¬ (rp.role_id = roleId ∧ rp.permission_id ∈
                (s.permission.filter
                  (fun p => decide ((p.entity, p.operation) ∈ pairs))).map (fun p => p.id))) },
         { status := 200, message := "Permissions removed from role",
           payload := Payload.none }) := by
  obtain ⟨r, hr, h1, h2⟩ := hrole
  have hfind : (s.role.find? (fun r => r.id = roleId ∧ r.workspace_id = wid)).isNone = false :=
    find?_isNone_false_of_mem _ _ r hr (by simp [h1, h2])
  have hmiss : permsMissing (PermsArg.array (pairs.map pairEntry)) = false := by
    cases pairs with
    | nil => exact absurd rfl hne
    | cons p ps => simp [permsMissing]
  unfold removePermissionsFromRole
  simp only [hwid, hrid, hperm, hfind, hmiss, PermsArg.entries, entryFilters_pairEntry,
    any_pairFilter_eq]
  simp

/-- C24. For every authorised `removePermissionsFromRole` call for a role of the
workspace with a non-empty list P of pairs, in a store whose Permission ids are
distinct: when some Permission row carries a pair of P the call answers 200 and
afterwards the grant set of the role is the former one without the pairs of P, the
grant set of every other role and the Permission table are unchanged, and so are
the roles and the Assignments; when no Permission row carries a pair of P the call
answers 404 and the store is the one given. -/
theorem removePermissionsFromRole_revokes (s : Store) (req : Req)
    (wid roleId : String) (pairs : List (String × String))
    (hwid : firstTruthy [req.params.wid, req.ctx.bind (fun c => c.workspaceId)] = some wid)
    (hrid : firstTruthy [req.params.roleId] = some roleId)
    (hperm : truthy (hasPerm req "ROLE" "UPDATE") = true)
    (hrole : ∃ r ∈ s.role, r.id = roleId ∧ r.workspace_id = wid)
    (hne : pairs ≠ [])
    (hpk : (s.permission.map (fun p => p.id)).Nodup) :
    ((∃ p ∈ s.permission, (p.entity, p.operation) ∈ pairs) →
      (removePermissionsFromRole s req (PermsArg.array (pairs.map pairEntry))).2 =
        { status := 200, message := "Permissions removed from role",
          payload := Payload.none } ∧
      (∀ pair, pair ∈ grantsOf
          (removePermissionsFromRole s req (PermsArg.array (pairs.map pairEntry))).1 roleId ↔
        pair ∈ grantsOf s roleId ∧ pair ∉ pairs) ∧
      (∀ rid, rid ≠ roleId →
        grantsOf (removePermissionsFromRole s req (PermsArg.array (pairs.map pairEntry))).1 rid =
          grantsOf s rid) ∧
      (removePermissionsFromRole s req (PermsArg.array (pairs.map pairEntry))).1.permission =
        s.permission ∧
      (removePermissionsFromRole s req (PermsArg.array (pairs.map pairEntry))).1.role = s.role ∧
      (removePermissionsFromRole s req (PermsArg.array (pairs.map pairEntry))).1.userRole =
        s.userRole) ∧
    ((∀ p ∈ s.permission, (p.entity, p.operation) ∉ pairs) →
      removePermissionsFromRole s req (PermsArg.array (pairs.map pairEntry)) =
        (s, httpError 404 "No matching permissions found")) := by
  rw [removePermissionsFromRole_ok s req wid roleId pairs hwid hrid hperm hrole hne]
  constructor
  · rintro ⟨p0, hp0, hp0pair⟩
    have hlen : ¬ (s.permission.filter
        (fun p => decide ((p.entity, p.operation) ∈ pairs))).length = 0 := by
      intro h
      have hnil := List.length_eq_zero.1 h
      have : p0 ∈ s.permission.filter (fun p => decide ((p.entity, p.operation) ∈ pairs)) :=
        List.mem_filter.2 ⟨hp0, by simpa using hp0pair⟩
      rw [hnil] at this
      exact absurd this (List.not_mem_nil _)
    rw [if_neg hlen]
    refine ⟨rfl, ?_, ?_, rfl, rfl, rfl⟩
    · intro pair
      rw [mem_grantsOf, mem_grantsOf]
      constructor
      · rintro ⟨rp, hrpmem, hrid', p, hfindp, hpair⟩
        have hrp := List.mem_filter.1 hrpmem
        refine ⟨⟨rp, hrp.1, hrid', p, hfindp, hpair⟩, ?_⟩
        intro hin
        have hpmem : p ∈ s.permission := List.mem_of_find?_eq_some hfindp
        have hpid : p.id = rp.permission_id := by simpa using List.find?_some hfindp
        have hkeep := hrp.2
        simp only [decide_not, Bool.not_eq_true', decide_eq_false_iff_not] at hkeep
        apply hkeep
        refine ⟨hrid', ?_⟩
        rw [← hpid]
        exact List.mem_map.2 ⟨p, List.mem_filter.2 ⟨hpmem, by simpa [hpair] using hin⟩, rfl⟩
      · rintro ⟨⟨rp, hrpmem, hrid', p, hfindp, hpair⟩, hnot⟩
        refine ⟨rp, ?_, hrid', p, hfindp, hpair⟩
        apply List.mem_filter.2
        refine ⟨hrpmem, ?_⟩
        simp only [decide_not, Bool.not_eq_true', decide_eq_false_iff_not]
        rintro ⟨_, hin⟩
        obtain ⟨q, hq, hqid⟩ := List.mem_map.1 hin
        have hq' := List.mem_filter.1 hq
        have hfq := find?_id_eq_of_mem s.permission q hpk hq'.1
        rw [hqid, hfindp] at hfq
        have hpq : p = q := Option.some.inj hfq
        apply hnot
        rw [← hpair, hpq]
        simpa using hq'.2
    · intro rid hrid'
      unfold grantsOf
      simp only
      rw [List.filter_filter]
      congr 1
      apply List.filter_congr
      intro rp _
      by_cases h : rp.role_id = rid
      · have hne' : rp.role_id ≠ roleId := by rw [h]; exact hrid'
        simp [h, hne', hrid']
      · simp [h]
  · intro hnone
    have hlen : (s.permission.filter
        (fun p => decide ((p.entity, p.operation) ∈ pairs))).length = 0 := by
      rw [List.length_eq_zero]
      apply List.filter_eq_nil_iff.2
      intro p hp
      simpa using hnone p hp
    rw [if_pos hlen]

/-- C24 at role `r2` of workspace `w1`, which holds (TICKET, READ), and the list with
the one pair (TICKET, READ): afterwards the role holds no pair of the list. -/
theorem removePermissionsFromRole_revokes_witness :
    (removePermissionsFromRole grantedStore (sampleRoleReq "r2")
        (PermsArg.array ([("TICKET", "READ")].map pairEntry))).2 =
      { status := 200, message := "Permissions removed from role", payload := Payload.none } ∧
    ∀ pair, pair ∈ grantsOf
        (removePermissionsFromRole grantedStore (sampleRoleReq "r2")
          (PermsArg.array ([("TICKET", "READ")].map pairEntry))).1 "r2" ↔
      pair ∈ grantsOf grantedStore "r2" ∧ pair ∉ [("TICKET", "READ")] :=
  ⟨((removePermissionsFromRole_revokes grantedStore (sampleRoleReq "r2") "w1" "r2"
      [("TICKET", "READ")] (by decide) (by decide) (by decide)
      ⟨{ id := "r2", workspace_id := "w1", name := "Dev", desc := none }, by decide, by decide⟩
      (by decide) (by decide)).1
      ⟨{ id := "p1", entity := "TICKET", operation := "READ" }, by decide, by decide⟩).1,
   ((removePermissionsFromRole_revokes grantedStore (sampleRoleReq "r2") "w1" "r2"
      [("TICKET", "READ")] (by decide) (by decide) (by decide)
      ⟨{ id := "r2", workspace_id := "w1", name := "Dev", desc := none }, by decide, by decide⟩
      (by decide) (by decide)).1
      ⟨{ id := "p1", entity := "TICKET", operation := "READ" }, by decide, by decide⟩).2.1⟩

/-! ## The reports of the bulk assignment (C25) -/

theorem distinct_nodup (l : List String) : (distinct l).Nodup := by
  induction l with
  | nil => exact List.nodup_nil
  | cons a l ih =>
    simp only [distinct]
    refine List.nodup_cons.2 ⟨?_, ih.filter _⟩
    intro h
    have := (List.mem_filter.1 h).2
    simp at this

theorem mem_invalidRoleIds (s : Store) (roles : List String) (wid x : String) :
    x ∈ (distinct roles).filter (fun rid =>
        rid ∉ (s.role.filter (fun r => r.id ∈ distinct roles ∧ r.workspace_id = wid)).map
          (fun r => r.id)) ↔
      x ∈ roles ∧ ¬ ∃ r ∈ s.role, r.id = x ∧ r.workspace_id = wid := by
  simp only [List.mem_filter, mem_distinct, decide_not, Bool.not_eq_true',
    decide_eq_false_iff_not, List.mem_map, decide_eq_true_eq]
  constructor
  · rintro ⟨hx, hno⟩
    refine ⟨hx, ?_⟩
    rintro ⟨r, hr, hid, hw⟩
    exact hno ⟨r, ⟨hr, by rw [hid]; exact hx, hw⟩, hid⟩
  · rintro ⟨hx, hno⟩
    refine ⟨hx, ?_⟩
    rintro ⟨r, ⟨hr, _, hw⟩, hid⟩
    exact hno ⟨r, hr, hid, hw⟩

theorem mem_missingUsers (s : Store) (users : List String) (x : String) :
    x ∈ (distinct users).filter (fun uid =>
        uid ∉ (s.users.filter (fun u => u.id ∈ distinct users)).map (fun u => u.id)) ↔
      x ∈ users ∧ ¬ ∃ u ∈ s.users, u.id = x := by
  simp only [List.mem_filter, mem_distinct, decide_not, Bool.not_eq_true',
    decide_eq_false_iff_not, List.mem_map, decide_eq_true_eq]
  constructor
  · rintro ⟨hx, hno⟩
    refine ⟨hx, ?_⟩
    rintro ⟨u, hu, hid⟩
    exact hno ⟨u, ⟨hu, by rw [hid]; exact hx⟩, hid⟩
  · rintro ⟨hx, hno⟩
    refine ⟨hx, ?_⟩
    rintro ⟨u, ⟨hu, _⟩, hid⟩
    exact hno ⟨u, hu, hid⟩

/-- C25. For every authorised bulk assignment on an existing workspace with two
non-empty lists of equal length: when a listed role is no role of the workspace the
call answers 404 and reports, each once, exactly the listed role ids that are no
roles of the workspace; when every listed role belongs to the workspace and a
listed user does not exist, it answers 404 and reports, each once, exactly the
listed user ids that do not exist; the store is the one given in both cases. -/
theorem assignRolestoUsers_reports_invalid (s : Store) (req : Req)
    (users roles : List String) (wid : String)
    (hlen : users.length = roles.length) (hne : users ≠ [])
    (hwid : workspaceIdOf req = some wid)
    (hperm : truthy (hasPerm req "USER_ROLE" "CREATE") = true)
    (hws : ∃ w ∈ s.workspace, w.id = wid) :
    ((∃ rid ∈ roles, ¬ ∃ r ∈ s.role, r.id = rid ∧ r.workspace_id = wid) →
      ∃ ids, assignRolestoUsers s req (ArrayArg.array users) (ArrayArg.array roles) =
          (s, { status := 404, message := "Some roles do not belong to this workspace",
                payload := Payload.ids ids }) ∧
        ids.Nodup ∧
        ∀ x, x ∈ ids ↔ x ∈ roles ∧ ¬ ∃ r ∈ s.role, r.id = x ∧ r.workspace_id = wid) ∧
    ((∀ rid ∈ roles, ∃ r ∈ s.role, r.id = rid ∧ r.workspace_id = wid) →
      (∃ uid ∈ users, ¬ ∃ u ∈ s.users, u.id = uid) →
      ∃ ids, assignRolestoUsers s req (ArrayArg.array users) (ArrayArg.array roles) =
          (s, { status := 404, message := "Some users were not found",
                payload := Payload.ids ids }) ∧
        ids.Nodup ∧
        ∀ x, x ∈ ids ↔ x ∈ users ∧ ¬ ∃ u ∈ s.users, u.id = x) := by
  have hfindws : (s.workspace.find? (fun w => w.id = wid)).isNone = false := by
    obtain ⟨w, hw, hwid'⟩ := hws
    exact find?_isNone_false_of_mem _ _ w hw (by simp [hwid'])
  have hcond : ¬ (users.length ≠ roles.length ∨ users.length = 0) := by
    rintro (h | h)
    · exact h hlen
    · exact hne (List.length_eq_zero.1 h)
  constructor
  · rintro ⟨rid, hrid, hno⟩
    have hinv : ((distinct roles).filter (fun rid =>
        rid ∉ (s.role.filter (fun r => r.id ∈ distinct roles ∧ r.workspace_id = wid)).map
          (fun r => r.id))).length ≠ 0 := by
      intro h
      have hmem := (mem_invalidRoleIds s roles wid rid).2 ⟨hrid, hno⟩
      rw [List.length_eq_zero.1 h] at hmem
      exact absurd hmem (List.not_mem_nil _)
    refine ⟨_, ?_, (distinct_nodup roles).filter _, mem_invalidRoleIds s roles wid⟩
    unfold assignRolestoUsers
    simp only [ArrayArg.toList?, hwid, hcond, hperm, hfindws, if_false,
      Bool.not_true, Bool.false_eq_true]
    rw [if_pos hinv]
  · rintro hroles ⟨uid, huid, hno⟩
    have hinv : ¬ ((distinct roles).filter (fun rid =>
        rid ∉ (s.role.filter (fun r => r.id ∈ distinct roles ∧ r.workspace_id = wid)).map
          (fun r => r.id))).length ≠ 0 := by
      intro h
      apply h
      rw [List.length_eq_zero]
      apply List.eq_nil_iff_forall_not_mem.2
      intro x hx
      have := (mem_invalidRoleIds s roles wid x).1 hx
      exact this.2 (hroles x this.1)
    have hmiss : ((distinct users).filter (fun uid =>
        uid ∉ (s.users.filter (fun u => u.id ∈ distinct users)).map (fun u => u.id))).length
          ≠ 0 := by
      intro h
      have hmem := (mem_missingUsers s users uid).2 ⟨huid, hno⟩
      rw [List.length_eq_zero.1 h] at hmem
      exact absurd hmem (List.not_mem_nil _)
    refine ⟨_, ?_, (distinct_nodup users).filter _, mem_missingUsers s users⟩
    unfold assignRolestoUsers
    simp only [ArrayArg.toList?, hwid, hcond, hperm, hfindws, if_false,
      Bool.not_true, Bool.false_eq_true]
    rw [if_neg hinv, if_pos hmiss]

/-- C25 at the workspace admin `u1` who lists the existing user `u2` with the role
id `r9`, which is no role of workspace `w1`: the call answers 404 and the report
holds exactly the listed ids that are no roles of the workspace. -/
theorem assignRolestoUsers_reports_invalid_witness :
    ∃ ids, assignRolestoUsers sampleStore (sampleAdminReq []) (ArrayArg.array ["u2"])
          (ArrayArg.array ["r9"]) =
        (sampleStore, { status := 404, message := "Some roles do not belong to this workspace",
                        payload := Payload.ids ids }) ∧
      ids.Nodup ∧
      ∀ x, x ∈ ids ↔ x ∈ ["r9"] ∧ ¬ ∃ r ∈ sampleStore.role, r.id = x ∧ r.workspace_id = "w1" :=
  (assignRolestoUsers_reports_invalid sampleStore (sampleAdminReq []) ["u2"] ["r9"] "w1" rfl
    (by decide) (by decide) (by decide)
    ⟨{ id := "w1", name := "Acme", created_by := "u0", admin_id := "u1" }, by decide, by decide⟩).1
    ⟨"r9", by decide, by decide⟩

/-! ## The columns that `updateTicket` writes (C27) -/

theorem mem_objKeys_setProp (o : JsObj) (k : String) (v : JsVal) (k' : String)
    (h : k' ∈ objKeys (setProp o k v)) : k' ∈ objKeys o ∨ k' = k := by
  unfold setProp at h
  split at h
  · unfold objKeys at h
    rw [List.map_map] at h
    obtain ⟨kv, hkv, rfl⟩ := List.mem_map.1 h
    by_cases hk : kv.1 = k
    · right
      simp [hk]
    · left
      simp only [Function.comp, hk, if_false]
      exact List.mem_map.2 ⟨kv, hkv, rfl⟩
  · unfold objKeys at h
    rw [List.map_append, List.mem_append] at h
    rcases h with h | h
    · exact Or.inl h
    · right
      simpa using h

theorem buildUpdateData_keys (D : DateLib) (body : JsObj) (ks : List String) (acc : JsObj)
    (hacc : ∀ k ∈ objKeys acc, k ∈ allowed) :
    ∀ k ∈ objKeys (buildUpdateData D body ks acc), k ∈ allowed := by
  induction ks generalizing acc with
  | nil => exact hacc
  | cons k ks ih =>
    unfold buildUpdateData
    split
    · exact ih acc hacc
    · rename_i hk
      have hk' : k ∈ allowed := not_not.1 hk
      split
      · rename_i hdue
        apply ih
        intro k' hk''
        rcases mem_objKeys_setProp _ _ _ _ hk'' with h | h
        · exact hacc k' h
        · rw [h]; decide
      · apply ih
        intro k' hk''
        rcases mem_objKeys_setProp _ _ _ _ hk'' with h | h
        · exact hacc k' h
        · rw [h]; exact hk'

theorem updateDataOf_keys (D : DateLib) (body : JsObj) :
    ∀ k ∈ objKeys (updateDataOf D body), k ∈ allowed :=
  buildUpdateData_keys D body (objKeys body) [] (by intro k hk; cases hk)

theorem setColumn_frame (row row' : TicketsRow) (k : String) (v : JsVal)
    (hk : k ∈ allowed ∨ k = "updated_by") (h : setColumn row k v = some row') :
    row'.id = row.id ∧ row'.workspace_id = row.workspace_id ∧
      row'.created_by = row.created_by := by
  have hcases : k = "title" ∨ k = "desc" ∨ k = "status" ∨ k = "priority" ∨
      k = "assigned_to" ∨ k = "due_date" ∨ k = "parent_id" ∨ k = "ticket_type" ∨
      k = "updated_by" := by
    rcases hk with hk | hk
    · simp only [allowed, List.mem_cons, List.mem_singleton, List.not_mem_nil, or_false] at hk
      tauto
    · tauto
  unfold setColumn at h
  rcases hcases with rfl | rfl | rfl | rfl | rfl | rfl | rfl | rfl | rfl <;>
    (split at h <;> simp at h <;> (try subst h) <;> exact ⟨rfl, rfl, rfl⟩)

theorem setColumns_frame (data : JsObj) (row row' : TicketsRow)
    (hk : ∀ k ∈ objKeys data, k ∈ allowed ∨ k = "updated_by")
    (h : setColumns row data = some row') :
    row'.id = row.id ∧ row'.workspace_id = row.workspace_id ∧
      row'.created_by = row.created_by := by
  induction data generalizing row with
  | nil =>
    simp only [setColumns, Option.some.injEq] at h
    subst h
    exact ⟨rfl, rfl, rfl⟩
  | cons kv rest ih =>
    obtain ⟨k, v⟩ := kv
    simp only [setColumns] at h
    cases hs : setColumn row k v with
    | none => simp [hs] at h
    | some r1 =>
      simp only [hs] at h
      have h1 := setColumn_frame row r1 k v (hk k (by simp [objKeys])) hs
      have h2 := ih r1 (fun k' hk' => hk k' (by
        simp only [objKeys, List.map_cons, List.mem_cons] at hk' ⊢
        exact Or.inr hk')) h
      exact ⟨h2.1.trans h1.1, h2.2.1.trans h1.2.1, h2.2.2.trans h1.2.2⟩

/-- What `updateTicket` does to the store: nothing, or the ticket write and the
History rows of a non-empty change list. -/
theorem updateTicket_cases (D : DateLib) (accepts : Store → TicketsRow → Bool) (s : Store)
    (req : Req) :
    (updateTicket D accepts s req).1 = s ∨
    ∃ current s1 t,
      getTicketAndAssertAccess s req.params.ticketId req.user.id = Except.ok current ∧
      validateUpdate s current req.body = none ∧
      ticketsUpdate accepts s req.params.ticketId
        (updateDataOf D req.body ++ [("updated_by", JsVal.str req.user.id)]) = some (s1, t) ∧
      (trackedFields.filterMap
        (changeOf D (updateDataOf D req.body) (oldNormSpec D current.toObj))).length ≠ 0 ∧
      updateTicket D accepts s req =
        (writeHistory D s1 t.workspace_id t.id req.user.id
            (trackedFields.filterMap
              (changeOf D (updateDataOf D req.body) (oldNormSpec D current.toObj))) "UPDATE",
         { status := 200, message := "Ticket updated", payload := Payload.ticket t }) := by
  unfold updateTicket
  simp only
  cases h1 : getTicketAndAssertAccess s req.params.ticketId req.user.id with
  | error e => exact Or.inl rfl
  | ok current =>
    simp only
    cases h2 : validateUpdate s current req.body with
    | some r => exact Or.inl rfl
    | none =>
      simp only [diffTicket_toObj]
      by_cases hlen : (trackedFields.filterMap
          (changeOf D (updateDataOf D req.body) (oldNormSpec D current.toObj))).length = 0
      · rw [if_pos hlen]
        exact Or.inl rfl
      · rw [if_neg hlen]
        cases h3 : ticketsUpdate accepts s req.params.ticketId
            (updateDataOf D req.body ++ [("updated_by", JsVal.str req.user.id)]) with
        | none => exact Or.inl rfl
        | some p =>
          obtain ⟨s1, t⟩ := p
          exact Or.inr ⟨current, s1, t, rfl, h2, rfl, hlen, rfl⟩

theorem eq_of_mem_of_ticket_id_eq (l : List TicketsRow) (hpk : (l.map (fun t => t.id)).Nodup)
    (a b : TicketsRow) (ha : a ∈ l) (hb : b ∈ l) (h : a.id = b.id) : a = b :=
  List.inj_on_of_nodup_map hpk ha hb h

/-- C27. For every store with distinct ticket ids and every request: the columns that
`updateTicket` hands to the ticket write are among title, desc, status, priority,
assigned_to, due_date, parent_id, ticket_type, plus updated_by; the id, the
workspace id and the creator of every ticket are the same before and after the
call; and the call appends to History only rows whose field is one of the columns
it writes. -/
theorem updateTicket_writes_allowed_columns (D : DateLib)
    (accepts : Store → TicketsRow → Bool) (s : Store) (req : Req)
    (hpk : (s.tickets.map (fun t => t.id)).Nodup) :
    (∀ k ∈ objKeys (updateDataOf D req.body ++ [("updated_by", JsVal.str req.user.id)]),
      k ∈ allowed ∨ k = "updated_by") ∧
    (updateTicket D accepts s req).1.tickets.map
        (fun t => (t.id, t.workspace_id, t.created_by)) =
      s.tickets.map (fun t => (t.id, t.workspace_id, t.created_by)) ∧
    ∃ rows, (updateTicket D accepts s req).1.history = s.history ++ rows ∧
      ∀ h ∈ rows, h.field_changed ∈ objKeys (updateDataOf D req.body) := by
  have hkeys : ∀ k ∈ objKeys (updateDataOf D req.body ++
      [("updated_by", JsVal.str req.user.id)]), k ∈ allowed ∨ k = "updated_by" := by
    intro k hk
    simp only [objKeys, List.map_append, List.map_cons, List.map_nil, List.mem_append,
      List.mem_singleton] at hk
    rcases hk with hk | hk
    · exact Or.inl (updateDataOf_keys D req.body k hk)
    · exact Or.inr hk
  refine ⟨hkeys, ?_⟩
  rcases updateTicket_cases D accepts s req with h | ⟨current, s1, t, _, _, hupd, hlen, heq⟩
  · rw [h]
    exact ⟨rfl, [], by simp, by intro h hh; cases hh⟩
  · rw [heq]
    unfold ticketsUpdate at hupd
    cases hf : s.tickets.find? (fun t => t.id = req.params.ticketId) with
    | none => simp [hf] at hupd
    | some row =>
      simp only [hf] at hupd
      cases hs : setColumns row
          (updateDataOf D req.body ++ [("updated_by", JsVal.str req.user.id)]) with
      | none => simp [hs] at hupd
      | some row' =>
        simp only [hs] at hupd
        split at hupd
        · simp only [Option.some.injEq, Prod.mk.injEq] at hupd
          obtain ⟨hs1, ht⟩ := hupd
          have hfr := setColumns_frame _ row row' hkeys hs
          have hrow : row ∈ s.tickets := List.mem_of_find?_eq_some hf
          have hrid : row.id = req.params.ticketId := by simpa using List.find?_some hf
          constructor
          · unfold writeHistory
            rw [if_neg hlen]
            simp only
            rw [← hs1]
            simp only [List.map_map]
            apply List.map_congr_left
            intro x hx
            simp only [Function.comp]
            by_cases hxid : x.id = req.params.ticketId
            · have hxr : x = row :=
                eq_of_mem_of_ticket_id_eq s.tickets hpk x row hx hrow (hxid.trans hrid.symm)
              rw [if_pos hxid, hfr.1, hfr.2.1, hfr.2.2, hxr]
            · rw [if_neg hxid]
          · refine ⟨historyRows D t.workspace_id t.id req.user.id
              (trackedFields.filterMap
                (changeOf D (updateDataOf D req.body) (oldNormSpec D current.toObj))) "UPDATE",
              ?_, ?_⟩
            · unfold writeHistory
              rw [if_neg hlen]
              simp only
              rw [← hs1]
            · intro h hh
              unfold historyRows at hh
              obtain ⟨c, hc, rfl⟩ := List.mem_map.1 hh
              obtain ⟨f, _, hcf⟩ := List.mem_filterMap.1 hc
              have := changeOf_field D _ _ f c hcf
              simp only
              rw [this.1]
              exact mem_objKeys_of_hasOwn this.2.2.2.1
        · simp at hupd

/-- C27 at the workspace admin `u1` who sends a new title together with another
workspace id for ticket `t1`: the ticket keeps its id, workspace id and creator. -/
theorem updateTicket_writes_allowed_columns_witness :
    (updateTicket sampleDates (fun _ _ => true) sampleStore
        (sampleAdminReq [("title", JsVal.str "New"), ("workspace_id", JsVal.str "w2")])).1.tickets.map
        (fun t => (t.id, t.workspace_id, t.created_by)) =
      sampleStore.tickets.map (fun t => (t.id, t.workspace_id, t.created_by)) :=
  (updateTicket_writes_allowed_columns sampleDates (fun _ _ => true) sampleStore
    (sampleAdminReq [("title", JsVal.str "New"), ("workspace_id", JsVal.str "w2")])
    (by decide)).2.1

/-! ## References of a written ticket (C28) -/

theorem validateCreate_status (s : Store) (wid : String) (body : JsObj) (r : Res)
    (h : validateCreate s wid body = some r) : r.status = 400 ∨ r.status = 500 := by
  unfold validateCreate at h
  simp only at h
  split at h
  · rename_i r' heq
    cases h
    repeat' split at heq
    all_goals first
      | (cases heq; first | exact Or.inl rfl | exact Or.inr rfl)
      | cases heq
  · repeat' split at h
    all_goals first
      | (cases h; first | exact Or.inl rfl | exact Or.inr rfl)
      | cases h

/-- What the passed validations of `createTicket` say about a truthy parent id and a
truthy assignee of the body. -/
theorem validateCreate_none (s : Store) (wid : String) (body : JsObj)
    (h : validateCreate s wid body = none) :
    (∀ p, getProp body "parent_id" = JsVal.str p → p ≠ "" →
      ∃ t ∈ s.tickets, t.id = p ∧ t.workspace_id = wid) ∧
    (∀ u, getProp body "assigned_to" = JsVal.str u → u ≠ "" → isMember s u wid) := by
  unfold validateCreate at h
  simp only at h
  constructor
  · intro p hp hne
    have htr : truthy (JsVal.str p) = true := by simpa [truthy] using hne
    rw [hp] at h
    simp only [htr, if_true] at h
    cases hf : s.tickets.find? (fun t => t.id = p) with
    | none => simp [hf] at h
    | some t =>
      simp only [hf] at h
      by_cases hw : t.workspace_id ≠ wid
      · simp [hw] at h
      · refine ⟨t, List.mem_of_find?_eq_some hf, by simpa using List.find?_some hf,
          not_not.1 hw⟩
  · intro u hu hne
    have htr : truthy (JsVal.str u) = true := by simpa [truthy] using hne
    split at h
    · cases h
    · rw [hu] at h
      simp only [htr, if_true] at h
      cases hf : s.userRole.find? (fun r => r.user_id = u ∧ r.workspace_id = wid) with
      | none => rw [hf] at h; cases h
      | some r =>
        have := List.find?_some hf
        simp only [decide_eq_true_eq] at this
        exact ⟨r, List.mem_of_find?_eq_some hf, this.1, this.2⟩

/-- What the passed validations of `updateTicket` say about a truthy parent id and a
truthy assignee of the body. -/
theorem validateUpdate_none (s : Store) (current : TicketsRow) (body : JsObj)
    (h : validateUpdate s current body = none) :
    (∀ p, getProp body "parent_id" = JsVal.str p → p ≠ "" →
      ∃ t ∈ s.tickets, t.id = p ∧ t.workspace_id = current.workspace_id) ∧
    (∀ u, getProp body "assigned_to" = JsVal.str u → u ≠ "" →
      isMember s u current.workspace_id) := by
  unfold validateUpdate at h
  simp only at h
  constructor
  · intro p hp hne
    have htr : truthy (JsVal.str p) = true := by simpa [truthy] using hne
    rw [hp] at h
    simp only [htr, if_true] at h
    cases hf : s.tickets.find? (fun t => t.id = p) with
    | none => simp [hf] at h
    | some t =>
      simp only [hf] at h
      by_cases hw : t.workspace_id ≠ current.workspace_id
      · simp [hw] at h
      · refine ⟨t, List.mem_of_find?_eq_some hf, by simpa using List.find?_some hf,
          not_not.1 hw⟩
  · intro u hu hne
    have htr : truthy (JsVal.str u) = true := by simpa [truthy] using hne
    split at h
    · cases h
    · rw [hu] at h
      simp only [htr, if_true] at h
      cases hf : s.userRole.find?
          (fun r => r.user_id = u ∧ r.workspace_id = current.workspace_id) with
      | none => rw [hf] at h; cases h
      | some r =>
        have := List.find?_some hf
        simp only [decide_eq_true_eq] at this
        exact ⟨r, List.mem_of_find?_eq_some hf, this.1, this.2⟩

/-- The validations of `createTicket` reject a parent id that names no ticket of the
workspace, and, for a body whose parent id is falsy or names a ticket of the
workspace, an assignee who holds no Assignment in the workspace. -/
theorem validateCreate_rejects (s : Store) (wid : String) (body : JsObj) :
    (∀ p, getProp body "parent_id" = JsVal.str p → p ≠ "" →
      (∀ t, s.tickets.find? (fun t => t.id = p) = some t → t.workspace_id ≠ wid) →
      validateCreate s wid body = some (httpError 400 "Invalid parent ticket for this workspace")) ∧
    (∀ u, getProp body "assigned_to" = JsVal.str u → u ≠ "" → ¬ isMember s u wid →
      (truthy (getProp body "parent_id") = false ∨
        ∃ p t, getProp body "parent_id" = JsVal.str p ∧
          s.tickets.find? (fun t => t.id = p) = some t ∧ t.workspace_id = wid) →
      validateCreate s wid body =
        some (httpError 400 "Assignee is not a member of this workspace")) := by
  constructor
  · intro p hp hne hno
    have htr : truthy (JsVal.str p) = true := by simpa [truthy] using hne
    unfold validateCreate
    simp only [hp, htr, if_true]
    cases hf : s.tickets.find? (fun t => t.id = p) with
    | none => rfl
    | some t => simp [hno t hf]
  · intro u hu hne hnm hparent
    have htr : truthy (JsVal.str u) = true := by simpa [truthy] using hne
    have hnone : s.userRole.find? (fun r => r.user_id = u ∧ r.workspace_id = wid) = none := by
      apply List.find?_eq_none.2
      intro r hr
      simp only [decide_eq_true_eq]
      exact fun h => hnm ⟨r, hr, h.1, h.2⟩
    unfold validateCreate
    rcases hparent with hfalse | ⟨p, t, hp, hf, hw⟩
    · simp only [hfalse, hu, htr, hnone, if_true, Bool.false_eq_true, if_false]
    · by_cases hptr : truthy (JsVal.str p) = true
      · simp only [hp, hptr, hf, hw, hu, htr, hnone, if_true, ne_eq, not_true_eq_false,
          if_false]
      · simp only [hp, hptr, hu, htr, hnone, if_true, if_false, Bool.false_eq_true]

/-- The validations of `updateTicket` reject a parent id that names no ticket of the
workspace of the ticket, and, for a body whose parent id is falsy or names a ticket
of that workspace, an assignee who holds no Assignment in it. -/
theorem validateUpdate_rejects (s : Store) (current : TicketsRow) (body : JsObj) :
    (∀ p, getProp body "parent_id" = JsVal.str p → p ≠ "" →
      (∀ t, s.tickets.find? (fun t => t.id = p) = some t →
        t.workspace_id ≠ current.workspace_id) →
      validateUpdate s current body =
        some (httpError 400 "Invalid parent ticket for this workspace")) ∧
    (∀ u, getProp body "assigned_to" = JsVal.str u → u ≠ "" →
      ¬ isMember s u current.workspace_id →
      (truthy (getProp body "parent_id") = false ∨
        ∃ p t, getProp body "parent_id" = JsVal.str p ∧
          s.tickets.find? (fun t => t.id = p) = some t ∧
          t.workspace_id = current.workspace_id) →
      validateUpdate s current body =
        some (httpError 400 "Assignee is not a member of this workspace")) := by
  constructor
  · intro p hp hne hno
    have htr : truthy (JsVal.str p) = true := by simpa [truthy] using hne
    unfold validateUpdate
    simp only [hp, htr, if_true]
    cases hf : s.tickets.find? (fun t => t.id = p) with
    | none => rfl
    | some t => simp [hno t hf]
  · intro u hu hne hnm hparent
    have htr : truthy (JsVal.str u) = true := by simpa [truthy] using hne
    have hnone : s.userRole.find?
        (fun r => r.user_id = u ∧ r.workspace_id = current.workspace_id) = none := by
      apply List.find?_eq_none.2
      intro r hr
      simp only [decide_eq_true_eq]
      exact fun h => hnm ⟨r, hr, h.1, h.2⟩
    unfold validateUpdate
    rcases hparent with hfalse | ⟨p, t, hp, hf, hw⟩
    · simp only [hfalse, hu, htr, hnone, if_true, Bool.false_eq_true, if_false]
    · by_cases hptr : truthy (JsVal.str p) = true
      · simp only [hp, hptr, hf, hw, hu, htr, hnone, if_true, ne_eq, not_true_eq_false,
          if_false]
      · simp only [hp, hptr, hu, htr, hnone, if_true, if_false, Bool.false_eq_true]

theorem setColumn_parent (row r1 : TicketsRow) (k : String) (v : JsVal)
    (h : setColumn row k v = some r1) :
    r1.parent_id = row.parent_id ∨
      (k = "parent_id" ∧ ((v = JsVal.null ∧ r1.parent_id = none) ∨
        ∃ x, v = JsVal.str x ∧ r1.parent_id = some x)) := by
  by_cases hk : k = "parent_id"
  · subst hk
    unfold setColumn at h
    split at h <;> simp at h
    · exact Or.inl (by rw [h])
    · exact Or.inr ⟨rfl, Or.inr ⟨_, rfl, by rw [← h]⟩⟩
    · exact Or.inr ⟨rfl, Or.inl ⟨rfl, by rw [← h]⟩⟩
  · left
    unfold setColumn at h
    repeat' split at h
    all_goals first
      | (cases h; rfl)
      | contradiction

theorem setColumn_assignee (row r1 : TicketsRow) (k : String) (v : JsVal)
    (h : setColumn row k v = some r1) :
    r1.assigned_to = row.assigned_to ∨
      (k = "assigned_to" ∧ ((v = JsVal.null ∧ r1.assigned_to = none) ∨
        ∃ x, v = JsVal.str x ∧ r1.assigned_to = some x)) := by
  by_cases hk : k = "assigned_to"
  · subst hk
    unfold setColumn at h
    split at h <;> simp at h
    · exact Or.inl (by rw [h])
    · exact Or.inr ⟨rfl, Or.inr ⟨_, rfl, by rw [← h]⟩⟩
    · exact Or.inr ⟨rfl, Or.inl ⟨rfl, by rw [← h]⟩⟩
  · left
    unfold setColumn at h
    repeat' split at h
    all_goals first
      | (cases h; rfl)
      | contradiction

theorem setColumns_parent (data : JsObj) (row row' : TicketsRow)
    (h : setColumns row data = some row') :
    row'.parent_id = row.parent_id ∨
      ∃ v, ("parent_id", v) ∈ data ∧ ((v = JsVal.null ∧ row'.parent_id = none) ∨
        ∃ x, v = JsVal.str x ∧ row'.parent_id = some x) := by
  induction data generalizing row with
  | nil =>
    simp only [setColumns, Option.some.injEq] at h
    subst h
    exact Or.inl rfl
  | cons kv rest ih =>
    obtain ⟨k, v⟩ := kv
    simp only [setColumns] at h
    cases hs : setColumn row k v with
    | none => simp [hs] at h
    | some r1 =>
      simp only [hs] at h
      rcases ih r1 h with h2 | ⟨v', hv', hcase⟩
      · rcases setColumn_parent row r1 k v hs with h1 | ⟨hk, hcase⟩
        · exact Or.inl (h2.trans h1)
        · right
          refine ⟨v, by rw [hk]; exact List.mem_cons_self _ _, ?_⟩
          rcases hcase with ⟨hv, hn⟩ | ⟨x, hv, hx⟩
          · exact Or.inl ⟨hv, h2.trans hn⟩
          · exact Or.inr ⟨x, hv, h2.trans hx⟩
      · exact Or.inr ⟨v', List.mem_cons_of_mem _ hv', hcase⟩

theorem setColumns_assignee (data : JsObj) (row row' : TicketsRow)
    (h : setColumns row data = some row') :
    row'.assigned_to = row.assigned_to ∨
      ∃ v, ("assigned_to", v) ∈ data ∧ ((v = JsVal.null ∧ row'.assigned_to = none) ∨
        ∃ x, v = JsVal.str x ∧ row'.assigned_to = some x) := by
  induction data generalizing row with
  | nil =>
    simp only [setColumns, Option.some.injEq] at h
    subst h
    exact Or.inl rfl
  | cons kv rest ih =>
    obtain ⟨k, v⟩ := kv
    simp only [setColumns] at h
    cases hs : setColumn row k v with
    | none => simp [hs] at h
    | some r1 =>
      simp only [hs] at h
      rcases ih r1 h with h2 | ⟨v', hv', hcase⟩
      · rcases setColumn_assignee row r1 k v hs with h1 | ⟨hk, hcase⟩
        · exact Or.inl (h2.trans h1)
        · right
          refine ⟨v, by rw [hk]; exact List.mem_cons_self _ _, ?_⟩
          rcases hcase with ⟨hv, hn⟩ | ⟨x, hv, hx⟩
          · exact Or.inl ⟨hv, h2.trans hn⟩
          · exact Or.inr ⟨x, hv, h2.trans hx⟩
      · exact Or.inr ⟨v', List.mem_cons_of_mem _ hv', hcase⟩

theorem mem_setProp (o : JsObj) (k : String) (v : JsVal) (kv : String × JsVal)
    (h : kv ∈ setProp o k v) : kv ∈ o ∨ kv = (k, v) := by
  unfold setProp at h
  split at h
  · obtain ⟨x, hx, rfl⟩ := List.mem_map.1 h
    by_cases hk : x.1 = k
    · right; simp [hk]
    · left; simpa [hk] using hx
  · rcases List.mem_append.1 h with h | h
    · exact Or.inl h
    · right; simpa using h

theorem buildUpdateData_values (D : DateLib) (body : JsObj) (ks : List String) (acc : JsObj)
    (hacc : ∀ kv ∈ acc, kv.1 ≠ "due_date" → kv.2 = getProp body kv.1) :
    ∀ kv ∈ buildUpdateData D body ks acc, kv.1 ≠ "due_date" → kv.2 = getProp body kv.1 := by
  induction ks generalizing acc with
  | nil => exact hacc
  | cons k ks ih =>
    unfold buildUpdateData
    split
    · exact ih acc hacc
    · split
      · rename_i hdue
        apply ih
        intro kv hkv hne
        rcases mem_setProp _ _ _ _ hkv with h | h
        · exact hacc kv h hne
        · rw [h] at hne
          exact absurd rfl hne
      · apply ih
        intro kv hkv hne
        rcases mem_setProp _ _ _ _ hkv with h | h
        · exact hacc kv h hne
        · rw [h]

theorem updateDataOf_values (D : DateLib) (body : JsObj) :
    ∀ kv ∈ updateDataOf D body, kv.1 ≠ "due_date" → kv.2 = getProp body kv.1 :=
  buildUpdateData_values D body (objKeys body) [] (by intro kv hkv; cases hkv)

/-! ### Dates on ticket rows (C9) -/

theorem buildUpdateData_due_date (D : DateLib) (body : JsObj) (ks : List String) (acc : JsObj)
    (hacc : ∀ kv ∈ acc, kv.1 = "due_date" → kv.2 ≠ JsVal.undefined) :
    ∀ kv ∈ buildUpdateData D body ks acc, kv.1 = "due_date" → kv.2 ≠ JsVal.undefined := by
  induction ks generalizing acc with
  | nil => exact hacc
  | cons k ks ih =>
    unfold buildUpdateData
    split
    · exact ih acc hacc
    · split
      · apply ih
        intro kv hkv hk
        rcases mem_setProp _ _ _ _ hkv with h | h
        · exact hacc kv h hk
        · rw [h]
          show (if truthy (getProp body "due_date") then
            JsVal.date (newDate D (getProp body "due_date")) else JsVal.null) ≠ JsVal.undefined
          split <;> simp
      · rename_i hdue
        apply ih
        intro kv hkv hk
        rcases mem_setProp _ _ _ _ hkv with h | h
        · exact hacc kv h hk
        · rw [h] at hk
          exact absurd hk hdue

theorem mem_of_lookup_eq_some (o : JsObj) (k : String) (v : JsVal)
    (h : o.lookup k = some v) : (k, v) ∈ o := by
  induction o with
  | nil => simp at h
  | cons kv o ih =>
    obtain ⟨a, b⟩ := kv
    by_cases hk : k = a
    · subst hk
      simp only [List.lookup_cons, beq_self_eq_true, Option.some.injEq] at h
      subst h
      exact List.mem_cons_self _ _
    · have hb : (k == a) = false := by simpa using hk
      rw [List.lookup_cons, hb] at h
      exact List.mem_cons_of_mem _ (ih h)

theorem truthy_due_date_toObj (t : TicketsRow) :
    truthy (getProp t.toObj "due_date") = true ↔ t.due_date ≠ none := by
  cases h : t.due_date <;> simp [TicketsRow.toObj, getProp, List.lookup, h, optDate, truthy]

/-- C9. For `due_date`, on every ticket row and every patch: `diffTicket` returns
normally; a current `due_date` that is absent (null) is compared as null; a patch
value that is null or denotes no date (an Invalid Date, an unparseable string)
normalizes to null, and against it the returned list has a `due_date` entry exactly
when the row has a due date, with new value null.  The patch value is never
`undefined`: `updateTicket` puts a `Date` or null in the patch. -/
theorem diffTicket_due_date_null (D : DateLib) (t : TicketsRow) (data : JsObj) :
    ∃ cs, diffTicket D t.toObj data = Except.ok cs ∧
      (t.due_date = none → oldNormOf D t.toObj "due_date" = Except.ok JsVal.null) ∧
      (∀ v, data.lookup "due_date" = some v → v ≠ JsVal.undefined →
        (v = JsVal.null ∨ newDate D v = none) →
        normalizeForCompare D "due_date" v = JsVal.null ∧
        ((∃ c ∈ cs, c.field = "due_date") ↔ t.due_date ≠ none) ∧
        (∀ c ∈ cs, c.field = "due_date" → c.val = JsVal.null)) ∧
      (∀ body v, (updateDataOf D body).lookup "due_date" = some v → v ≠ JsVal.undefined) := by
  obtain ⟨_, _, hpatch, hcur, hcmp⟩ := diffTicket_due_date_null_policy D t.toObj data
  refine ⟨_, diffTicket_toObj D t data, ?_, ?_, ?_⟩
  · intro hnone
    apply hcur
    have := (truthy_due_date_toObj t).not.2 (by simpa using hnone)
    simpa using this
  · intro v hv hu hcase
    have hcase' : v = JsVal.null ∨ (v ≠ JsVal.undefined ∧ newDate D v = none) := by
      rcases hcase with h | h
      · exact Or.inl h
      · exact Or.inr ⟨hu, h⟩
    obtain ⟨h1, h2⟩ := hcmp _ v (diffTicket_toObj D t data) hv hcase'
    refine ⟨?_, ?_, h2⟩
    · rcases hcase with h | h
      · rw [h]; rfl
      · exact hpatch v hu h
    · rw [h1]
      exact truthy_due_date_toObj t
  · intro body v hv
    exact buildUpdateData_due_date D body (objKeys body) [] (by intro kv hkv; cases hkv)
      ("due_date", v) (mem_of_lookup_eq_some _ _ _ hv) rfl

theorem ticketsUpdate_some (accepts : Store → TicketsRow → Bool) (s s1 : Store)
    (ticketId : String) (data : JsObj) (t : TicketsRow)
    (h : ticketsUpdate accepts s ticketId data = some (s1, t)) :
    ∃ row, s.tickets.find? (fun x => x.id = ticketId) = some row ∧
      setColumns row data = some t ∧ accepts s t = true ∧
      s1 = { s with tickets := s.tickets.map (fun x => if x.id = ticketId then t else x) } := by
  unfold ticketsUpdate at h
  cases hf : s.tickets.find? (fun x => x.id = ticketId) with
  | none => simp [hf] at h
  | some row =>
    simp only [hf] at h
    cases hs : setColumns row data with
    | none => simp [hs] at h
    | some row' =>
      simp only [hs] at h
      split at h
      · rename_i hacc
        simp only [Option.some.injEq, Prod.mk.injEq] at h
        obtain ⟨h1, h2⟩ := h
        subst h2
        exact ⟨row, rfl, hs, hacc, h1.symm⟩
      · cases h

theorem getTicketAndAssertAccess_inv (s : Store) (ticketId userId : String)
    (current : TicketsRow)
    (h : getTicketAndAssertAccess s ticketId userId = Except.ok current) :
    s.tickets.find? (fun t => t.id = ticketId) = some current ∧
      isMember s userId current.workspace_id := by
  unfold getTicketAndAssertAccess at h
  cases hf : s.tickets.find? (fun t => t.id = ticketId) with
  | none => simp [hf] at h
  | some t =>
    simp only [hf] at h
    unfold assertUserInWorkspace at h
    cases hm : s.userRole.find? (fun r => r.user_id = userId ∧ r.workspace_id = t.workspace_id) with
    | none => rw [hm] at h; cases h
    | some r =>
      rw [hm] at h
      simp only [Except.ok.injEq] at h
      subst h
      have := List.find?_some hm
      simp only [decide_eq_true_eq] at this
      exact ⟨rfl, r, List.mem_of_find?_eq_some hm, this.1, this.2⟩

theorem getTicketAndAssertAccess_error_status (s : Store) (ticketId userId : String)
    (e : JsError) (h : getTicketAndAssertAccess s ticketId userId = Except.error e) :
    e.status = some 404 ∨ e.status = some 403 := by
  unfold getTicketAndAssertAccess at h
  cases hf : s.tickets.find? (fun t => t.id = ticketId) with
  | none =>
    rw [hf] at h
    simp only [Except.error.injEq] at h
    subst h
    exact Or.inl rfl
  | some t =>
    simp only [hf] at h
    unfold assertUserInWorkspace at h
    cases hm : s.userRole.find? (fun r => r.user_id = userId ∧ r.workspace_id = t.workspace_id) with
    | none =>
      rw [hm] at h
      simp only [Except.error.injEq] at h
      subst h
      exact Or.inr rfl
    | some r => rw [hm] at h; cases h

theorem createTicketRow_refs (D : DateLib) (newId wid userId : String) (body : JsObj)
    (created : TicketsRow) (h : createTicketRow D newId wid userId body = some created) :
    created.workspace_id = wid ∧ created.id = newId ∧
    (created.parent_id = none ∨
      ∃ p, getProp body "parent_id" = JsVal.str p ∧ p ≠ "" ∧ created.parent_id = some p) ∧
    ∃ a, created.assigned_to = some a ∧
      (a = userId ∨ (getProp body "assigned_to" = JsVal.str a ∧ a ≠ "")) := by
  unfold createTicketRow at h
  simp only at h
  split at h
  · rename_i ty ti de st pr a d p h1 h2 h3 h4 h5 h6 h7 h8
    simp only [Option.some.injEq] at h
    subst h
    refine ⟨rfl, rfl, ?_, a, rfl, ?_⟩
    · by_cases hp : truthy (getProp body "parent_id") = true
      · rw [if_pos hp] at h8
        split at h8
        · rename_i x heq
          simp only [Option.some.injEq] at h8
          subst h8
          right
          refine ⟨x, heq, ?_, rfl⟩
          rw [heq] at hp
          simpa [truthy] using hp
        · cases h8
      · rw [if_neg hp] at h8
        simp only [Option.some.injEq] at h8
        subst h8
        exact Or.inl rfl
    · by_cases ha : truthy (getProp body "assigned_to") = true
      · rw [if_pos ha] at h6
        right
        refine ⟨h6, ?_⟩
        rw [h6] at ha
        simpa [truthy] using ha
      · rw [if_neg ha] at h6
        simp only [JsVal.str.injEq] at h6
        exact Or.inl h6.symm
  · cases h

/-- The result of a `createTicket` call that answers 201. -/
theorem createTicket_success (D : DateLib) (newId : String)
    (accepts : Store → TicketsRow → Bool) (s : Store) (req : Req)
    (hok : (createTicket D newId accepts s req).2.status = 201) :
    ∃ wid created,
      firstTruthy [req.params.wid, req.ctx.bind (fun c => c.workspaceId)] = some wid ∧
      isMember s req.user.id wid ∧
      validateCreate s wid req.body = none ∧
      createTicketRow D newId wid req.user.id req.body = some created ∧
      createTicket D newId accepts s req =
        (writeHistory D { s with tickets := s.tickets ++ [created] } wid created.id req.user.id
            (creationChanges req.user.id req.body) "CREATE",
         { status := 201, message := "Ticket created", payload := Payload.ticket created }) := by
  unfold createTicket at hok ⊢
  simp only at hok ⊢
  cases hw : firstTruthy [req.params.wid, req.ctx.bind (fun c => c.workspaceId)] with
  | none => rw [hw] at hok; cases hok
  | some wid =>
    simp only [hw] at hok ⊢
    cases ha : assertUserInWorkspace s req.user.id wid with
    | error e => rw [ha] at hok; cases hok
    | ok u =>
      simp only [ha] at hok ⊢
      have hmem : isMember s req.user.id wid := by
        unfold assertUserInWorkspace at ha
        cases hm : s.userRole.find? (fun r => r.user_id = req.user.id ∧ r.workspace_id = wid) with
        | none => rw [hm] at ha; cases ha
        | some r =>
          have := List.find?_some hm
          simp only [decide_eq_true_eq] at this
          exact ⟨r, List.mem_of_find?_eq_some hm, this.1, this.2⟩
      split at hok
      · cases hok
      · rename_i hreq
        rw [if_neg hreq]
        cases hv : validateCreate s wid req.body with
        | some r =>
          rw [hv] at hok
          simp only at hok
          rcases validateCreate_status s wid req.body r hv with h | h <;> rw [h] at hok <;>
            cases hok
        | none =>
          simp only [hv] at hok ⊢
          cases hr : createTicketRow D newId wid req.user.id req.body with
          | none => rw [hr] at hok; cases hok
          | some created =>
            simp only [hr] at hok ⊢
            split at hok
            · rename_i hacc
              rw [if_pos hacc]
              exact ⟨wid, created, rfl, hmem, hv, hr, rfl⟩
            · cases hok

theorem isMember_of_userRole_eq {s s' : Store} (h : s'.userRole = s.userRole) (u w : String) :
    isMember s' u w ↔ isMember s u w := by
  unfold isMember
  rw [h]

/-- The references of the ticket that a successful `createTicket` writes. -/
theorem createTicket_refs (D : DateLib) (newId : String)
    (accepts : Store → TicketsRow → Bool) (s : Store) (req : Req)
    (hok : (createTicket D newId accepts s req).2.status = 201) :
    ∃ t, (createTicket D newId accepts s req).2.payload = Payload.ticket t ∧
      (createTicket D newId accepts s req).1.tickets = s.tickets ++ [t] ∧
      parentOk (createTicket D newId accepts s req).1 t ∧
      ∃ u, t.assigned_to = some u ∧
        isMember (createTicket D newId accepts s req).1 u t.workspace_id := by
  obtain ⟨wid, created, hw, hmem, hv, hr, heq⟩ := createTicket_success D newId accepts s req hok
  obtain ⟨hws, _, hparent, a, ha, hacase⟩ :=
    createTicketRow_refs D newId wid req.user.id req.body created hr
  obtain ⟨hvp, hva⟩ := validateCreate_none s wid req.body hv
  rw [heq]
  have htk : (writeHistory D { s with tickets := s.tickets ++ [created] } wid created.id
      req.user.id (creationChanges req.user.id req.body) "CREATE").tickets =
      s.tickets ++ [created] := by
    unfold writeHistory
    split <;> rfl
  have hur : (writeHistory D { s with tickets := s.tickets ++ [created] } wid created.id
      req.user.id (creationChanges req.user.id req.body) "CREATE").userRole = s.userRole := by
    unfold writeHistory
    split <;> rfl
  refine ⟨created, rfl, htk, ?_, a, ha, ?_⟩
  · rcases hparent with h | ⟨p, hp, hne, hcp⟩
    · exact Or.inl h
    · obtain ⟨t, ht, hid, htw⟩ := hvp p hp hne
      right
      refine ⟨t, ?_, by rw [hcp, hid], by rw [htw, hws]⟩
      show t ∈ (writeHistory D _ wid created.id req.user.id _ "CREATE").tickets
      rw [htk]
      exact List.mem_append_left _ ht
  · rw [isMember_of_userRole_eq hur, hws]
    rcases hacase with h | ⟨hb, hne⟩
    · rw [h]; exact hmem
    · exact hva a hb hne

/-- The result of an `updateTicket` call that answers 200: the ticket as it was, for
an empty change list, or the written ticket. -/
theorem updateTicket_success (D : DateLib) (accepts : Store → TicketsRow → Bool) (s : Store)
    (req : Req) (hok : (updateTicket D accepts s req).2.status = 200) :
    ∃ current,
      getTicketAndAssertAccess s req.params.ticketId req.user.id = Except.ok current ∧
      validateUpdate s current req.body = none ∧
      (updateTicket D accepts s req =
          (s, { status := 200, message := "No changes", payload := Payload.ticket current }) ∨
        ∃ s1 t,
          ticketsUpdate accepts s req.params.ticketId
            (updateDataOf D req.body ++ [("updated_by", JsVal.str req.user.id)]) = some (s1, t) ∧
          updateTicket D accepts s req =
            (writeHistory D s1 t.workspace_id t.id req.user.id
                (trackedFields.filterMap
                  (changeOf D (updateDataOf D req.body) (oldNormSpec D current.toObj))) "UPDATE",
             { status := 200, message := "Ticket updated", payload := Payload.ticket t })) := by
  unfold updateTicket at hok ⊢
  simp only at hok ⊢
  cases h1 : getTicketAndAssertAccess s req.params.ticketId req.user.id with
  | error e =>
    rw [h1] at hok
    simp only [updateTicketFailure] at hok
    rcases getTicketAndAssertAccess_error_status s _ _ e h1 with h | h <;> rw [h] at hok <;>
      cases hok
  | ok current =>
    simp only [h1] at hok ⊢
    cases h2 : validateUpdate s current req.body with
    | some r =>
      rw [h2] at hok
      simp only at hok
      rcases validateUpdate_status s current req.body r h2 with h | h <;> rw [h] at hok <;>
        cases hok
    | none =>
      simp only [h2, diffTicket_toObj] at hok ⊢
      refine ⟨current, rfl, h2, ?_⟩
      by_cases hlen : (trackedFields.filterMap
          (changeOf D (updateDataOf D req.body) (oldNormSpec D current.toObj))).length = 0
      · rw [if_pos hlen]
        exact Or.inl rfl
      · rw [if_neg hlen] at hok ⊢
        cases h3 : ticketsUpdate accepts s req.params.ticketId
            (updateDataOf D req.body ++ [("updated_by", JsVal.str req.user.id)]) with
        | none =>
          rw [h3] at hok
          simp [updateTicketFailure, clientError] at hok
        | some p =>
          obtain ⟨s1, t⟩ := p
          exact Or.inr ⟨s1, t, rfl, rfl⟩

theorem map_replace_keys (l : List TicketsRow) (hpk : (l.map (fun t => t.id)).Nodup)
    (ticketId : String) (row t : TicketsRow) (hrow : row ∈ l) (hrid : row.id = ticketId)
    (h1 : t.id = row.id) (h2 : t.workspace_id = row.workspace_id)
    (h3 : t.created_by = row.created_by) :
    (l.map (fun x => if x.id = ticketId then t else x)).map
        (fun t => (t.id, t.workspace_id, t.created_by)) =
      l.map (fun t => (t.id, t.workspace_id, t.created_by)) := by
  rw [List.map_map]
  apply List.map_congr_left
  intro x hx
  simp only [Function.comp]
  by_cases hxid : x.id = ticketId
  · have hxr : x = row :=
      eq_of_mem_of_ticket_id_eq l hpk x row hx hrow (hxid.trans hrid.symm)
    rw [if_pos hxid, h1, h2, h3, hxr]
  · rw [if_neg hxid]

theorem exists_ticket_of_keys (l l' : List TicketsRow)
    (h : l'.map (fun t => (t.id, t.workspace_id, t.created_by)) =
      l.map (fun t => (t.id, t.workspace_id, t.created_by)))
    (p : TicketsRow) (hp : p ∈ l) :
    ∃ p' ∈ l', p'.id = p.id ∧ p'.workspace_id = p.workspace_id := by
  have hmem : (p.id, p.workspace_id, p.created_by) ∈
      l'.map (fun t => (t.id, t.workspace_id, t.created_by)) := by
    rw [h]
    exact List.mem_map.2 ⟨p, hp, rfl⟩
  obtain ⟨p', hp', heq⟩ := List.mem_map.1 hmem
  simp only [Prod.mk.injEq] at heq
  exact ⟨p', hp', heq.1, heq.2.1⟩

/-- The references of the ticket that a successful `updateTicket` answers with, in a
store with distinct ticket ids that takes no empty reference: each of the two is the
one the ticket had, or a checked one; a reference that was valid stays valid. -/
theorem updateTicket_refs (D : DateLib) (accepts : Store → TicketsRow → Bool) (s : Store)
    (req : Req) (hpk : (s.tickets.map (fun t => t.id)).Nodup)
    (hempty : rejectsEmptyRefs accepts)
    (hok : (updateTicket D accepts s req).2.status = 200) :
    ∃ current t, s.tickets.find? (fun t => t.id = req.params.ticketId) = some current ∧
      (updateTicket D accepts s req).2.payload = Payload.ticket t ∧
      (t.parent_id = current.parent_id ∨ parentOk (updateTicket D accepts s req).1 t) ∧
      (t.assigned_to = current.assigned_to ∨ assigneeOk (updateTicket D accepts s req).1 t) ∧
      (parentOk s current → parentOk (updateTicket D accepts s req).1 t) ∧
      (assigneeOk s current → assigneeOk (updateTicket D accepts s req).1 t) := by
  obtain ⟨current, hget, hval, hcase⟩ := updateTicket_success D accepts s req hok
  obtain ⟨hfind, _⟩ := getTicketAndAssertAccess_inv s _ _ current hget
  obtain ⟨hvp, hva⟩ := validateUpdate_none s current req.body hval
  rcases hcase with heq | ⟨s1, t, hupd, heq⟩
  · rw [heq]
    exact ⟨current, current, hfind, rfl, Or.inl rfl, Or.inl rfl, fun h => h, fun h => h⟩
  · rw [heq]
    obtain ⟨row, hfind', hset, hacc, hs1⟩ := ticketsUpdate_some accepts s s1 _ _ t hupd
    have hrow : row = current := Option.some.inj (hfind'.symm.trans hfind)
    subst hrow
    have hkeys : ∀ k ∈ objKeys (updateDataOf D req.body ++
        [("updated_by", JsVal.str req.user.id)]), k ∈ allowed ∨ k = "updated_by" := by
      intro k hk
      simp only [objKeys, List.map_append, List.map_cons, List.map_nil, List.mem_append,
        List.mem_singleton] at hk
      rcases hk with hk | hk
      · exact Or.inl (updateDataOf_keys D req.body k hk)
      · exact Or.inr hk
    obtain ⟨f1, f2, f3⟩ := setColumns_frame _ row t hkeys hset
    have hrowmem : row ∈ s.tickets := List.mem_of_find?_eq_some hfind
    have hrid : row.id = req.params.ticketId := by simpa using List.find?_some hfind
    have htk : (writeHistory D s1 t.workspace_id t.id req.user.id
        (trackedFields.filterMap
          (changeOf D (updateDataOf D req.body) (oldNormSpec D row.toObj))) "UPDATE").tickets =
        s.tickets.map (fun x => if x.id = req.params.ticketId then t else x) := by
      rw [hs1]
      unfold writeHistory
      split <;> rfl
    have hur : (writeHistory D s1 t.workspace_id t.id req.user.id
        (trackedFields.filterMap
          (changeOf D (updateDataOf D req.body) (oldNormSpec D row.toObj))) "UPDATE").userRole =
        s.userRole := by
      rw [hs1]
      unfold writeHistory
      split <;> rfl
    have hmap := map_replace_keys s.tickets hpk req.params.ticketId row t hrowmem hrid f1 f2 f3
    have hentry : ∀ k v, k ≠ "updated_by" → k ≠ "due_date" →
        (k, v) ∈ updateDataOf D req.body ++ [("updated_by", JsVal.str req.user.id)] →
        v = getProp req.body k := by
      intro k v hk1 hk2 hmem
      rcases List.mem_append.1 hmem with h | h
      · exact updateDataOf_values D req.body (k, v) h hk2
      · simp only [List.mem_singleton, Prod.mk.injEq] at h
        exact absurd h.1 hk1
    have hnoempty := hempty s t hacc
    have transfer : ∀ x, (∃ p ∈ s.tickets, p.id = x ∧ p.workspace_id = row.workspace_id) →
          t.parent_id = some x → parentOk (writeHistory D s1 t.workspace_id t.id req.user.id
            (trackedFields.filterMap
              (changeOf D (updateDataOf D req.body) (oldNormSpec D row.toObj))) "UPDATE") t := by
        rintro x ⟨p, hp, hpid, hpw⟩ htp
        obtain ⟨p', hp', hid', hw'⟩ := exists_ticket_of_keys s.tickets _ hmap p hp
        right
        refine ⟨p', ?_, by rw [htp, hid', hpid], by rw [hw', hpw, f2]⟩
        rw [htk]
        exact hp'
    have hpar : t.parent_id = row.parent_id ∨
        parentOk (writeHistory D s1 t.workspace_id t.id req.user.id
          (trackedFields.filterMap
            (changeOf D (updateDataOf D req.body) (oldNormSpec D row.toObj))) "UPDATE") t := by
      rcases setColumns_parent _ row t hset with h | ⟨v, hv, hcase⟩
      · exact Or.inl h
      · right
        rcases hcase with ⟨_, hn⟩ | ⟨x, hvx, htx⟩
        · exact Or.inl hn
        · have hb := hentry "parent_id" v (by decide) (by decide) hv
          have hxne : x ≠ "" := by
            intro hx
            rw [hx] at htx
            exact hnoempty.1 htx
          exact transfer x (hvp x (by rw [← hb, hvx]) hxne) htx
    have hasg : t.assigned_to = row.assigned_to ∨
        assigneeOk (writeHistory D s1 t.workspace_id t.id req.user.id
          (trackedFields.filterMap
            (changeOf D (updateDataOf D req.body) (oldNormSpec D row.toObj))) "UPDATE") t := by
      rcases setColumns_assignee _ row t hset with h | ⟨v, hv, hcase⟩
      · exact Or.inl h
      · right
        intro u hu
        rw [isMember_of_userRole_eq hur, f2]
        rcases hcase with ⟨_, hn⟩ | ⟨x, hvx, htx⟩
        · rw [hn] at hu
          cases hu
        · have hb := hentry "assigned_to" v (by decide) (by decide) hv
          have hxu : x = u := Option.some.inj (htx.symm.trans hu)
          have hxne : x ≠ "" := by
            intro hx
            rw [hx] at htx
            exact hnoempty.2 htx
          rw [← hxu]
          exact hva x (by rw [← hb, hvx]) hxne
    refine ⟨row, t, hfind, rfl, hpar, hasg, ?_, ?_⟩
    · intro hpar0
      rcases hpar with h | h
      · rcases hpar0 with h0 | ⟨p, hp, hpid, hpw⟩
        · exact Or.inl (h.trans h0)
        · exact transfer p.id ⟨p, hp, rfl, hpw⟩ (h.trans hpid)
      · exact h
    · intro hasg0
      rcases hasg with h | h
      · intro u hu
        rw [isMember_of_userRole_eq hur, f2]
        exact hasg0 u (h ▸ hu)
      · exact h

theorem rejectsEmptyRefs_sampleAccepts : rejectsEmptyRefs sampleAccepts := by
  intro s row h
  simpa [sampleAccepts] using h

/-- The answer of `createTicket` to a member who sends the required fields when the
validations of the parent and the assignee give a response. -/
theorem createTicket_validation (D : DateLib) (newId : String)
    (accepts : Store → TicketsRow → Bool) (s : Store) (req : Req) (wid : String) (r : Res)
    (hwid : firstTruthy [req.params.wid, req.ctx.bind (fun c => c.workspaceId)] = some wid)
    (hmem : isMember s req.user.id wid)
    (hreq : truthy (getProp req.body "title") = true ∧ truthy (getProp req.body "desc") = true ∧
      truthy (getProp req.body "priority") = true ∧
      truthy (getProp req.body "ticket_type") = true)
    (hv : validateCreate s wid req.body = some r) :
    createTicket D newId accepts s req = (s, r) := by
  have ha : assertUserInWorkspace s req.user.id wid = Except.ok () :=
    (assertUserInWorkspace_ok_iff s req.user.id wid).2 hmem
  unfold createTicket
  simp only [hwid, ha, hreq.1, hreq.2.1, hreq.2.2.1, hreq.2.2.2, hv, Bool.not_true,
    Bool.or_self, Bool.false_eq_true, if_false]

/-- The answer of `updateTicket` to a member of the workspace of the ticket when the
validations of the parent and the assignee give a response. -/
theorem updateTicket_validation (D : DateLib) (accepts : Store → TicketsRow → Bool)
    (s : Store) (req : Req) (current : TicketsRow) (r : Res)
    (hfind : s.tickets.find? (fun t => t.id = req.params.ticketId) = some current)
    (hmem : isMember s req.user.id current.workspace_id)
    (hv : validateUpdate s current req.body = some r) :
    updateTicket D accepts s req = (s, r) := by
  unfold updateTicket
  simp only [getTicketAndAssertAccess_ok s _ _ current hfind hmem, hv]

/-- C28 (amended). In a store with distinct ticket ids that takes no empty string as
a reference: a `createTicket` call that answers 201 appends one ticket whose parent
is null or a ticket of the same workspace and whose assignee holds an Assignment in
that workspace; an `updateTicket` call that answers 200 answers with a ticket of
which each of the two references is the one the ticket had, or a checked one (a
parent that is null or a ticket of the same workspace, an assignee that is null or
holds an Assignment in the workspace), so that a reference that was valid stays
valid; and for a member who sends the required fields, both handlers answer 400 and
leave the store as it is when the body names a parent that is no ticket of the
workspace, or, the parent being absent or valid, an assignee without Assignment in
the workspace. -/
theorem ticket_refs_valid (D : DateLib) (newId : String)
    (accepts : Store → TicketsRow → Bool) (s : Store) (req : Req)
    (hpk : (s.tickets.map (fun t => t.id)).Nodup)
    (hempty : rejectsEmptyRefs accepts) :
    ((createTicket D newId accepts s req).2.status = 201 →
      ∃ t, (createTicket D newId accepts s req).2.payload = Payload.ticket t ∧
        (createTicket D newId accepts s req).1.tickets = s.tickets ++ [t] ∧
        parentOk (createTicket D newId accepts s req).1 t ∧
        ∃ u, t.assigned_to = some u ∧
          isMember (createTicket D newId accepts s req).1 u t.workspace_id) ∧
    ((updateTicket D accepts s req).2.status = 200 →
      ∃ current t, s.tickets.find? (fun t => t.id = req.params.ticketId) = some current ∧
        (updateTicket D accepts s req).2.payload = Payload.ticket t ∧
        (t.parent_id = current.parent_id ∨ parentOk (updateTicket D accepts s req).1 t) ∧
        (t.assigned_to = current.assigned_to ∨
          assigneeOk (updateTicket D accepts s req).1 t) ∧
        (parentOk s current → parentOk (updateTicket D accepts s req).1 t) ∧
        (assigneeOk s current → assigneeOk (updateTicket D accepts s req).1 t)) ∧
    (∀ wid,
      firstTruthy [req.params.wid, req.ctx.bind (fun c => c.workspaceId)] = some wid →
      isMember s req.user.id wid →
      (truthy (getProp req.body "title") = true ∧ truthy (getProp req.body "desc") = true ∧
        truthy (getProp req.body "priority") = true ∧
        truthy (getProp req.body "ticket_type") = true) →
      (∀ p, getProp req.body "parent_id" = JsVal.str p → p ≠ "" →
        (∀ t, s.tickets.find? (fun t => t.id = p) = some t → t.workspace_id ≠ wid) →
        createTicket D newId accepts s req =
          (s, httpError 400 "Invalid parent ticket for this workspace")) ∧
      (∀ u, getProp req.body "assigned_to" = JsVal.str u → u ≠ "" → ¬ isMember s u wid →
        (truthy (getProp req.body "parent_id") = false ∨
          ∃ p t, getProp req.body "parent_id" = JsVal.str p ∧
            s.tickets.find? (fun t => t.id = p) = some t ∧ t.workspace_id = wid) →
        createTicket D newId accepts s req =
          (s, httpError 400 "Assignee is not a member of this workspace"))) ∧
    (∀ current, s.tickets.find? (fun t => t.id = req.params.ticketId) = some current →
      isMember s req.user.id current.workspace_id →
      (∀ p, getProp req.body "parent_id" = JsVal.str p → p ≠ "" →
        (∀ t, s.tickets.find? (fun t => t.id = p) = some t →
          t.workspace_id ≠ current.workspace_id) →
        updateTicket D accepts s req =
          (s, httpError 400 "Invalid parent ticket for this workspace")) ∧
      (∀ u, getProp req.body "assigned_to" = JsVal.str u → u ≠ "" →
        ¬ isMember s u current.workspace_id →
        (truthy (getProp req.body "parent_id") = false ∨
          ∃ p t, getProp req.body "parent_id" = JsVal.str p ∧
            s.tickets.find? (fun t => t.id = p) = some t ∧
            t.workspace_id = current.workspace_id) →
        updateTicket D accepts s req =
          (s, httpError 400 "Assignee is not a member of this workspace"))) := by
  refine ⟨fun hok => createTicket_refs D newId accepts s req hok,
    fun hok => updateTicket_refs D accepts s req hpk hempty hok, ?_, ?_⟩
  · intro wid hwid hmem hreq
    exact ⟨fun p hp hne hno =>
        createTicket_validation D newId accepts s req wid _ hwid hmem hreq
          ((validateCreate_rejects s wid req.body).1 p hp hne hno),
      fun u hu hne hnm hparent =>
        createTicket_validation D newId accepts s req wid _ hwid hmem hreq
          ((validateCreate_rejects s wid req.body).2 u hu hne hnm hparent)⟩
  · intro current hfind hmem
    exact ⟨fun p hp hne hno =>
        updateTicket_validation D accepts s req current _ hfind hmem
          ((validateUpdate_rejects s current req.body).1 p hp hne hno),
      fun u hu hne hnm hparent =>
        updateTicket_validation D accepts s req current _ hfind hmem
          ((validateUpdate_rejects s current req.body).2 u hu hne hnm hparent)⟩

/-- C28 (amended) at the workspace admin `u1`: creating a ticket under the parent
`t1` in workspace `w1` answers 201 with a ticket that has a parent in the same
workspace and a member as assignee; and re-assigning ticket `t1` to `u1` answers 200
with a ticket whose assignee is checked and whose parent is the one it had. -/
theorem ticket_refs_valid_witness :
    ((createTicket sampleDates "t3" sampleAccepts sampleStore
        (sampleAdminReq (sampleTicketBody [("parent_id", JsVal.str "t1")]))).2.status = 201 ∧
    ∃ t, (createTicket sampleDates "t3" sampleAccepts sampleStore
          (sampleAdminReq (sampleTicketBody [("parent_id", JsVal.str "t1")]))).2.payload =
        Payload.ticket t ∧
      (createTicket sampleDates "t3" sampleAccepts sampleStore
          (sampleAdminReq (sampleTicketBody [("parent_id", JsVal.str "t1")]))).1.tickets =
        sampleStore.tickets ++ [t] ∧
      parentOk (createTicket sampleDates "t3" sampleAccepts sampleStore
          (sampleAdminReq (sampleTicketBody [("parent_id", JsVal.str "t1")]))).1 t ∧
      ∃ u, t.assigned_to = some u ∧
        isMember (createTicket sampleDates "t3" sampleAccepts sampleStore
          (sampleAdminReq (sampleTicketBody [("parent_id", JsVal.str "t1")]))).1 u
          t.workspace_id) ∧
    ((updateTicket sampleDates sampleAccepts staleAssigneeStore
        (sampleAdminReq [("assigned_to", JsVal.str "u1")])).2.status = 200 ∧
    ∃ current t,
      staleAssigneeStore.tickets.find? (fun t => t.id = "t1") = some current ∧
      (updateTicket sampleDates sampleAccepts staleAssigneeStore
        (sampleAdminReq [("assigned_to", JsVal.str "u1")])).2.payload = Payload.ticket t ∧
      (t.parent_id = current.parent_id ∨
        parentOk (updateTicket sampleDates sampleAccepts staleAssigneeStore
          (sampleAdminReq [("assigned_to", JsVal.str "u1")])).1 t) ∧
      (t.assigned_to = current.assigned_to ∨
        assigneeOk (updateTicket sampleDates sampleAccepts staleAssigneeStore
          (sampleAdminReq [("assigned_to", JsVal.str "u1")])).1 t) ∧
      (parentOk staleAssigneeStore current →
        parentOk (updateTicket sampleDates sampleAccepts staleAssigneeStore
          (sampleAdminReq [("assigned_to", JsVal.str "u1")])).1 t) ∧
      (assigneeOk staleAssigneeStore current →
        assigneeOk (updateTicket sampleDates sampleAccepts staleAssigneeStore
          (sampleAdminReq [("assigned_to", JsVal.str "u1")])).1 t)) :=
  ⟨⟨by decide,
    (ticket_refs_valid sampleDates "t3" sampleAccepts sampleStore
      (sampleAdminReq (sampleTicketBody [("parent_id", JsVal.str "t1")])) (by decide)
      rejectsEmptyRefs_sampleAccepts).1 (by decide)⟩,
   ⟨by decide,
    (ticket_refs_valid sampleDates "t3" sampleAccepts staleAssigneeStore
      (sampleAdminReq [("assigned_to", JsVal.str "u1")]) (by decide)
      rejectsEmptyRefs_sampleAccepts).2.1 (by decide)⟩⟩

/-- C28, as stated, fails for `updateTicket`: ticket `t1` is assigned to `u2`, whose
Assignment in workspace `w1` was removed afterwards; an update of the title by the
workspace admin answers 200 and leaves the ticket with the assignee `u2`, who holds
no Assignment in the workspace. -/
theorem updateTicket_keeps_stale_assignee :
    (∃ t ∈ staleAssigneeStore.tickets, t.id = "t1" ∧ t.assigned_to = some "u2") ∧
    ¬ isMember staleAssigneeStore "u2" "w1" ∧
    (updateTicket sampleDates sampleAccepts staleAssigneeStore
      (sampleAdminReq [("title", JsVal.str "New")])).2 =
      { status := 200, message := "Ticket updated",
        payload := Payload.ticket
          { sampleTicket with title := "New", updated_by := some "u1",
                              assigned_to := some "u2" } } ∧
    (updateTicket sampleDates sampleAccepts staleAssigneeStore
      (sampleAdminReq [("title", JsVal.str "New")])).1.tickets =
      [{ sampleTicket with title := "New", updated_by := some "u1",
                           assigned_to := some "u2" }] ∧
    ¬ isMember (updateTicket sampleDates sampleAccepts staleAssigneeStore
      (sampleAdminReq [("title", JsVal.str "New")])).1 "u2" "w1" ∧
    ¬ assigneeOk (updateTicket sampleDates sampleAccepts staleAssigneeStore
      (sampleAdminReq [("title", JsVal.str "New")])).1
      { sampleTicket with title := "New", updated_by := some "u1",
                          assigned_to := some "u2" } := by
  refine ⟨by decide, by decide, by decide, by decide, by decide, ?_⟩
  intro h
  exact absurd (h "u2" rfl) (by decide)

/-! ## The nested list of `getTicketComments` (C29) -/

theorem commentMapLoop_own_of_not_mem (i : Nat) (l : List CommentsRow) (m : CommentMap)
    (k : String) (h : ∀ c ∈ l, c.id ≠ k) : (commentMapLoop i l m).own k = m.own k := by
  induction l generalizing i m with
  | nil => rfl
  | cons c rest ih =>
    simp only [commentMapLoop]
    rw [ih (i + 1) _ (fun c' hc' => h c' (List.mem_cons_of_mem _ hc'))]
    have hne : k ≠ c.id := fun hk => h c (List.mem_cons_self _ _) hk.symm
    split
    · rfl
    · simp [hne]

theorem commentMapLoop_own_some (i : Nat) (l : List CommentsRow) (m : CommentMap)
    (k : String) (j : Nat) (h : (commentMapLoop i l m).own k = some j) :
    m.own k = some j ∨ (i ≤ j ∧ ∃ c, l[j - i]? = some c ∧ c.id = k) := by
  induction l generalizing i m with
  | nil => exact Or.inl h
  | cons c rest ih =>
    simp only [commentMapLoop] at h
    rcases ih (i + 1) _ h with h1 | ⟨hle, c', hc', hid⟩
    · by_cases hp : c.id = "__proto__"
      · rw [if_pos hp] at h1
        exact Or.inl h1
      · rw [if_neg hp] at h1
        by_cases hk : k = c.id
        · simp only [hk, if_true, Option.some.injEq] at h1
          right
          refine ⟨by omega, c, ?_, hk.symm⟩
          rw [← h1]
          simp
        · simp only [hk, if_false] at h1
          exact Or.inl h1
    · right
      refine ⟨by omega, c', ?_, hid⟩
      have : j - i = (j - (i + 1)) + 1 := by omega
      rw [this]
      simpa using hc'

theorem commentMapLoop_own_isSome (i : Nat) (l : List CommentsRow) (m : CommentMap)
    (k : String) (hk0 : k ≠ "__proto__")
    (h : (m.own k).isSome = true ∨ ∃ c ∈ l, c.id = k) :
    ((commentMapLoop i l m).own k).isSome = true := by
  induction l generalizing i m with
  | nil =>
    rcases h with h | ⟨c, hc, _⟩
    · exact h
    · cases hc
  | cons c rest ih =>
    simp only [commentMapLoop]
    apply ih
    by_cases hp : c.id = "__proto__"
    · rw [if_pos hp]
      rcases h with h | ⟨c', hc', hid⟩
      · exact Or.inl h
      · rcases List.mem_cons.1 hc' with h1 | h1
        · exact absurd (by rw [← hid, h1, hp]) hk0
        · exact Or.inr ⟨c', h1, hid⟩
    · rw [if_neg hp]
      by_cases hk : k = c.id
      · left
        simp [hk]
      · rcases h with h | ⟨c', hc', hid⟩
        · left
          simpa [hk] using h
        · rcases List.mem_cons.1 hc' with h1 | h1
          · exact absurd (by rw [← hid, h1]) hk
          · exact Or.inr ⟨c', h1, hid⟩

theorem commentMapLoop_own_of_nodup (i : Nat) (l : List CommentsRow) (m : CommentMap)
    (hpk : (l.map (fun c => c.id)).Nodup) (j : Nat) (c : CommentsRow)
    (hc : l[j]? = some c) (hid : c.id ≠ "__proto__") :
    (commentMapLoop i l m).own c.id = some (i + j) := by
  induction l generalizing i m j with
  | nil => simp at hc
  | cons c0 rest ih =>
    simp only [List.map_cons, List.nodup_cons] at hpk
    simp only [commentMapLoop]
    cases j with
    | zero =>
      simp only [List.getElem?_cons_zero, Option.some.injEq] at hc
      subst hc
      rw [commentMapLoop_own_of_not_mem, if_neg hid]
      · simp
      · intro c' hc' hid'
        exact hpk.1 (List.mem_map.2 ⟨c', hc', hid'⟩)
    | succ j' =>
      simp only [List.getElem?_cons_succ] at hc
      rw [ih (i + 1) _ hpk.2 j' hc]
      congr 1
      omega

theorem commentMapLoop_proto (i : Nat) (l : List CommentsRow) (m : CommentMap)
    (hids : ∀ c ∈ l, c.id ≠ "__proto__") : (commentMapLoop i l m).proto = m.proto := by
  induction l generalizing i m with
  | nil => rfl
  | cons c rest ih =>
    simp only [commentMapLoop]
    rw [ih (i + 1) _ (fun c' hc' => hids c' (List.mem_cons_of_mem _ hc')),
      if_neg (hids c (List.mem_cons_self _ _))]

/-- The object that `commentMap` has for a key as own property is a comment of the
list with that id. -/
theorem commentMapOf_some (cs : List CommentsRow) (k : String) (j : Nat)
    (h : commentMapOf cs k = some j) : ∃ c, cs[j]? = some c ∧ c.id = k := by
  rcases commentMapLoop_own_some 0 cs _ k j h with h1 | ⟨_, c, hc, hid⟩
  · cases h1
  · exact ⟨c, by simpa using hc, hid⟩

theorem commentMapOf_isSome (cs : List CommentsRow) (k : String) (hk : k ≠ "__proto__")
    (h : ∃ c ∈ cs, c.id = k) : ∃ j, commentMapOf cs k = some j :=
  Option.isSome_iff_exists.1 (commentMapLoop_own_isSome 0 cs _ k hk (Or.inr h))

theorem commentMapOf_of_nodup (cs : List CommentsRow)
    (hpk : (cs.map (fun c => c.id)).Nodup) (j : Nat) (c : CommentsRow)
    (hc : cs[j]? = some c) (hid : c.id ≠ "__proto__") : commentMapOf cs c.id = some j := by
  have := commentMapLoop_own_of_nodup 0 cs { own := fun _ => none, proto := none } hpk j c hc hid
  simpa [commentMapOf, commentMap] using this

theorem commentMap_proto (cs : List CommentsRow) (hids : ∀ c ∈ cs, c.id ≠ "__proto__") :
    (commentMap cs).proto = none :=
  commentMapLoop_proto 0 cs _ hids

/-- The read `commentMap[k]` when no comment has the id `__proto__`: the own
property, else what `Object.prototype` has for the key. -/
theorem lookupKey_commentMap (cs : List CommentsRow)
    (hids : ∀ c ∈ cs, c.id ≠ "__proto__") (k : String) :
    lookupKey cs (commentMap cs) k =
      match commentMapOf cs k with
      | some j => Found.comment j
      | none => if k ∈ objectPrototypeKeys then Found.other else Found.nothing := by
  unfold lookupKey
  rw [commentMap_proto cs hids]
  rfl

/-- The arrays after the second loop, when the read `look` finds for every truthy
`parent_id` of the list the comment object that `map` binds to it and a falsy value
otherwise: the loop does not throw, `nestedComments` holds the positions of the
comments without a truthy `parent_id`, and the replies of an object hold the
positions of the comments whose key is bound to it, both in list order. -/
theorem nestLoop_spec (look : String → Found) (map : String → Option Nat) (i : Nat)
    (l : List CommentsRow) (st : NestState)
    (hl : ∀ c ∈ l, ∀ p, parentKey c = some p →
      look p = match map p with
        | some j => Found.comment j
        | none => Found.nothing) :
    ∃ st', nestLoop look i l st = Except.ok st' ∧
      st'.nested =
        st.nested ++ ((l.enumFrom i).filter (fun p => (parentKey p.2).isNone)).map Prod.fst ∧
      ∀ j, st'.replies j =
        st.replies j ++
          ((l.enumFrom i).filter
            (fun p => decide ((parentKey p.2).bind map = some j))).map Prod.fst := by
  induction l generalizing i st with
  | nil => exact ⟨st, rfl, by simp, by simp⟩
  | cons c rest ih =>
    have hrest : ∀ c' ∈ rest, ∀ p, parentKey c' = some p →
        look p = match map p with
          | some j => Found.comment j
          | none => Found.nothing :=
      fun c' hc' => hl c' (List.mem_cons_of_mem _ hc')
    simp only [nestLoop, List.enumFrom_cons, List.filter_cons]
    cases hk : parentKey c with
    | none =>
      simp only [Option.isNone_none, if_true, List.map_cons, Option.bind_none]
      obtain ⟨st', h0, h1, h2⟩ := ih (i + 1) { st with nested := st.nested ++ [i] } hrest
      refine ⟨st', h0, by rw [h1]; simp, fun j => ?_⟩
      rw [h2 j]
      simp
    | some p =>
      have hlook := hl c (List.mem_cons_self _ _) p hk
      simp only [Option.isNone_some, Bool.false_eq_true, if_false, Option.bind_some]
      cases hm : map p with
      | none =>
        rw [hm] at hlook
        simp only [hlook]
        obtain ⟨st', h0, h1, h2⟩ := ih (i + 1) st hrest
        refine ⟨st', h0, h1, fun j => ?_⟩
        rw [h2 j]
        simp [hm]
      | some j0 =>
        rw [hm] at hlook
        simp only [hlook]
        obtain ⟨st', h0, h1, h2⟩ := ih (i + 1)
          { st with replies := fun k => if k = j0 then st.replies k ++ [i] else st.replies k }
          hrest
        refine ⟨st', h0, h1, fun j => ?_⟩
        rw [h2 j]
        by_cases hj : j = j0
        · subst hj
          simp [hm]
        · have hj' : ¬ j0 = j := fun h => hj h.symm
          simp [hm, hj, hj']

/-- The two loops give the nested list of the specification when no comment has the
id `__proto__` and every truthy `parent_id` that names an inherited property is the
id of a listed comment. -/
theorem nestComments_eq_nestedOf (cs : List CommentsRow)
    (hids : ∀ c ∈ cs, c.id ≠ "__proto__")
    (hkeys : ∀ c ∈ cs, ∀ p, parentKey c = some p → p ∈ objectPrototypeKeys →
      ∃ q ∈ cs, q.id = p) :
    nestComments cs = Except.ok (nestedOf cs) := by
  have hl : ∀ c ∈ cs, ∀ p, parentKey c = some p →
      lookupKey cs (commentMap cs) p = match commentMapOf cs p with
        | some j => Found.comment j
        | none => Found.nothing := by
    intro c hc p hp
    rw [lookupKey_commentMap cs hids p]
    cases hm : commentMapOf cs p with
    | some j => rfl
    | none =>
      have hnot : p ∉ objectPrototypeKeys := by
        intro hin
        obtain ⟨q, hq, hqid⟩ := hkeys c hc p hp hin
        have hpne : p ≠ "__proto__" := by
          rw [← hqid]
          exact hids q hq
        obtain ⟨j, hj⟩ := commentMapOf_isSome cs p hpne ⟨q, hq, hqid⟩
        rw [hm] at hj
        cases hj
      simp only [hnot, if_false]
  obtain ⟨st', h0, h1, h2⟩ := nestLoop_spec (lookupKey cs (commentMap cs)) (commentMapOf cs) 0 cs
    { replies := fun _ => [], nested := [] } hl
  have hn : st'.nested = topLevel cs := by
    rw [h1]
    simp [topLevel, List.enum]
  have hr : st'.replies = repliesOf cs := by
    funext j
    rw [h2 j]
    simp [repliesOf, List.enum]
  unfold nestComments nestState
  rw [h0]
  simp only [hn, hr]
  rfl

theorem topLevel_eq (cs : List CommentsRow) :
    topLevel cs = (cs.enum.filter (fun p => (parentKey p.2).isNone)).map Prod.fst := rfl

theorem repliesOf_eq (cs : List CommentsRow) (j : Nat) :
    repliesOf cs j =
      (cs.enum.filter
        (fun p => decide ((parentKey p.2).bind (commentMapOf cs) = some j))).map Prod.fst :=
  rfl

theorem nodup_map_fst_filter_enum (cs : List CommentsRow) (P : Nat × CommentsRow → Bool) :
    ((cs.enum.filter P).map Prod.fst).Nodup := by
  apply List.Nodup.sublist ((List.filter_sublist _).map Prod.fst)
  rw [List.enum_map_fst]
  exact List.nodup_range _

theorem mem_map_fst_filter_enum (cs : List CommentsRow) (P : Nat × CommentsRow → Bool)
    (i : Nat) :
    i ∈ (cs.enum.filter P).map Prod.fst ↔ ∃ c, cs[i]? = some c ∧ P (i, c) = true := by
  simp only [List.mem_map, List.mem_filter]
  constructor
  · rintro ⟨⟨i', c⟩, ⟨hmem, hP⟩, rfl⟩
    exact ⟨c, List.mk_mem_enum_iff_getElem?.1 hmem, hP⟩
  · rintro ⟨c, hc, hP⟩
    exact ⟨(i, c), ⟨List.mk_mem_enum_iff_getElem?.2 hc, hP⟩, rfl⟩

theorem mem_nested (cs : List CommentsRow) (i : Nat) :
    i ∈ topLevel cs ↔ ∃ c, cs[i]? = some c ∧ parentKey c = none := by
  rw [topLevel_eq, mem_map_fst_filter_enum]
  simp only [Option.isNone_iff_eq_none]

theorem mem_replies (cs : List CommentsRow) (i j : Nat) :
    i ∈ repliesOf cs j ↔ parentIndex cs i = some j := by
  rw [repliesOf_eq, mem_map_fst_filter_enum]
  unfold parentIndex
  simp only [decide_eq_true_eq]
  constructor
  · rintro ⟨c, hc, h⟩
    rw [hc]
    exact h
  · intro h
    cases hc : cs[i]? with
    | none => rw [hc] at h; cases h
    | some c =>
      rw [hc] at h
      exact ⟨c, rfl, h⟩

theorem parentIndex_lt (cs : List CommentsRow) (i j : Nat) (h : parentIndex cs i = some j) :
    i < cs.length ∧ j < cs.length := by
  unfold parentIndex at h
  cases hc : cs[i]? with
  | none => rw [hc] at h; cases h
  | some c =>
    rw [hc] at h
    change (parentKey c).bind (commentMapOf cs) = some j at h
    cases hk : parentKey c with
    | none => rw [hk] at h; cases h
    | some p =>
      rw [hk] at h
      obtain ⟨q, hq, _⟩ := commentMapOf_some cs p j h
      exact ⟨(List.getElem?_eq_some.1 hc).1, (List.getElem?_eq_some.1 hq).1⟩

theorem commentAt_nestedOf (cs : List CommentsRow) (j : Nat) :
    commentAt (nestedOf cs).2 j = cs[j]? := by
  unfold commentAt nestedOf
  simp only [List.getElem?_map, List.getElem?_enum, Option.map_map]
  cases cs[j]? <;> rfl

theorem repliesAt_nestedOf (cs : List CommentsRow) (j : Nat) :
    repliesAt (nestedOf cs).2 j = repliesOf cs j := by
  unfold repliesAt nestedOf
  simp only [List.getElem?_map, List.getElem?_enum, Option.map_map]
  cases hc : cs[j]? with
  | some c => rfl
  | none =>
    simp only [Option.map_none']
    symm
    apply List.eq_nil_iff_forall_not_mem.2
    intro i hi
    have hlt := (parentIndex_lt cs i j ((mem_replies cs i j).1 hi)).2
    have := List.getElem?_eq_none_iff.1 hc
    omega

theorem objects_map_fst (cs : List CommentsRow) : (nestedOf cs).2.map Prod.fst = cs := by
  unfold nestedOf
  simp only [List.map_map]
  have : (Prod.fst ∘ fun (p : Nat × CommentsRow) => (p.2, repliesOf cs p.1)) =
      Prod.snd := rfl
  rw [this, List.enum_map_snd]

/-- Reading the comments at the positions of a filtered enumeration gives the
filtered list. -/
theorem filterMap_get_filter_enum (cs : List CommentsRow) (P : CommentsRow → Bool) :
    ((cs.enum.filter (fun p => P p.2)).map Prod.fst).filterMap (fun i => cs[i]?) =
      cs.filter P := by
  rw [List.filterMap_map]
  have h1 : (cs.enum.filter (fun p => P p.2)).filterMap ((fun i => cs[i]?) ∘ Prod.fst) =
      (cs.enum.filter (fun p => P p.2)).filterMap (fun p => some p.2) := by
    apply List.filterMap_congr
    rintro ⟨i, c⟩ hmem
    exact List.mk_mem_enum_iff_getElem?.1 (List.mem_filter.1 hmem).1
  have h3 : (fun p : Nat × CommentsRow => some p.2) = some ∘ Prod.snd := rfl
  rw [h1, h3, List.filterMap_eq_map]
  have h2 : cs.enum.filter (fun p => P p.2) = cs.enum.filter (P ∘ Prod.snd) := rfl
  rw [h2, ← List.filter_map, List.enum_map_snd]

theorem descends_comp (cs : List CommentsRow) (a b j i : Nat) :
    descends cs (a + b) j i ↔ ∃ x, descends cs a j x ∧ descends cs b x i := by
  induction a generalizing j with
  | zero =>
    simp only [Nat.zero_add, descends]
    constructor
    · intro h
      exact ⟨j, rfl, h⟩
    · rintro ⟨x, rfl, h⟩
      exact h
  | succ a ih =>
    have hab : a + 1 + b = (a + b) + 1 := by omega
    rw [hab]
    simp only [descends]
    constructor
    · rintro ⟨c, hc, h⟩
      obtain ⟨x, hx1, hx2⟩ := (ih c).1 h
      exact ⟨x, ⟨c, hc, hx1⟩, hx2⟩
    · rintro ⟨x, ⟨c, hc, hx1⟩, hx2⟩
      exact ⟨c, hc, (ih c).2 ⟨x, hx1, hx2⟩⟩

theorem descends_one (cs : List CommentsRow) (j i : Nat) :
    descends cs 1 j i ↔ parentIndex cs i = some j := by
  simp only [descends]
  constructor
  · rintro ⟨c, hc, rfl⟩
    exact hc
  · intro h
    exact ⟨i, h, rfl⟩

theorem descends_last (cs : List CommentsRow) (m j i : Nat) :
    descends cs (m + 1) j i ↔ ∃ p, descends cs m j p ∧ parentIndex cs i = some p := by
  rw [descends_comp cs m 1 j i]
  simp only [descends_one]

theorem descends_unique (cs : List CommentsRow) (m j j' i : Nat)
    (h : descends cs m j i) (h' : descends cs m j' i) : j = j' := by
  induction m generalizing i with
  | zero =>
    simp only [descends] at h h'
    rw [← h, ← h']
  | succ m ih =>
    obtain ⟨p, hp, hpi⟩ := (descends_last cs m j i).1 h
    obtain ⟨p', hp', hpi'⟩ := (descends_last cs m j' i).1 h'
    have : p = p' := Option.some.inj (hpi.symm.trans hpi')
    subst this
    exact ih p hp hp'

theorem parentIndex_of_top (cs : List CommentsRow) (r : Nat) (c : CommentsRow)
    (hc : cs[r]? = some c) (hk : parentKey c = none) : parentIndex cs r = none := by
  unfold parentIndex
  rw [hc]
  change (parentKey c).bind (commentMapOf cs) = none
  rw [hk]
  rfl

theorem depthIs_unique (cs : List CommentsRow) (d d' i : Nat)
    (h : depthIs cs d i) (h' : depthIs cs d' i) : d = d' := by
  have key : ∀ a k x, depthIs cs a x → depthIs cs (a + k) x → k = 0 := by
    intro a k x ⟨r, c, hc, hk, hd⟩ ⟨r', c', hc', hk', hd'⟩
    rw [Nat.add_comm] at hd'
    obtain ⟨y, hy1, hy2⟩ := (descends_comp cs k a r' x).1 hd'
    have hyr : y = r := descends_unique cs a y r x hy2 hd
    subst hyr
    cases k with
    | zero => rfl
    | succ k =>
      obtain ⟨p, _, hp⟩ := (descends_last cs k r' y).1 hy1
      rw [parentIndex_of_top cs y c hc hk] at hp
      cases hp
  rcases Nat.le_total d d' with hle | hle
  · obtain ⟨k, rfl⟩ := Nat.exists_eq_add_of_le hle
    have := key d k i h h'
    omega
  · obtain ⟨k, rfl⟩ := Nat.exists_eq_add_of_le hle
    have := key d' k i h' h
    omega

theorem depthIs_succ (cs : List CommentsRow) (d i j : Nat) (h : depthIs cs d j)
    (hp : parentIndex cs i = some j) : depthIs cs (d + 1) i := by
  obtain ⟨r, c, hc, hk, hd⟩ := h
  exact ⟨r, c, hc, hk, (descends_last cs d r i).2 ⟨j, hd, hp⟩⟩

theorem depthIs_lt (cs : List CommentsRow) (d i : Nat) (h : depthIs cs d i) :
    i < cs.length := by
  obtain ⟨r, c, hc, hk, hd⟩ := h
  cases d with
  | zero =>
    simp only [descends] at hd
    rw [hd]
    exact (List.getElem?_eq_some.1 hc).1
  | succ d =>
    obtain ⟨p, _, hp⟩ := (descends_last cs d r i).1 hd
    exact (parentIndex_lt cs i p hp).1

/-- The levels above a position: a position `d` levels deep has an ancestor on
every level up to `d`. -/
theorem depthIs_ancestor (cs : List CommentsRow) (d i : Nat) (h : depthIs cs d i)
    (a : Nat) (ha : a ≤ d) : ∃ x, x < cs.length ∧ depthIs cs a x := by
  obtain ⟨r, c, hc, hk, hd⟩ := h
  obtain ⟨k, rfl⟩ := Nat.exists_eq_add_of_le ha
  obtain ⟨x, hx1, _⟩ := (descends_comp cs a k r i).1 hd
  exact ⟨x, depthIs_lt cs a x ⟨r, c, hc, hk, hx1⟩, r, c, hc, hk, hx1⟩

/-- No comment lies as many levels deep as the list has comments. -/
theorem depth_lt_length (cs : List CommentsRow) (d i : Nat) (h : depthIs cs d i) :
    d < cs.length := by
  have hex : ∀ a, a ≤ d → ∃ x, x < cs.length ∧ depthIs cs a x := depthIs_ancestor cs d i h
  choose! f hf using hex
  have hcard := Finset.card_le_card_of_injOn (s := Finset.range (d + 1))
    (t := Finset.range cs.length) f
    (fun a ha => Finset.mem_range.2 (hf a (Nat.lt_succ_iff.1 (Finset.mem_range.1 ha))).1)
    (by
      intro a ha b hb hab
      have ha' := (hf a (Nat.lt_succ_iff.1 (Finset.mem_range.1 ha))).2
      have hb' := (hf b (Nat.lt_succ_iff.1 (Finset.mem_range.1 hb))).2
      rw [hab] at ha'
      exact depthIs_unique cs a b (f b) ha' hb')
  simp only [Finset.card_range] at hcard
  omega

theorem mem_subtree (cs : List CommentsRow) (fuel j i : Nat) :
    i ∈ subtree (nestedOf cs).2 fuel j ↔ ∃ m, m < fuel ∧ descends cs m j i := by
  induction fuel generalizing j with
  | zero => simp [subtree]
  | succ f ih =>
    simp only [subtree, List.mem_cons, List.mem_flatMap, repliesAt_nestedOf, mem_replies]
    constructor
    · rintro (h | ⟨c, hc, hi⟩)
      · exact ⟨0, by omega, h⟩
      · obtain ⟨m, hm, hd⟩ := (ih c).1 hi
        exact ⟨m + 1, by omega, c, hc, hd⟩
    · rintro ⟨m, hm, hd⟩
      cases m with
      | zero => exact Or.inl hd
      | succ m =>
        obtain ⟨c, hc, hd'⟩ := hd
        exact Or.inr ⟨c, hc, (ih c).2 ⟨m, by omega, hd'⟩⟩

theorem subtree_nodup (cs : List CommentsRow) (fuel d j : Nat) (h : depthIs cs d j) :
    (subtree (nestedOf cs).2 fuel j).Nodup := by
  induction fuel generalizing d j with
  | zero => exact List.nodup_nil
  | succ f ih =>
    obtain ⟨r, c0, hc0, hk0, hd0⟩ := h
    simp only [subtree]
    rw [List.nodup_cons, List.nodup_flatMap]
    refine ⟨?_, ?_, ?_⟩
    · intro hmem
      obtain ⟨c, hc, hi⟩ := List.mem_flatMap.1 hmem
      rw [repliesAt_nestedOf, mem_replies] at hc
      obtain ⟨m, _, hdm⟩ := (mem_subtree cs f c j).1 hi
      have h1 : depthIs cs (d + (1 + m)) j :=
        ⟨r, c0, hc0, hk0, (descends_comp cs d (1 + m) r j).2
          ⟨j, hd0, (descends_comp cs 1 m j j).2 ⟨c, (descends_one cs j c).2 hc, hdm⟩⟩⟩
      have := depthIs_unique cs d (d + (1 + m)) j ⟨r, c0, hc0, hk0, hd0⟩ h1
      omega
    · intro c hc
      rw [repliesAt_nestedOf, mem_replies] at hc
      exact ih (d + 1) c (depthIs_succ cs d c j ⟨r, c0, hc0, hk0, hd0⟩ hc)
    · rw [repliesAt_nestedOf, repliesOf_eq]
      apply List.Nodup.pairwise_of_forall_ne (nodup_map_fst_filter_enum cs _)
      intro a ha b hb hab
      rw [← repliesOf_eq, mem_replies] at ha hb
      intro x hxa hxb
      obtain ⟨m, _, hdm⟩ := (mem_subtree cs f a x).1 hxa
      obtain ⟨m', _, hdm'⟩ := (mem_subtree cs f b x).1 hxb
      have ha' := depthIs_succ cs d a j ⟨r, c0, hc0, hk0, hd0⟩ ha
      have hb' := depthIs_succ cs d b j ⟨r, c0, hc0, hk0, hd0⟩ hb
      obtain ⟨ra, ca, hca, hka, hda⟩ := ha'
      obtain ⟨rb, cb, hcb, hkb, hdb⟩ := hb'
      have hxa' : depthIs cs (d + 1 + m) x :=
        ⟨ra, ca, hca, hka, (descends_comp cs (d + 1) m ra x).2 ⟨a, hda, hdm⟩⟩
      have hxb' : depthIs cs (d + 1 + m') x :=
        ⟨rb, cb, hcb, hkb, (descends_comp cs (d + 1) m' rb x).2 ⟨b, hdb, hdm'⟩⟩
      have hmm : m = m' := by
        have := depthIs_unique cs _ _ x hxa' hxb'
        omega
      subst hmm
      exact hab (descends_unique cs m a b x hdm hdm')

theorem subtree_stable (cs : List CommentsRow) (fuel d j : Nat) (h : depthIs cs d j)
    (hfuel : cs.length ≤ d + fuel) :
    subtree (nestedOf cs).2 (fuel + 1) j = subtree (nestedOf cs).2 fuel j := by
  induction fuel generalizing d j with
  | zero =>
    have := depth_lt_length cs d j h
    omega
  | succ f ih =>
    rw [subtree, subtree]
    congr 1
    apply List.flatMap_congr
    intro c hc
    rw [repliesAt_nestedOf, mem_replies] at hc
    exact ih (d + 1) c (depthIs_succ cs d c j h hc) (by omega)

theorem subtree_stable_add (cs : List CommentsRow) (d j : Nat) (h : depthIs cs d j)
    (k : Nat) :
    subtree (nestedOf cs).2 (cs.length + k) j = subtree (nestedOf cs).2 cs.length j := by
  induction k with
  | zero => rfl
  | succ k ih =>
    rw [← ih]
    exact subtree_stable cs (cs.length + k) d j h (by omega)

theorem depthIs_zero_of_nested (cs : List CommentsRow) (r : Nat)
    (h : r ∈ topLevel cs) : depthIs cs 0 r := by
  obtain ⟨c, hc, hk⟩ := (mem_nested cs r).1 h
  exact ⟨r, c, hc, hk, rfl⟩

theorem mem_nestedOrder (cs : List CommentsRow) (fuel i : Nat) :
    i ∈ nestedOrder (nestedOf cs).1 (nestedOf cs).2 fuel ↔
      ∃ d, d < fuel ∧ depthIs cs d i := by
  unfold nestedOrder
  rw [List.mem_flatMap]
  constructor
  · rintro ⟨r, hr, hi⟩
    obtain ⟨c, hc, hk⟩ := (mem_nested cs r).1 hr
    obtain ⟨m, hm, hd⟩ := (mem_subtree cs fuel r i).1 hi
    exact ⟨m, hm, r, c, hc, hk, hd⟩
  · rintro ⟨d, hd, r, c, hc, hk, hdesc⟩
    exact ⟨r, (mem_nested cs r).2 ⟨c, hc, hk⟩, (mem_subtree cs fuel r i).2 ⟨d, hd, hdesc⟩⟩

theorem nestedOrder_nodup (cs : List CommentsRow) (fuel : Nat) :
    (nestedOrder (nestedOf cs).1 (nestedOf cs).2 fuel).Nodup := by
  unfold nestedOrder
  rw [List.nodup_flatMap]
  refine ⟨fun r hr => subtree_nodup cs fuel 0 r (depthIs_zero_of_nested cs r hr), ?_⟩
  have hnd : (nestedOf cs).1.Nodup := by
    show (topLevel cs).Nodup
    rw [topLevel_eq]
    exact nodup_map_fst_filter_enum cs _
  apply List.Nodup.pairwise_of_forall_ne hnd
  intro a ha b hb hab x hxa hxb
  obtain ⟨ca, hca, hka⟩ := (mem_nested cs a).1 ha
  obtain ⟨cb, hcb, hkb⟩ := (mem_nested cs b).1 hb
  obtain ⟨m, _, hdm⟩ := (mem_subtree cs fuel a x).1 hxa
  obtain ⟨m', _, hdm'⟩ := (mem_subtree cs fuel b x).1 hxb
  have hmm : m = m' :=
    depthIs_unique cs m m' x ⟨a, ca, hca, hka, hdm⟩ ⟨b, cb, hcb, hkb, hdm'⟩
  subst hmm
  exact hab (descends_unique cs m a b x hdm hdm')

theorem nestedOrder_stable (cs : List CommentsRow) (k : Nat) :
    nestedOrder (nestedOf cs).1 (nestedOf cs).2 (cs.length + k) =
      nestedOrder (nestedOf cs).1 (nestedOf cs).2 cs.length := by
  unfold nestedOrder
  apply List.flatMap_congr
  intro r hr
  exact subtree_stable_add cs 0 r (depthIs_zero_of_nested cs r hr) k

/-- When every truthy parent key is the id of a listed comment and a rank orders
every parent below its replies, every comment lies some levels below a top-level
comment. -/
theorem depthIs_of_ranked (cs : List CommentsRow)
    (hids : ∀ c ∈ cs, c.id ≠ "__proto__")
    (hparents : ∀ c ∈ cs, ∀ p, parentKey c = some p → ∃ q ∈ cs, q.id = p)
    (rank : String → Nat)
    (hrank : ∀ c ∈ cs, ∀ p, parentKey c = some p → rank p < rank c.id) :
    ∀ N i c, cs[i]? = some c → rank c.id < N → ∃ d, depthIs cs d i := by
  intro N
  induction N with
  | zero => intro i c _ h; omega
  | succ N ih =>
    intro i c hc hN
    have hmem : c ∈ cs := List.mem_iff_getElem?.2 ⟨i, hc⟩
    cases hk : parentKey c with
    | none => exact ⟨0, i, c, hc, hk, rfl⟩
    | some p =>
      have hpne : p ≠ "__proto__" := by
        obtain ⟨q, hq, hqid⟩ := hparents c hmem p hk
        rw [← hqid]
        exact hids q hq
      obtain ⟨j, hj⟩ := commentMapOf_isSome cs p hpne (hparents c hmem p hk)
      obtain ⟨q, hq, hqid⟩ := commentMapOf_some cs p j hj
      have hlt := hrank c hmem p hk
      obtain ⟨d, hd⟩ := ih j q hq (by rw [hqid]; omega)
      refine ⟨d + 1, depthIs_succ cs d i j hd ?_⟩
      unfold parentIndex
      rw [hc]
      change (parentKey c).bind (commentMapOf cs) = some j
      rw [hk]
      exact hj

theorem range_filterMap_get (cs : List CommentsRow) :
    (List.range cs.length).filterMap (fun i => cs[i]?) = cs := by
  have h := filterMap_get_filter_enum cs (fun _ => true)
  simp only [List.filter_true, List.enum_map_fst] at h
  exact h

theorem commentAt_nestedOf_fun (cs : List CommentsRow) :
    commentAt (nestedOf cs).2 = fun i => cs[i]? :=
  funext (commentAt_nestedOf cs)

/-- The answer of `getTicketComments` for a ticket of the workspace of the request
when the loops do not throw. -/
theorem getTicketComments_ok (s : Store) (req : Req) (c : ReqCtx) (ticket : TicketsRow)
    (nested : List Nat × List (CommentsRow × List Nat))
    (hctx : req.ctx = some c)
    (hfind : s.tickets.find? (fun t => t.id = req.params.ticketId) = some ticket)
    (hws : c.workspaceId = some ticket.workspace_id)
    (hnest : nestComments (s.comments.filter (fun x => x.ticket_id = req.params.ticketId)) =
      Except.ok nested) :
    getTicketComments s req =
      (s, { status := 200, message := "", payload := Payload.nested nested.1 nested.2 }) := by
  unfold getTicketComments
  simp only [hctx, hfind, hws, hnest, ne_eq, not_true_eq_false, if_false]

/-- The answer of `getTicketComments` for a ticket of the workspace of the request
when a loop throws. -/
theorem getTicketComments_throws (s : Store) (req : Req) (c : ReqCtx) (ticket : TicketsRow)
    (e : JsError) (hctx : req.ctx = some c)
    (hfind : s.tickets.find? (fun t => t.id = req.params.ticketId) = some ticket)
    (hws : c.workspaceId = some ticket.workspace_id)
    (hnest : nestComments (s.comments.filter (fun x => x.ticket_id = req.params.ticketId)) =
      Except.error e) :
    getTicketComments s req = (s, httpError 500 "Something went wrong") := by
  unfold getTicketComments
  simp only [hctx, hfind, hws, hnest, ne_eq, not_true_eq_false, if_false]
  rfl

/-- The second loop throws on a comment whose truthy `parent_id` reads in
`commentMap` as a truthy value that is no comment object. -/
theorem nestLoop_throws (look : String → Found) (i : Nat) (l : List CommentsRow)
    (st : NestState) (c : CommentsRow) (p : String) (hc : c ∈ l)
    (hp : parentKey c = some p) (hlook : look p = Found.other) :
    ∃ e, nestLoop look i l st = Except.error e := by
  induction l generalizing i st with
  | nil => cases hc
  | cons c0 rest ih =>
    simp only [nestLoop]
    rcases List.mem_cons.1 hc with h | h
    · subst h
      simp only [hp, hlook]
      exact ⟨_, rfl⟩
    · cases hk : parentKey c0 with
      | none => exact ih (i + 1) _ h
      | some q =>
        simp only []
        cases hq : look q with
        | comment j => exact ih (i + 1) _ h
        | other => exact ⟨_, rfl⟩
        | nothing => exact ih (i + 1) _ h

/-- The nested list on the lists for which the loops do not throw.  For every flat
list of comments with distinct ids, none of them `__proto__`, in which every truthy
`parent_id` that names a property inherited by plain objects is the id of a listed
comment: the two loops of `getTicketComments` return; the value they build has one
object per comment; its top-level entries are the comments without a truthy
`parent_id`, in list order; the replies of a comment are the comments whose
`parent_id` is its id, in list order; the serialised value lists no object twice and
is the same for every depth bound from the length of the list on; when every truthy
`parent_id` is the id of a listed comment and the parent relation has no cycle (a
rank orders every parent below its replies), it lists every comment exactly once; a
comment whose truthy `parent_id` is the id of no listed comment is neither a
top-level entry nor a reply of any object; and `getTicketComments` answers 200 with
this value for the comments of a ticket of the workspace of the request. -/
theorem nestComments_each_comment_once (cs : List CommentsRow)
    (hpk : (cs.map (fun c => c.id)).Nodup)
    (hids : ∀ c ∈ cs, c.id ≠ "__proto__")
    (hkeys : ∀ c ∈ cs, ∀ p, parentKey c = some p → p ∈ objectPrototypeKeys →
      ∃ q ∈ cs, q.id = p) :
    nestComments cs = Except.ok (nestedOf cs) ∧
    (nestedOf cs).2.map Prod.fst = cs ∧
    (nestedOf cs).1.filterMap (commentAt (nestedOf cs).2) =
      cs.filter (fun c => (parentKey c).isNone) ∧
    (∀ j c, cs[j]? = some c →
      (repliesAt (nestedOf cs).2 j).filterMap (commentAt (nestedOf cs).2) =
        cs.filter (fun x => decide (parentKey x = some c.id))) ∧
    (∀ fuel, (nestedOrder (nestedOf cs).1 (nestedOf cs).2 fuel).Nodup) ∧
    (∀ k, nestedOrder (nestedOf cs).1 (nestedOf cs).2 (cs.length + k) =
      nestedOrder (nestedOf cs).1 (nestedOf cs).2 cs.length) ∧
    ((∀ c ∈ cs, ∀ p, parentKey c = some p → ∃ q ∈ cs, q.id = p) →
      (∃ rank : String → Nat, ∀ c ∈ cs, ∀ p, parentKey c = some p → rank p < rank c.id) →
      ((nestedOrder (nestedOf cs).1 (nestedOf cs).2 cs.length).filterMap
        (commentAt (nestedOf cs).2)).Perm cs) ∧
    (∀ i c p, cs[i]? = some c → parentKey c = some p → (∀ q ∈ cs, q.id ≠ p) →
      i ∉ (nestedOf cs).1 ∧ ∀ j, i ∉ repliesAt (nestedOf cs).2 j) ∧
    (∀ (s : Store) (req : Req) (ctx : ReqCtx) (ticket : TicketsRow),
      req.ctx = some ctx →
      s.tickets.find? (fun t => t.id = req.params.ticketId) = some ticket →
      ctx.workspaceId = some ticket.workspace_id →
      s.comments.filter (fun x => x.ticket_id = req.params.ticketId) = cs →
      getTicketComments s req =
        (s, { status := 200, message := "",
              payload := Payload.nested (nestedOf cs).1 (nestedOf cs).2 })) := by
  refine ⟨nestComments_eq_nestedOf cs hids hkeys, objects_map_fst cs, ?_, ?_,
    nestedOrder_nodup cs, nestedOrder_stable cs, ?_, ?_, ?_⟩
  · rw [commentAt_nestedOf_fun]
    show (topLevel cs).filterMap _ = _
    rw [topLevel_eq]
    exact filterMap_get_filter_enum cs (fun c => (parentKey c).isNone)
  · intro j c hc
    rw [commentAt_nestedOf_fun, repliesAt_nestedOf, repliesOf_eq]
    rw [filterMap_get_filter_enum cs
      (fun x => decide ((parentKey x).bind (commentMapOf cs) = some j))]
    apply List.filter_congr
    intro x _
    rw [decide_eq_decide]
    constructor
    · intro h
      cases hk : parentKey x with
      | none => rw [hk] at h; cases h
      | some p =>
        rw [hk] at h
        obtain ⟨q, hq, hqid⟩ := commentMapOf_some cs p j h
        have : q = c := Option.some.inj (hq.symm.trans hc)
        rw [← this, hqid]
    · intro h
      rw [h]
      exact commentMapOf_of_nodup cs hpk j c hc (hids c (List.mem_iff_getElem?.2 ⟨j, hc⟩))
  · rintro hparents ⟨rank, hrank⟩
    have hperm : (nestedOrder (nestedOf cs).1 (nestedOf cs).2 cs.length).Perm
        (List.range cs.length) := by
      rw [List.perm_ext_iff_of_nodup (nestedOrder_nodup cs _) (List.nodup_range _)]
      intro i
      rw [mem_nestedOrder, List.mem_range]
      constructor
      · rintro ⟨d, _, hd⟩
        exact depthIs_lt cs d i hd
      · intro hi
        obtain ⟨c, hc⟩ : ∃ c, cs[i]? = some c := ⟨cs[i], List.getElem?_eq_getElem hi⟩
        obtain ⟨d, hd⟩ := depthIs_of_ranked cs hids hparents rank hrank (rank c.id + 1) i c hc
          (by omega)
        exact ⟨d, depth_lt_length cs d i hd, hd⟩
    have := hperm.filterMap (commentAt (nestedOf cs).2)
    rw [commentAt_nestedOf_fun] at this ⊢
    rw [range_filterMap_get] at this
    exact this
  · intro i c p hc hk hno
    constructor
    · intro hmem
      obtain ⟨c', hc', hk'⟩ := (mem_nested cs i).1 hmem
      have : c' = c := Option.some.inj (hc'.symm.trans hc)
      rw [this, hk] at hk'
      cases hk'
    · intro j hmem
      rw [repliesAt_nestedOf, mem_replies] at hmem
      unfold parentIndex at hmem
      rw [hc] at hmem
      change (parentKey c).bind (commentMapOf cs) = some j at hmem
      rw [hk] at hmem
      obtain ⟨q, hq, hqid⟩ := commentMapOf_some cs p j hmem
      exact hno q (List.mem_iff_getElem?.2 ⟨j, hq⟩) hqid
  · intro s req ctx ticket hctx hfind hws hcs
    rw [getTicketComments_ok s req ctx ticket (nestedOf cs) hctx hfind hws
      (by rw [hcs]; exact nestComments_eq_nestedOf cs hids hkeys)]

/-- The nested list at three comments, a comment, its reply and the reply to that
reply, listed with the last one first: the serialised value lists each of them
once. -/
theorem nestComments_each_comment_once_sample :
    nestComments sampleComments = Except.ok (nestedOf sampleComments) ∧
    ((nestedOrder (nestedOf sampleComments).1 (nestedOf sampleComments).2
        sampleComments.length).filterMap (commentAt (nestedOf sampleComments).2)).Perm
      sampleComments := by
  have hkeys : ∀ c ∈ sampleComments, ∀ p, parentKey c = some p → p ∈ objectPrototypeKeys →
      ∃ q ∈ sampleComments, q.id = p := by
    intro c hc p hp
    simp only [sampleComments, List.mem_cons, List.mem_singleton, List.not_mem_nil,
      or_false] at hc
    rcases hc with rfl | rfl | rfl
    · have : p = "c2" := by simpa [parentKey] using hp.symm
      subst this
      intro h
      exact absurd h (by decide)
    · simp [parentKey] at hp
    · have : p = "c1" := by simpa [parentKey] using hp.symm
      subst this
      intro h
      exact absurd h (by decide)
  have h := nestComments_each_comment_once sampleComments (by decide) (by decide) hkeys
  refine ⟨h.1, h.2.2.2.2.2.2.1 ?_ ⟨sampleRank, ?_⟩⟩
  · intro c hc p hp
    simp only [sampleComments, List.mem_cons, List.mem_singleton, List.not_mem_nil,
      or_false] at hc
    rcases hc with rfl | rfl | rfl
    · have : p = "c2" := by simpa [parentKey] using hp.symm
      subst this
      simp [sampleComments]
    · simp [parentKey] at hp
    · have : p = "c1" := by simpa [parentKey] using hp.symm
      subst this
      simp [sampleComments]
  · intro c hc p hp
    simp only [sampleComments, List.mem_cons, List.mem_singleton, List.not_mem_nil,
      or_false] at hc
    rcases hc with rfl | rfl | rfl
    · have : p = "c2" := by simpa [parentKey] using hp.symm
      subst this
      decide
    · simp [parentKey] at hp
    · have : p = "c1" := by simpa [parentKey] using hp.symm
      subst this
      decide

/-- C29. A comment whose `parent_id` names a property that plain objects inherit is
not skipped.  The workspace admin creates a comment on ticket `t1` with the
`parentId` "constructor": `createComment` answers 201 and stores the row.  For the
comments of `t1` the read `commentMap["constructor"]` then finds the inherited
function, the second loop throws, and `getTicketComments` answers 500, where the
specification asks for a list in which the comment appears nowhere.  With a `parentId` that
names no inherited property and no comment, "c0", the same calls answer 200 with an
empty top-level list and no replies. -/
theorem getTicketComments_inherited_parent_500 :
    (createComment "c9" (fun _ _ => true) sampleStore
      (sampleAdminReq [("message", JsVal.str "hi"),
        ("parentId", JsVal.str "constructor")])).2.status = 201 ∧
    inheritedParentStore.comments =
      [{ id := "c9", ticket_id := "t1", user_id := "u1", message := "hi",
         parent_id := some "constructor" }] ∧
    lookupKey inheritedParentStore.comments (commentMap inheritedParentStore.comments)
      "constructor" = Found.other ∧
    getTicketComments inheritedParentStore (sampleAdminReq []) =
      (inheritedParentStore, httpError 500 "Something went wrong") ∧
    (getTicketComments
      (createComment "c9" (fun _ _ => true) sampleStore
        (sampleAdminReq [("message", JsVal.str "hi"), ("parentId", JsVal.str "c0")])).1
      (sampleAdminReq [])).2 =
      { status := 200, message := "",
        payload := Payload.nested []
          [({ id := "c9", ticket_id := "t1", user_id := "u1", message := "hi",
              parent_id := some "c0" }, [])] } := by
  refine ⟨by decide, by decide, by decide, ?_, ?_⟩
  · exact getTicketComments_throws inheritedParentStore (sampleAdminReq []) _ sampleTicket
      { name := "TypeError", message := "Cannot read properties of undefined (reading 'push')",
        status := none } rfl (by decide) (by decide) (by rfl)
  · decide

end TicketFlow
